import Mathlib

/-!
Shallow embedding of the virtio-mem memory hot(un)plug state machine from
drivers/virtio/virtio_mem.c. Pure byte/size arithmetic uses Nat for
addresses and Int for signed byte counters; fallible kernel aborts
(BUG_ON/BUG) are modelled with Option (none = abort); external
collaborators (mem-buf host transport, Linux MM, local allocators) are
modelled as oracle streams consumed in call order.
-/

/-- Errno constant ENOSPC (no space left on device). -/
def ENOSPC : Int := 28

/-- Errno constant ETXTBSY (text file busy; hypervisor busy). -/
def ETXTBSY : Int := 26

/-- Errno constant EBUSY (device or resource busy). -/
def EBUSY : Int := 16

/-- Errno constant ENOMEM (out of memory). -/
def ENOMEM : Int := 12

/-- Errno constant EAGAIN (try again). -/
def EAGAIN : Int := 11

/-- Errno constant EINVAL (invalid argument). -/
def EINVAL : Int := 22

/-- Errno constant EIO (input/output error), used only as a sample
unrecognized host-transport error in counterexamples; named EIO_code as
Lean already declares EIO. -/
def EIO_code : Int := 5

/-- Notifier return value NOTIFY_DONE (0x0000). -/
def NOTIFY_DONE : Int := 0

/-- Notifier return value NOTIFY_OK (0x0001). -/
def NOTIFY_OK : Int := 1

/-- Notifier return value NOTIFY_BAD (0x8002 = NOTIFY_STOP_MASK | 2). -/
def NOTIFY_BAD : Int := 32770

/-- Modelled from the spec: the SBM per-memory-block state enumerators of
enum virtio_mem_sbm_mb_state (declared in the repository header
qti_virtio_mem.h, which is not part of the provided sources). Order
follows the spec's state listing together with the source's reliance on
FULL = PARTIAL - 1 (virtio_mem_sbm_plug_any_sb sets old_state - 1 when a
partially plugged block becomes fully plugged). UNUSED: never added to
Linux. -/
def VIRTIO_MEM_SBM_MB_UNUSED : Nat := 0

/-- SBM state PLUGGED: plugged at the host, not yet added to Linux,
awaiting cleanup/retry. -/
def VIRTIO_MEM_SBM_MB_PLUGGED : Nat := 1

/-- SBM state OFFLINE: added to Linux, fully plugged, offline. -/
def VIRTIO_MEM_SBM_MB_OFFLINE : Nat := 2

/-- SBM state OFFLINE_PARTIAL: added to Linux, partially plugged, offline. -/
def VIRTIO_MEM_SBM_MB_OFFLINE_PARTIAL : Nat := 3

/-- SBM state KERNEL: online to a kernel zone, fully plugged. -/
def VIRTIO_MEM_SBM_MB_KERNEL : Nat := 4

/-- SBM state KERNEL_PARTIAL: online to a kernel zone, partially plugged. -/
def VIRTIO_MEM_SBM_MB_KERNEL_PARTIAL : Nat := 5

/-- SBM state MOVABLE: online to ZONE_MOVABLE, fully plugged. -/
def VIRTIO_MEM_SBM_MB_MOVABLE : Nat := 6

/-- SBM state MOVABLE_PARTIAL: online to ZONE_MOVABLE, partially plugged. -/
def VIRTIO_MEM_SBM_MB_MOVABLE_PARTIAL : Nat := 7

/-- Number of SBM memory-block states. -/
def VIRTIO_MEM_SBM_MB_COUNT : Nat := 8

/-- Modelled from the spec: the BBM per-big-block state enumerators of
enum virtio_mem_bbm_bb_state (declared in qti_virtio_mem.h, not part of
the provided sources). UNUSED: not plugged. -/
def VIRTIO_MEM_BBM_BB_UNUSED : Nat := 0

/-- BBM state PLUGGED: plugged at the host, not added to Linux. -/
def VIRTIO_MEM_BBM_BB_PLUGGED : Nat := 1

/-- BBM state ADDED: plugged at the host and added to Linux. -/
def VIRTIO_MEM_BBM_BB_ADDED : Nat := 2

/-- BBM state FAKE_OFFLINE: all online parts are fake-offline, prepared
for removal. -/
def VIRTIO_MEM_BBM_BB_FAKE_OFFLINE : Nat := 3

/-- Number of BBM big-block states. -/
def VIRTIO_MEM_BBM_BB_COUNT : Nat := 4

/-- Modelled from the spec: minimum retry backoff delay in ms
(VIRTIO_MEM_RETRY_TIMER_MIN_MS, defined in the missing header); the spec
only requires a minimum that backoff resets to on success. -/
def VIRTIO_MEM_RETRY_TIMER_MIN_MS : Nat := 50000

/-- Modelled from the spec: maximum retry backoff delay in ms
(VIRTIO_MEM_RETRY_TIMER_MAX_MS, defined in the missing header); the spec
only requires a cap for the doubling backoff. -/
def VIRTIO_MEM_RETRY_TIMER_MAX_MS : Nat := 300000

/-- Module parameter unplug_online, initialized true in the source
(static bool unplug_online = true). -/
def unplug_online : Bool := true

/-- Oracle streams for the external collaborators. Each stream is a
total function from a per-stream call counter (held in the device state)
to the result of that call. mem_buf_alloc_result: 0 means a handle was
returned, a nonzero (negative) value is PTR_ERR of the failed
allocation. local_alloc_ok: result of a local kernel allocation
(kzalloc/vzalloc/kstrdup). is_zone_movable and pfn_online are indexed by
pfn, modelling the OS zone/online layout. -/
structure Env where
  mem_buf_alloc_result : Nat → Int
  add_memory_result : Nat → Int
  remove_memory_result : Nat → Int
  offline_and_remove_result : Nat → Int
  alloc_contig_result : Nat → Int
  config_changed_read : Nat → Bool
  local_alloc_ok : Nat → Bool
  is_zone_movable : Nat → Bool
  pfn_online : Nat → Bool

/-- Device state of struct virtio_mem plus the per-oracle call counters.
Sizes/addresses are in bytes (Nat); plugged_size, requested_size and
offline_size are Int as they participate in signed comparisons and
subtraction. Dynamic arrays (mb_states, bb_states, the subblock bitmap
sb_states and the membuf xarray) are total functions. -/
structure VM where
  device_block_size : Nat
  mb_size : Nat
  vmemmap_size : Nat
  memmap_on_memory : Bool
  in_sbm : Bool
  addr : Nat
  region_size : Nat
  pluggable_end : Nat
  plugged_size : Int
  requested_size : Int
  offline_size : Int
  offline_threshold : Int
  broken : Bool
  removing : Bool
  hotplug_active : Bool
  unplug_all_required : Bool
  have_unplugged_mb : Bool
  resource_name : Bool
  retry_timer_ms : Nat
  timer_pending : Bool
  sbm_sb_size : Nat
  sbm_sbs_per_mb : Nat
  sbm_first_mb_id : Nat
  sbm_next_mb_id : Nat
  sbm_last_usable_mb_id : Nat
  sbm_mb_states : Nat → Nat
  sbm_mb_count : Nat → Nat
  sbm_sb_states : Nat → Bool
  sbm_mb_states_present : Bool
  sbm_sb_states_present : Bool
  bbm_bb_states_present : Bool
  bbm_bb_size : Nat
  bbm_first_bb_id : Nat
  bbm_next_bb_id : Nat
  bbm_last_usable_bb_id : Nat
  bbm_bb_states : Nat → Nat
  bbm_bb_count : Nat → Nat
  membuf : Nat → Bool
  marked_pages : Int
  alloc_cnt : Nat
  la_cnt : Nat
  add_cnt : Nat
  remove_cnt : Nat
  offrem_cnt : Nat
  contig_cnt : Nat
  cfg_cnt : Nat
  env : Env

/-- Calculate the memory block id of a given address
(virtio_mem_phys_to_mb_id). -/
def virtio_mem_phys_to_mb_id (s : VM) (a : Nat) : Nat :=
  a / s.mb_size

/-- Calculate the physical start address of a given memory block id
(virtio_mem_mb_id_to_phys). -/
def virtio_mem_mb_id_to_phys (s : VM) (mb_id : Nat) : Nat :=
  mb_id * s.mb_size

/-- Calculate the physical start address of a given subblock
(virtio_mem_sb_id_to_phys); with memmap_on_memory the first subblock
holds the memmap, shifting sb ids by one. -/
def virtio_mem_sb_id_to_phys (s : VM) (mb_id sb_id : Nat) : Nat :=
  let sb_id := if s.memmap_on_memory then sb_id + 1 else sb_id
  mb_id * s.mb_size + sb_id * s.sbm_sb_size

/-- Calculate the big block id of a given address
(virtio_mem_phys_to_bb_id). -/
def virtio_mem_phys_to_bb_id (s : VM) (a : Nat) : Nat :=
  a / s.bbm_bb_size

/-- Calculate the physical start address of a given big block id
(virtio_mem_bb_id_to_phys). -/
def virtio_mem_bb_id_to_phys (s : VM) (bb_id : Nat) : Nat :=
  bb_id * s.bbm_bb_size

/-- Set the state of a big block, taking care of the state counter
(virtio_mem_bbm_set_bb_state). The BUG_ON on an exhausted old-state
counter is modelled as none. -/
def virtio_mem_bbm_set_bb_state (s : VM) (bb_id state : Nat) : Option VM :=
  let idx := bb_id - s.bbm_first_bb_id
  let old_state := s.bbm_bb_states idx
  if s.bbm_bb_count old_state = 0 then
    none
  else
    some { s with
      bbm_bb_states := fun i => if i = idx then state else s.bbm_bb_states i,
      bbm_bb_count := fun st =>
        let c := if st = old_state then s.bbm_bb_count st - 1 else s.bbm_bb_count st
        if st = state then c + 1 else c }

/-- Get the state of a big block (virtio_mem_bbm_get_bb_state). -/
def virtio_mem_bbm_get_bb_state (s : VM) (bb_id : Nat) : Nat :=
  s.bbm_bb_states (bb_id - s.bbm_first_bb_id)

/-- Set the state of a memory block, taking care of the state counter
(virtio_mem_sbm_set_mb_state). The BUG_ON on an exhausted old-state
counter is modelled as none. -/
def virtio_mem_sbm_set_mb_state (s : VM) (mb_id state : Nat) : Option VM :=
  let idx := mb_id - s.sbm_first_mb_id
  let old_state := s.sbm_mb_states idx
  if s.sbm_mb_count old_state = 0 then
    none
  else
    some { s with
      sbm_mb_states := fun i => if i = idx then state else s.sbm_mb_states i,
      sbm_mb_count := fun st =>
        let c := if st = old_state then s.sbm_mb_count st - 1 else s.sbm_mb_count st
        if st = state then c + 1 else c }

/-- Get the state of a memory block (virtio_mem_sbm_get_mb_state). -/
def virtio_mem_sbm_get_mb_state (s : VM) (mb_id : Nat) : Nat :=
  s.sbm_mb_states (mb_id - s.sbm_first_mb_id)

/-- Bit number in the subblock bitmap for a subblock of a memory block
(virtio_mem_sbm_sb_state_bit_nr). -/
def virtio_mem_sbm_sb_state_bit_nr (s : VM) (mb_id sb_id : Nat) : Nat :=
  (mb_id - s.sbm_first_mb_id) * s.sbm_sbs_per_mb + sb_id

/-- Mark the selected subblocks plugged (virtio_mem_sbm_set_sb_plugged,
a __bitmap_set over count bits). -/
def virtio_mem_sbm_set_sb_plugged (s : VM) (mb_id sb_id count : Nat) : VM :=
  let bit := virtio_mem_sbm_sb_state_bit_nr s mb_id sb_id
  { s with sbm_sb_states := fun i =>
      if bit ≤ i ∧ i < bit + count then true else s.sbm_sb_states i }

/-- Mark the selected subblocks unplugged
(virtio_mem_sbm_set_sb_unplugged, a __bitmap_clear over count bits). -/
def virtio_mem_sbm_set_sb_unplugged (s : VM) (mb_id sb_id count : Nat) : VM :=
  let bit := virtio_mem_sbm_sb_state_bit_nr s mb_id sb_id
  { s with sbm_sb_states := fun i =>
      if bit ≤ i ∧ i < bit + count then false else s.sbm_sb_states i }

/-- Test whether all selected subblocks are plugged
(virtio_mem_sbm_test_sb_plugged). -/
def virtio_mem_sbm_test_sb_plugged (s : VM) (mb_id sb_id count : Nat) : Bool :=
  let bit := virtio_mem_sbm_sb_state_bit_nr s mb_id sb_id
  (List.range count).all fun k => s.sbm_sb_states (bit + k)

/-- Test whether all selected subblocks are unplugged
(virtio_mem_sbm_test_sb_unplugged). -/
def virtio_mem_sbm_test_sb_unplugged (s : VM) (mb_id sb_id count : Nat) : Bool :=
  let bit := virtio_mem_sbm_sb_state_bit_nr s mb_id sb_id
  (List.range count).all fun k => !(s.sbm_sb_states (bit + k))

/-- Find the first unplugged subblock of a memory block; returns
sbs_per_mb if every subblock is plugged
(virtio_mem_sbm_first_unplugged_sb, a find_next_zero_bit scan). -/
def virtio_mem_sbm_first_unplugged_sb (s : VM) (mb_id : Nat) : Nat :=
  let bit := virtio_mem_sbm_sb_state_bit_nr s mb_id 0
  match (List.range s.sbm_sbs_per_mb).find? (fun k => !(s.sbm_sb_states (bit + k))) with
  | some k => k
  | none => s.sbm_sbs_per_mb

/-- Normalize a host-transport error to the codes virtio_mem_run_wq
understands (virtio_mem_convert_error_code): ENOSPC/ETXTBSY/EBUSY/EAGAIN
pass through, everything else defaults to ENOMEM. -/
def virtio_mem_convert_error_code (rc : Int) : Int :=
  if rc = -ENOSPC ∨ rc = -ETXTBSY ∨ rc = -EBUSY ∨ rc = -EAGAIN then rc
  else -ENOMEM

/-- Per-device-block loop of virtio_mem_send_unplug_request: look up the
membuf handle for each device block; a missing handle is WARN + -EINVAL
(earlier handles stay freed). The loop is indexed by the number of
device blocks (size / device_block_size), faithful to the C while loop
whenever device_block_size divides size (guaranteed by all callers,
which pass multiples of the subblock/big-block/vmemmap size). -/
def virtio_mem_send_unplug_loop : Nat → VM → Nat → VM × Int
  | 0, s, _ => (s, 0)
  | n + 1, s, a =>
    if s.membuf a then
      let s1 := { s with membuf := fun x => if x = a then false else s.membuf x }
      virtio_mem_send_unplug_loop n s1 (a + s.device_block_size)
    else
      (s, -EINVAL)

/-- Free the membuf handles backing [addr, addr + size) and account the
unplugged bytes (virtio_mem_send_unplug_request). plugged_size is only
decreased when every handle was found; memmap requests never touch
plugged_size. -/
def virtio_mem_send_unplug_request (s : VM) (a size : Nat) (memmap : Bool) :
    VM × Int :=
  match virtio_mem_send_unplug_loop (size / s.device_block_size) s a with
  | (s1, rc) =>
    if rc = 0 then
      if memmap then (s1, 0)
      else ({ s1 with plugged_size := s1.plugged_size - (size : Int) }, 0)
    else (s1, rc)

/-- Per-device-block loop of virtio_mem_send_plug_request: allocate a
membuf for each device block, store the handle and account the plugged
bytes; the first failure stops the loop with the converted error code
and the number of blocks left unprocessed. -/
def virtio_mem_send_plug_loop : Nat → VM → Nat → Bool → VM × Int × Nat
  | 0, s, _, _ => (s, 0, 0)
  | n + 1, s, a, memmap =>
    let r := s.env.mem_buf_alloc_result s.alloc_cnt
    let s0 := { s with alloc_cnt := s.alloc_cnt + 1 }
    if r = 0 then
      let s1 := { s0 with
        membuf := fun x => if x = a then true else s0.membuf x,
        plugged_size :=
          if memmap then s0.plugged_size
          else s0.plugged_size + (s0.device_block_size : Int) }
      virtio_mem_send_plug_loop n s1 (a + s.device_block_size) memmap
    else
      (s0, virtio_mem_convert_error_code r, n + 1)

/-- Allocate membuf handles for [addr, addr + size)
(virtio_mem_send_plug_request): a failed gh_sgl kzalloc is -ENOMEM; a
failed membuf allocation rolls the already-plugged prefix back through
virtio_mem_send_unplug_request and returns the converted error. The
block loop is indexed by size / device_block_size as in
virtio_mem_send_unplug_request. -/
def virtio_mem_send_plug_request (s : VM) (a size : Nat) (memmap : Bool) :
    VM × Int :=
  let ok := s.env.local_alloc_ok s.la_cnt
  let s0 := { s with la_cnt := s.la_cnt + 1 }
  if ¬ ok then (s0, -ENOMEM)
  else
    let n := size / s.device_block_size
    match virtio_mem_send_plug_loop n s0 a memmap with
    | (s1, rc, rem) =>
      if rc = 0 then (s1, 0)
      else
        let done := (n - rem) * s.device_block_size
        if 0 < done then
          match virtio_mem_send_unplug_request s1 a done memmap with
          | (s2, _) => (s2, rc)
        else (s1, rc)

/-- Page size constant (4096 bytes), used for the PFN_UP-based lazy
growth checks of the tracking arrays. -/
def PAGE_SIZE : Nat := 4096

/-- PFN_UP: number of pages needed for the given number of bytes. -/
def PFN_UP (x : Nat) : Nat :=
  (x + PAGE_SIZE - 1) / PAGE_SIZE

/-- BITS_TO_LONGS for 64-bit longs. -/
def BITS_TO_LONGS (bits : Nat) : Nat :=
  (bits + 63) / 64

/-- Test whether memory could be added without creating too much
offline memory (virtio_mem_could_add_memory): a size above the
threshold is WARN + false, otherwise offline_size + size must stay
within offline_threshold. -/
def virtio_mem_could_add_memory (s : VM) (size : Nat) : Bool :=
  if (s.offline_threshold : Int) < (size : Int) then false
  else decide (s.offline_size + (size : Int) ≤ s.offline_threshold)

/-- Plug the memmap backing pages of a memory block when
memmap_on_memory is active (virtio_mem_plug_memmap); a memmap plug never
touches plugged_size. -/
def virtio_mem_plug_memmap (s : VM) (a : Nat) : VM × Int :=
  if ¬ s.memmap_on_memory then (s, 0)
  else virtio_mem_send_plug_request s a s.vmemmap_size true

/-- Unplug the memmap backing pages of a memory block when
memmap_on_memory is active (virtio_mem_unplug_memmap); the result is
ignored by the caller in the source. -/
def virtio_mem_unplug_memmap (s : VM) (a : Nat) : VM :=
  if ¬ s.memmap_on_memory then s
  else (virtio_mem_send_unplug_request s a s.vmemmap_size true).1

/-- Body of virtio_mem_add_memory after the resource name exists: plug
the memmap, account the range as offline, call
add_memory_driver_managed, and on failure revert the offline accounting
and unplug the memmap. -/
def virtio_mem_add_memory_go (s : VM) (a size : Nat) : VM × Int :=
  match virtio_mem_plug_memmap s a with
  | (s1, rc) =>
    if rc ≠ 0 then (s1, rc)
    else
      if s1.env.add_memory_result s1.add_cnt = 0 then
        ({ s1 with
            offline_size := s1.offline_size + (size : Int),
            add_cnt := s1.add_cnt + 1 },
          0)
      else
        (virtio_mem_unplug_memmap
          { s1 with add_cnt := s1.add_cnt + 1 } a,
          s1.env.add_memory_result s1.add_cnt)

/-- Try adding memory to Linux (virtio_mem_add_memory): lazily allocate
the resource name (kstrdup, a local allocation, -ENOMEM on failure),
then plug the memmap, account the range as offline and call
add_memory_driver_managed via virtio_mem_add_memory_go; on add failure
the offline accounting is reverted (the net offline_size change of the
failing branch is zero) and the memmap unplugged. -/
def virtio_mem_add_memory (s : VM) (a size : Nat) : VM × Int :=
  if s.resource_name then virtio_mem_add_memory_go s a size
  else if s.env.local_alloc_ok s.la_cnt then
    virtio_mem_add_memory_go
      { s with la_cnt := s.la_cnt + 1, resource_name := true } a size
  else ({ s with la_cnt := s.la_cnt + 1, resource_name := false }, -ENOMEM)

/-- Try adding a single Linux memory block (virtio_mem_sbm_add_mb). -/
def virtio_mem_sbm_add_mb (s : VM) (mb_id : Nat) : VM × Int :=
  virtio_mem_add_memory s (virtio_mem_mb_id_to_phys s mb_id) s.mb_size

/-- Try adding a big block (virtio_mem_bbm_add_bb). -/
def virtio_mem_bbm_add_bb (s : VM) (bb_id : Nat) : VM × Int :=
  virtio_mem_add_memory s (virtio_mem_bb_id_to_phys s bb_id) s.bbm_bb_size

/-- Try removing memory from Linux (virtio_mem_remove_memory); on
success the range stops being accounted offline and the memmap is
unplugged afterwards. -/
def virtio_mem_remove_memory (s : VM) (a size : Nat) : VM × Int :=
  let rc := s.env.remove_memory_result s.remove_cnt
  let s1 := { s with remove_cnt := s.remove_cnt + 1 }
  if rc = 0 then
    let s2 := { s1 with offline_size := s1.offline_size - (size : Int) }
    (virtio_mem_unplug_memmap s2 a, 0)
  else (s1, rc)

/-- Try removing a single Linux memory block (virtio_mem_sbm_remove_mb). -/
def virtio_mem_sbm_remove_mb (s : VM) (mb_id : Nat) : VM × Int :=
  virtio_mem_remove_memory s (virtio_mem_mb_id_to_phys s mb_id) s.mb_size

/-- Try offlining and removing memory from Linux
(virtio_mem_offline_and_remove_memory); on success the offline
accounting is reverted and the memmap unplugged; a failure is normalized
to -ENOMEM or -EBUSY. -/
def virtio_mem_offline_and_remove_memory (s : VM) (a size : Nat) : VM × Int :=
  let rc := s.env.offline_and_remove_result s.offrem_cnt
  let s1 := { s with offrem_cnt := s.offrem_cnt + 1 }
  if rc = 0 then
    let s2 := { s1 with offline_size := s1.offline_size - (size : Int) }
    (virtio_mem_unplug_memmap s2 a, 0)
  else (s1, if rc = -ENOMEM then -ENOMEM else -EBUSY)

/-- Try offlining and removing a single Linux memory block
(virtio_mem_sbm_offline_and_remove_mb). -/
def virtio_mem_sbm_offline_and_remove_mb (s : VM) (mb_id : Nat) : VM × Int :=
  virtio_mem_offline_and_remove_memory s (virtio_mem_mb_id_to_phys s mb_id)
    s.mb_size

/-- Try offlining and removing all Linux memory blocks covered by a big
block (virtio_mem_bbm_offline_and_remove_bb). -/
def virtio_mem_bbm_offline_and_remove_bb (s : VM) (bb_id : Nat) : VM × Int :=
  virtio_mem_offline_and_remove_memory s (virtio_mem_bb_id_to_phys s bb_id)
    s.bbm_bb_size

/-- Set a range of pages PG_offline (virtio_mem_set_fake_offline);
modelled by its net effect on the count of pages the device holds
marked fake-offline. -/
def virtio_mem_set_fake_offline (s : VM) (_pfn nr_pages : Nat) : VM :=
  { s with marked_pages := s.marked_pages + (nr_pages : Int) }

/-- Clear PG_offline from a range of pages
(virtio_mem_clear_fake_offline). -/
def virtio_mem_clear_fake_offline (s : VM) (_pfn nr_pages : Nat) : VM :=
  { s with marked_pages := s.marked_pages - (nr_pages : Int) }

/-- Release fake-offline pages back to the buddy
(virtio_mem_fake_online): the marking is cleared; the page-level buddy
interaction lies outside this model. -/
def virtio_mem_fake_online (s : VM) (pfn nr_pages : Nat) : VM :=
  virtio_mem_clear_fake_offline s pfn nr_pages

/-- One attempt chain of the virtio_mem_fake_offline retry loop:
attempts remaining, checking config_changed before each
alloc_contig_range try; -ENOMEM is returned at once; other failures
abort with -EBUSY for unmovable pages and otherwise retry; exhausting
all attempts is -EBUSY. -/
def virtio_mem_fake_offline_loop (pfn nr_pages : Nat) :
    Nat → VM → Bool → VM × Int
  | 0, s, _ => (s, -EBUSY)
  | n + 1, s, is_movable =>
    let changed := s.env.config_changed_read s.cfg_cnt
    let s0 := { s with cfg_cnt := s.cfg_cnt + 1 }
    if changed then (s0, -EAGAIN)
    else
      let rc := s0.env.alloc_contig_result s0.contig_cnt
      let s1 := { s0 with contig_cnt := s0.contig_cnt + 1 }
      if rc = -ENOMEM then (s1, rc)
      else if rc ≠ 0 ∧ ¬ is_movable then (s1, -EBUSY)
      else if rc ≠ 0 then virtio_mem_fake_offline_loop pfn nr_pages n s1 is_movable
      else (virtio_mem_set_fake_offline s1 pfn nr_pages, 0)

/-- Try to allocate a pfn range and mark it fake-offline
(virtio_mem_fake_offline): at most 5 attempts of alloc_contig_range,
zone movability probed at the start pfn. -/
def virtio_mem_fake_offline (s : VM) (pfn nr_pages : Nat) : VM × Int :=
  virtio_mem_fake_offline_loop pfn nr_pages 5 s (s.env.is_zone_movable pfn)

/-- Plug selected subblocks and mark them in the bitmap on success
(virtio_mem_sbm_plug_sb); does not modify the memory block state. -/
def virtio_mem_sbm_plug_sb (s : VM) (mb_id sb_id count : Nat) : VM × Int :=
  let a := virtio_mem_sb_id_to_phys s mb_id sb_id
  let size := count * s.sbm_sb_size
  match virtio_mem_send_plug_request s a size false with
  | (s1, rc) =>
    if rc = 0 then (virtio_mem_sbm_set_sb_plugged s1 mb_id sb_id count, 0)
    else (s1, rc)

/-- Unplug selected subblocks and clear them in the bitmap on success
(virtio_mem_sbm_unplug_sb); does not modify the memory block state. -/
def virtio_mem_sbm_unplug_sb (s : VM) (mb_id sb_id count : Nat) : VM × Int :=
  let a := virtio_mem_sb_id_to_phys s mb_id sb_id
  let size := count * s.sbm_sb_size
  match virtio_mem_send_unplug_request s a size false with
  | (s1, rc) =>
    if rc = 0 then (virtio_mem_sbm_set_sb_unplugged s1 mb_id sb_id count, 0)
    else (s1, rc)

/-- Request to unplug a big block (virtio_mem_bbm_unplug_bb); does not
modify the big block state. -/
def virtio_mem_bbm_unplug_bb (s : VM) (bb_id : Nat) : VM × Int :=
  virtio_mem_send_unplug_request s (virtio_mem_bb_id_to_phys s bb_id)
    s.bbm_bb_size false

/-- Request to plug a big block (virtio_mem_bbm_plug_bb); does not
modify the big block state. -/
def virtio_mem_bbm_plug_bb (s : VM) (bb_id : Nat) : VM × Int :=
  virtio_mem_send_plug_request s (virtio_mem_bb_id_to_phys s bb_id)
    s.bbm_bb_size false

/-- MEM_GOING_ONLINE handling in SBM
(virtio_mem_sbm_notify_going_online): onlining is only acknowledged for
blocks in the OFFLINE or OFFLINE_PARTIAL state, everything else is
vetoed with NOTIFY_BAD. The handler reads the state table only. -/
def virtio_mem_sbm_notify_going_online (s : VM) (mb_id : Nat) : Int :=
  let st := virtio_mem_sbm_get_mb_state s mb_id
  if st = VIRTIO_MEM_SBM_MB_OFFLINE_PARTIAL ∨ st = VIRTIO_MEM_SBM_MB_OFFLINE then
    NOTIFY_OK
  else NOTIFY_BAD

/-- Prepare the state array for the next memory block
(virtio_mem_sbm_mb_states_prepare_next_mb): grow (vzalloc + copy) only
when the page-granular size changes or the array does not exist yet. -/
def virtio_mem_sbm_mb_states_prepare_next_mb (s : VM) : VM × Int :=
  let old_pages := PFN_UP (s.sbm_next_mb_id - s.sbm_first_mb_id)
  let new_pages := PFN_UP (s.sbm_next_mb_id - s.sbm_first_mb_id + 1)
  if s.sbm_mb_states_present ∧ old_pages = new_pages then (s, 0)
  else
    let ok := s.env.local_alloc_ok s.la_cnt
    let s1 := { s with la_cnt := s.la_cnt + 1 }
    if ¬ ok then (s1, -ENOMEM)
    else ({ s1 with sbm_mb_states_present := true }, 0)

/-- Prepare the subblock bitmap for the next memory block
(virtio_mem_sbm_sb_states_prepare_next_mb). -/
def virtio_mem_sbm_sb_states_prepare_next_mb (s : VM) : VM × Int :=
  let old_nb_mb := s.sbm_next_mb_id - s.sbm_first_mb_id
  let old_pages := PFN_UP (BITS_TO_LONGS (old_nb_mb * s.sbm_sbs_per_mb) * 8)
  let new_pages := PFN_UP (BITS_TO_LONGS ((old_nb_mb + 1) * s.sbm_sbs_per_mb) * 8)
  if s.sbm_sb_states_present ∧ old_pages = new_pages then (s, 0)
  else
    let ok := s.env.local_alloc_ok s.la_cnt
    let s1 := { s with la_cnt := s.la_cnt + 1 }
    if ¬ ok then (s1, -ENOMEM)
    else ({ s1 with sbm_sb_states_present := true }, 0)

/-- Prepare tracking data for the next memory block
(virtio_mem_sbm_prepare_next_mb): fails with -ENOSPC past the last
usable id, grows both arrays, accounts the new block as UNUSED and
post-increments next_mb_id, returning the new id. -/
def virtio_mem_sbm_prepare_next_mb (s : VM) : VM × Int × Nat :=
  if s.sbm_last_usable_mb_id < s.sbm_next_mb_id then (s, -ENOSPC, 0)
  else
    match virtio_mem_sbm_mb_states_prepare_next_mb s with
    | (s1, rc) =>
      if rc ≠ 0 then (s1, rc, 0)
      else
        match virtio_mem_sbm_sb_states_prepare_next_mb s1 with
        | (s2, rc2) =>
          if rc2 ≠ 0 then (s2, rc2, 0)
          else
            ({ s2 with
                sbm_mb_count := fun st =>
                  if st = VIRTIO_MEM_SBM_MB_UNUSED then s2.sbm_mb_count st + 1
                  else s2.sbm_mb_count st,
                sbm_next_mb_id := s2.sbm_next_mb_id + 1 },
              0, s2.sbm_next_mb_id)

/-- Prepare the big block state array for the next big block
(virtio_mem_bbm_bb_states_prepare_next_bb). -/
def virtio_mem_bbm_bb_states_prepare_next_bb (s : VM) : VM × Int :=
  let old_pages := PFN_UP (s.bbm_next_bb_id - s.bbm_first_bb_id)
  let new_pages := PFN_UP (s.bbm_next_bb_id - s.bbm_first_bb_id + 1)
  if s.bbm_bb_states_present ∧ old_pages = new_pages then (s, 0)
  else
    let ok := s.env.local_alloc_ok s.la_cnt
    let s1 := { s with la_cnt := s.la_cnt + 1 }
    if ¬ ok then (s1, -ENOMEM)
    else ({ s1 with bbm_bb_states_present := true }, 0)

/-- Prepare tracking data for the next big block
(virtio_mem_bbm_prepare_next_bb). -/
def virtio_mem_bbm_prepare_next_bb (s : VM) : VM × Int × Nat :=
  if s.bbm_last_usable_bb_id < s.bbm_next_bb_id then (s, -ENOSPC, 0)
  else
    match virtio_mem_bbm_bb_states_prepare_next_bb s with
    | (s1, rc) =>
      if rc ≠ 0 then (s1, rc, 0)
      else
        ({ s1 with
            bbm_bb_count := fun st =>
              if st = VIRTIO_MEM_BBM_BB_UNUSED then s1.bbm_bb_count st + 1
              else s1.bbm_bb_count st,
            bbm_next_bb_id := s1.bbm_next_bb_id + 1 },
          0, s1.bbm_next_bb_id)

/-- Try to plug count subblocks and add the memory block to Linux
(virtio_mem_sbm_plug_and_add_mb): plug first, mark OFFLINE or
OFFLINE_PARTIAL, then add; if adding fails, unplug again and revert to
UNUSED, or to the recoverable PLUGGED state when the compensating
unplug also failed. Returns the updated subblock budget. -/
def virtio_mem_sbm_plug_and_add_mb (s : VM) (mb_id nb : Nat) :
    Option (VM × Int × Nat) :=
  let count := min nb s.sbm_sbs_per_mb
  if count = 0 then some (s, -EINVAL, nb)
  else
    match virtio_mem_sbm_plug_sb s mb_id 0 count with
    | (s1, rc) =>
      if rc ≠ 0 then some (s1, rc, nb)
      else do
        let st :=
          if count = s.sbm_sbs_per_mb then VIRTIO_MEM_SBM_MB_OFFLINE
          else VIRTIO_MEM_SBM_MB_OFFLINE_PARTIAL
        let s2 ← virtio_mem_sbm_set_mb_state s1 mb_id st
        match virtio_mem_sbm_add_mb s2 mb_id with
        | (s3, rc3) =>
          if rc3 = 0 then some (s3, 0, nb - count)
          else
            match virtio_mem_sbm_unplug_sb s3 mb_id 0 count with
            | (s4, rcu) => do
              let new_state :=
                if rcu = 0 then VIRTIO_MEM_SBM_MB_UNUSED
                else VIRTIO_MEM_SBM_MB_PLUGGED
              let s5 ← virtio_mem_sbm_set_mb_state s4 mb_id new_state
              some (s5, rc3, nb)

/-- Length of the contiguous run of unplugged subblocks starting right
above sb_id, as scanned by the count loop of virtio_mem_sbm_plug_any_sb
(bounded by the budget nb and by sbs_per_mb); the accumulator extra is
count - 1, the first argument the number of candidate positions left. -/
def virtio_mem_sbm_plug_count_aux (s : VM) (mb_id nb sb_id : Nat) :
    Nat → Nat → Nat
  | 0, extra => extra
  | rem + 1, extra =>
    if extra + 1 < nb ∧
        ¬ virtio_mem_sbm_test_sb_plugged s mb_id (sb_id + extra + 1) 1 then
      virtio_mem_sbm_plug_count_aux s mb_id nb sb_id rem (extra + 1)
    else extra

/-- Main loop of virtio_mem_sbm_plug_any_sb: repeatedly find the first
unplugged subblock, extend the range over adjacent unplugged subblocks
within the budget, plug it, and fake-online the pages unless the block
is OFFLINE_PARTIAL. Stops when the budget is exhausted or the block is
fully plugged. -/
def virtio_mem_sbm_plug_any_sb_loop (mb_id old_state : Nat) :
    VM → Nat → Option (VM × Int × Nat)
  | s, nb =>
    if h : nb = 0 then some (s, 0, 0)
    else
      let sb_id := virtio_mem_sbm_first_unplugged_sb s mb_id
      if s.sbm_sbs_per_mb ≤ sb_id then some (s, 0, nb)
      else
        let count :=
          virtio_mem_sbm_plug_count_aux s mb_id nb sb_id
            (s.sbm_sbs_per_mb - sb_id - 1) 0 + 1
        match virtio_mem_sbm_plug_sb s mb_id sb_id count with
        | (s1, rc) =>
          if rc ≠ 0 then some (s1, rc, nb)
          else
            let s2 :=
              if old_state = VIRTIO_MEM_SBM_MB_OFFLINE_PARTIAL then s1
              else
                virtio_mem_fake_online s1
                  (virtio_mem_sb_id_to_phys s1 mb_id sb_id / PAGE_SIZE)
                  (count * s1.sbm_sb_size / PAGE_SIZE)
            virtio_mem_sbm_plug_any_sb_loop mb_id old_state s2 (nb - count)
  termination_by s nb => nb
  decreasing_by omega

/-- Try to plug subblocks of a memory block already added to Linux
(virtio_mem_sbm_plug_any_sb): a zero budget is WARN + -EINVAL; after the
loop, a now fully plugged block moves to the full variant of its state
(old_state - 1). Returns the updated subblock budget. -/
def virtio_mem_sbm_plug_any_sb (s : VM) (mb_id nb : Nat) :
    Option (VM × Int × Nat) :=
  let old_state := virtio_mem_sbm_get_mb_state s mb_id
  if nb = 0 then some (s, -EINVAL, nb)
  else do
    let (s1, rc, nb1) ← virtio_mem_sbm_plug_any_sb_loop mb_id old_state s nb
    if rc ≠ 0 then some (s1, rc, nb1)
    else
      if virtio_mem_sbm_test_sb_plugged s1 mb_id 0 s1.sbm_sbs_per_mb then do
        let s2 ← virtio_mem_sbm_set_mb_state s1 mb_id (old_state - 1)
        some (s2, 0, nb1)
      else some (s1, 0, nb1)

/-- Downward extension scan of virtio_mem_sbm_unplug_any_sb_raw: from
subblock sb+1 (first argument is the current sb_id), extend the range
over lower adjacent plugged subblocks while below the budget nb; the
accumulator extra is count - 1. Returns (lowest sb_id of the range,
extra). -/
def virtio_mem_sbm_unplug_extend (s : VM) (mb_id nb : Nat) :
    Nat → Nat → Nat × Nat
  | 0, extra => (0, extra)
  | sb + 1, extra =>
    if extra + 1 < nb ∧ virtio_mem_sbm_test_sb_plugged s mb_id sb 1 then
      virtio_mem_sbm_unplug_extend s mb_id nb sb (extra + 1)
    else (sb + 1, extra)

/-- Main loop of virtio_mem_sbm_unplug_any_sb_raw: scan downwards for
plugged subblocks (cursor is sb_id + 1; 0 encodes sb_id < 0), coalesce
adjacent plugged subblocks up to the budget, and unplug them; fails on
the first unpluggable range. Returns the remaining budget. -/
def virtio_mem_sbm_unplug_raw_loop (mb_id : Nat) :
    VM → Nat → Nat → VM × Int × Nat
  | s, nb, cursor =>
    if h : nb = 0 then (s, 0, 0)
    else
      match cursor with
      | 0 => (s, 0, nb)
      | c + 1 =>
        if ¬ virtio_mem_sbm_test_sb_plugged s mb_id c 1 then
          virtio_mem_sbm_unplug_raw_loop mb_id s nb c
        else
          match virtio_mem_sbm_unplug_extend s mb_id nb c 0 with
          | (sb, extra) =>
            match virtio_mem_sbm_unplug_sb s mb_id sb (extra + 1) with
            | (s1, rc) =>
              if rc ≠ 0 then (s1, rc, nb)
              else virtio_mem_sbm_unplug_raw_loop mb_id s1 (nb - (extra + 1)) sb
  termination_by s nb cursor => (nb, cursor)
  decreasing_by
  · exact Prod.Lex.right nb (Nat.lt_succ_self c)
  · exact Prod.Lex.left _ _ (by omega)

/-- Unplug plugged subblocks of an offline or not-added memory block
(virtio_mem_sbm_unplug_any_sb_raw), scanning from the top subblock
down; fails on any unpluggable subblock instead of skipping it. Does not
modify the memory block state. -/
def virtio_mem_sbm_unplug_any_sb_raw (s : VM) (mb_id nb : Nat) :
    VM × Int × Nat :=
  virtio_mem_sbm_unplug_raw_loop mb_id s nb s.sbm_sbs_per_mb

/-- Unplug all plugged subblocks of an offline or not-added memory block
(virtio_mem_sbm_unplug_mb). -/
def virtio_mem_sbm_unplug_mb (s : VM) (mb_id : Nat) : VM × Int :=
  match virtio_mem_sbm_unplug_any_sb_raw s mb_id s.sbm_sbs_per_mb with
  | (s1, rc, _) => (s1, rc)

/-- Try (offlining and) removing a memory block whose subblocks are all
unplugged (virtio_mem_sbm_try_remove_unplugged_mb); on success the
block becomes UNUSED. -/
def virtio_mem_sbm_try_remove_unplugged_mb (s : VM) (mb_id : Nat) :
    Option (VM × Int) :=
  if ¬ virtio_mem_sbm_test_sb_unplugged s mb_id 0 s.sbm_sbs_per_mb then
    some (s, 0)
  else
    match virtio_mem_sbm_offline_and_remove_mb s mb_id with
    | (s1, rc) =>
      if rc = 0 then do
        let s2 ← virtio_mem_sbm_set_mb_state s1 mb_id VIRTIO_MEM_SBM_MB_UNUSED
        some (s2, 0)
      else some (s1, rc)

/-- Unplug the desired number of plugged subblocks of an offline memory
block (virtio_mem_sbm_unplug_any_sb_offline): after the raw unplug the
block is marked OFFLINE_PARTIAL if not fully plugged; a fully unplugged
block is marked UNUSED and removed from Linux (removal failure is a
BUG). Returns the remaining budget. -/
def virtio_mem_sbm_unplug_any_sb_offline (s : VM) (mb_id nb : Nat) :
    Option (VM × Int × Nat) :=
  match virtio_mem_sbm_unplug_any_sb_raw s mb_id nb with
  | (s1, rc, nb1) => do
    let s2 ←
      if ¬ virtio_mem_sbm_test_sb_plugged s1 mb_id 0 s1.sbm_sbs_per_mb then
        virtio_mem_sbm_set_mb_state s1 mb_id VIRTIO_MEM_SBM_MB_OFFLINE_PARTIAL
      else some s1
    if rc ≠ 0 then some (s2, rc, nb1)
    else
      if virtio_mem_sbm_test_sb_unplugged s2 mb_id 0 s2.sbm_sbs_per_mb then do
        let s3 ← virtio_mem_sbm_set_mb_state s2 mb_id VIRTIO_MEM_SBM_MB_UNUSED
        match virtio_mem_sbm_remove_mb s3 mb_id with
        | (s4, rc2) => if rc2 ≠ 0 then none else some (s4, 0, nb1)
      else some (s2, 0, nb1)

/-- Unplug the given plugged subblocks of an online memory block
(virtio_mem_sbm_unplug_sb_online): fake-offline the pages, unplug at the
host (returning the pages to the buddy on failure), and demote a fully
plugged online state to its partial variant. -/
def virtio_mem_sbm_unplug_sb_online (s : VM) (mb_id sb_id count : Nat) :
    Option (VM × Int) :=
  let old_state := virtio_mem_sbm_get_mb_state s mb_id
  let start_pfn := virtio_mem_sb_id_to_phys s mb_id sb_id / PAGE_SIZE
  let nr_pages := s.sbm_sb_size / PAGE_SIZE * count
  match virtio_mem_fake_offline s start_pfn nr_pages with
  | (s1, rc) =>
    if rc ≠ 0 then some (s1, rc)
    else
      match virtio_mem_sbm_unplug_sb s1 mb_id sb_id count with
      | (s2, rc2) =>
        if rc2 ≠ 0 then some (virtio_mem_fake_online s2 start_pfn nr_pages, rc2)
        else
          if old_state = VIRTIO_MEM_SBM_MB_KERNEL then do
            let s3 ← virtio_mem_sbm_set_mb_state s2 mb_id
              VIRTIO_MEM_SBM_MB_KERNEL_PARTIAL
            some (s3, 0)
          else if old_state = VIRTIO_MEM_SBM_MB_MOVABLE then do
            let s3 ← virtio_mem_sbm_set_mb_state s2 mb_id
              VIRTIO_MEM_SBM_MB_MOVABLE_PARTIAL
            some (s3, 0)
          else some (s2, 0)

/-- Single-subblock fallback loop of virtio_mem_sbm_unplug_any_sb_online
(cursor is sb_id + 1): scan down for plugged subblocks, unplug one at a
time, skipping busy ones (-EBUSY) and propagating other failures.
Returns the remaining budget. -/
def virtio_mem_sbm_unplug_online_singles (mb_id : Nat) :
    Nat → VM → Nat → Option (VM × Int × Nat)
  | 0, s, nb => some (s, 0, nb)
  | c + 1, s, nb =>
    if nb = 0 then some (s, 0, 0)
    else if ¬ virtio_mem_sbm_test_sb_plugged s mb_id c 1 then
      virtio_mem_sbm_unplug_online_singles mb_id c s nb
    else do
      let (s1, rc) ← virtio_mem_sbm_unplug_sb_online s mb_id c 1
      if rc = -EBUSY then virtio_mem_sbm_unplug_online_singles mb_id c s1 nb
      else if rc ≠ 0 then some (s1, rc, nb)
      else virtio_mem_sbm_unplug_online_singles mb_id c s1 (nb - 1)

/-- Shared tail of virtio_mem_sbm_unplug_any_sb_online (the unplugged
label): opportunistically try to remove a fully unplugged block,
remembering a failed attempt in have_unplugged_mb; errors are not
critical and the function reports success. -/
def virtio_mem_sbm_unplug_online_tail (s : VM) (mb_id nb : Nat) :
    Option (VM × Int × Nat) := do
  let (s1, rc) ← virtio_mem_sbm_try_remove_unplugged_mb s mb_id
  let s2 := if rc ≠ 0 then { s1 with have_unplugged_mb := true } else s1
  some (s2, 0, nb)

/-- Unplug the desired number of plugged subblocks of an online memory
block (virtio_mem_sbm_unplug_any_sb_online): try the whole block in one
shot when fully plugged and within budget, falling back to single
subblocks on -EBUSY and -ENOMEM; busy subblocks are skipped. -/
def virtio_mem_sbm_unplug_any_sb_online (s : VM) (mb_id nb : Nat) :
    Option (VM × Int × Nat) :=
  if s.sbm_sbs_per_mb ≤ nb ∧
      virtio_mem_sbm_test_sb_plugged s mb_id 0 s.sbm_sbs_per_mb then do
    let (s1, rc) ← virtio_mem_sbm_unplug_sb_online s mb_id 0 s.sbm_sbs_per_mb
    if rc = 0 then
      virtio_mem_sbm_unplug_online_tail s1 mb_id (nb - s1.sbm_sbs_per_mb)
    else if rc ≠ -EBUSY ∧ rc ≠ -ENOMEM then some (s1, rc, nb)
    else do
      let (s2, rc2, nb2) ←
        virtio_mem_sbm_unplug_online_singles mb_id s1.sbm_sbs_per_mb s1 nb
      if rc2 ≠ 0 then some (s2, rc2, nb2)
      else virtio_mem_sbm_unplug_online_tail s2 mb_id nb2
  else do
    let (s2, rc2, nb2) ←
      virtio_mem_sbm_unplug_online_singles mb_id s.sbm_sbs_per_mb s nb
    if rc2 ≠ 0 then some (s2, rc2, nb2)
    else virtio_mem_sbm_unplug_online_tail s2 mb_id nb2

/-- Unplug subblocks of a memory block already added to Linux,
dispatching on its online/offline state (virtio_mem_sbm_unplug_any_sb);
other states are -EINVAL. -/
def virtio_mem_sbm_unplug_any_sb (s : VM) (mb_id nb : Nat) :
    Option (VM × Int × Nat) :=
  let old_state := virtio_mem_sbm_get_mb_state s mb_id
  if old_state = VIRTIO_MEM_SBM_MB_KERNEL_PARTIAL ∨
      old_state = VIRTIO_MEM_SBM_MB_KERNEL ∨
      old_state = VIRTIO_MEM_SBM_MB_MOVABLE_PARTIAL ∨
      old_state = VIRTIO_MEM_SBM_MB_MOVABLE then
    virtio_mem_sbm_unplug_any_sb_online s mb_id nb
  else if old_state = VIRTIO_MEM_SBM_MB_OFFLINE_PARTIAL ∨
      old_state = VIRTIO_MEM_SBM_MB_OFFLINE then
    virtio_mem_sbm_unplug_any_sb_offline s mb_id nb
  else some (s, -EINVAL, nb)

/-- One state pass of the partial-block phase of
virtio_mem_sbm_plug_request, following virtio_mem_sbm_for_each_mb: ids
ascend from first_mb_id (fuel is the number of ids left, the id bound is
fixed at entry to the loop), the iteration stops early once the state's
reference counter drains; blocks in other states are skipped. Stops
with the body's exit condition rc != 0 or an exhausted budget. -/
def virtio_mem_sbm_plug_foreach (state mb_end : Nat) :
    Nat → VM → Nat → Option (VM × Int × Nat)
  | 0, s, nb => some (s, 0, nb)
  | fuel + 1, s, nb =>
    let id := mb_end - (fuel + 1)
    if s.sbm_mb_count state = 0 then some (s, 0, nb)
    else if virtio_mem_sbm_get_mb_state s id = state then do
      let (s1, rc, nb1) ← virtio_mem_sbm_plug_any_sb s id nb
      if rc ≠ 0 ∨ nb1 = 0 then some (s1, rc, nb1)
      else virtio_mem_sbm_plug_foreach state mb_end fuel s1 nb1
    else virtio_mem_sbm_plug_foreach state mb_end fuel s nb

/-- The three partial-block passes of virtio_mem_sbm_plug_request, in
the source's priority order. -/
def virtio_mem_sbm_plug_partial_phases :
    List Nat → VM → Nat → Option (VM × Int × Nat)
  | [], s, nb => some (s, 0, nb)
  | st :: rest, s, nb => do
    let (s1, rc, nb1) ←
      virtio_mem_sbm_plug_foreach st s.sbm_next_mb_id
        (s.sbm_next_mb_id - s.sbm_first_mb_id) s nb
    if rc ≠ 0 ∨ nb1 = 0 then some (s1, rc, nb1)
    else virtio_mem_sbm_plug_partial_phases rest s1 nb1

/-- The UNUSED-block pass of virtio_mem_sbm_plug_request: for each
UNUSED block, check the offline-memory budget (-ENOSPC when exceeded)
and plug-and-add the block. -/
def virtio_mem_sbm_plug_unused_foreach (mb_end : Nat) :
    Nat → VM → Nat → Option (VM × Int × Nat)
  | 0, s, nb => some (s, 0, nb)
  | fuel + 1, s, nb =>
    let id := mb_end - (fuel + 1)
    if s.sbm_mb_count VIRTIO_MEM_SBM_MB_UNUSED = 0 then some (s, 0, nb)
    else if virtio_mem_sbm_get_mb_state s id = VIRTIO_MEM_SBM_MB_UNUSED then
      if ¬ virtio_mem_could_add_memory s s.mb_size then some (s, -ENOSPC, nb)
      else do
        let (s1, rc, nb1) ← virtio_mem_sbm_plug_and_add_mb s id nb
        if rc ≠ 0 ∨ nb1 = 0 then some (s1, rc, nb1)
        else virtio_mem_sbm_plug_unused_foreach mb_end fuel s1 nb1
    else virtio_mem_sbm_plug_unused_foreach mb_end fuel s nb

/-- The new-block while loop of virtio_mem_sbm_plug_request: check the
offline-memory budget, prepare the next block id and plug-and-add it.
The fuel is last_usable_mb_id + 1 - next_mb_id at entry (each
successful virtio_mem_sbm_prepare_next_mb advances next_mb_id by one);
at fuel 0 next_mb_id exceeds last_usable_mb_id and both the source's
budget check and prepare step yield -ENOSPC, which the base case
returns directly. -/
def virtio_mem_sbm_plug_new_loop : Nat → VM → Nat → Option (VM × Int × Nat)
  | 0, s, nb => if nb = 0 then some (s, 0, 0) else some (s, -ENOSPC, nb)
  | fuel + 1, s, nb =>
    if nb = 0 then some (s, 0, 0)
    else if ¬ virtio_mem_could_add_memory s s.mb_size then some (s, -ENOSPC, nb)
    else
      match virtio_mem_sbm_prepare_next_mb s with
      | (s1, rc, id) =>
        if rc ≠ 0 then some (s1, rc, nb)
        else do
          let (s2, rc2, nb2) ← virtio_mem_sbm_plug_and_add_mb s1 id nb
          if rc2 ≠ 0 then some (s2, rc2, nb2)
          else virtio_mem_sbm_plug_new_loop fuel s2 nb2

/-- Plug request in Sub-Block Mode (virtio_mem_sbm_plug_request):
convert the byte delta to subblocks, fill partially plugged blocks
(KERNEL_PARTIAL, MOVABLE_PARTIAL, OFFLINE_PARTIAL), then UNUSED blocks,
then prepare-and-add new blocks while the budget and usable region
allow. -/
def virtio_mem_sbm_plug_request (s : VM) (diff : Int) : Option (VM × Int) :=
  let nb := (diff / (s.sbm_sb_size : Int)).toNat
  if nb = 0 then some (s, 0)
  else do
    let (s1, rc1, nb1) ←
      virtio_mem_sbm_plug_partial_phases
        [VIRTIO_MEM_SBM_MB_KERNEL_PARTIAL, VIRTIO_MEM_SBM_MB_MOVABLE_PARTIAL,
          VIRTIO_MEM_SBM_MB_OFFLINE_PARTIAL] s nb
    if rc1 ≠ 0 ∨ nb1 = 0 then some (s1, rc1)
    else do
      let (s2, rc2, nb2) ←
        virtio_mem_sbm_plug_unused_foreach s1.sbm_next_mb_id
          (s1.sbm_next_mb_id - s1.sbm_first_mb_id) s1 nb1
      if rc2 ≠ 0 ∨ nb2 = 0 then some (s2, rc2)
      else do
        let (s3, rc3, _) ←
          virtio_mem_sbm_plug_new_loop
            (s2.sbm_last_usable_mb_id + 1 - s2.sbm_next_mb_id) s2 nb2
        some (s3, rc3)

/-- One state pass of virtio_mem_sbm_unplug_request, following
virtio_mem_sbm_for_each_mb_rev: ids descend from next_mb_id - 1 down to
first_mb_id (fuel is the number of ids left, so the visited id is
first_mb_id + fuel), stopping early once the state's reference counter
drains; the source's reverse loop relies on first_mb_id being nonzero
for its unsigned wrap-around guard. -/
def virtio_mem_sbm_unplug_foreach (state : Nat) :
    Nat → VM → Nat → Option (VM × Int × Nat)
  | 0, s, nb => some (s, 0, nb)
  | fuel + 1, s, nb =>
    let id := s.sbm_first_mb_id + fuel
    if s.sbm_mb_count state = 0 then some (s, 0, nb)
    else if virtio_mem_sbm_get_mb_state s id = state then do
      let (s1, rc, nb1) ← virtio_mem_sbm_unplug_any_sb s id nb
      if rc ≠ 0 ∨ nb1 = 0 then some (s1, rc, nb1)
      else virtio_mem_sbm_unplug_foreach state fuel s1 nb1
    else virtio_mem_sbm_unplug_foreach state fuel s nb

/-- The ordered list of states visited by
virtio_mem_sbm_unplug_request's candidate scan (the mb_states array in
the source). -/
def virtio_mem_sbm_unplug_states : List Nat :=
  [VIRTIO_MEM_SBM_MB_OFFLINE_PARTIAL, VIRTIO_MEM_SBM_MB_OFFLINE,
    VIRTIO_MEM_SBM_MB_MOVABLE_PARTIAL, VIRTIO_MEM_SBM_MB_KERNEL_PARTIAL,
    VIRTIO_MEM_SBM_MB_MOVABLE, VIRTIO_MEM_SBM_MB_KERNEL]

/-- The state passes of virtio_mem_sbm_unplug_request, indexed so the
early return when unplug_online is disabled fires after the pass with
index 1 (the fully offline blocks). -/
def virtio_mem_sbm_unplug_phases (i : Nat) :
    List Nat → VM → Nat → Option (VM × Int × Nat)
  | [], s, nb => some (s, 0, nb)
  | st :: rest, s, nb => do
    let (s1, rc, nb1) ←
      virtio_mem_sbm_unplug_foreach st
        (s.sbm_next_mb_id - s.sbm_first_mb_id) s nb
    if rc ≠ 0 ∨ nb1 = 0 then some (s1, rc, nb1)
    else if ¬ unplug_online ∧ i = 1 then some (s1, 0, nb1)
    else virtio_mem_sbm_unplug_phases (i + 1) rest s1 nb1

/-- Unplug request in Sub-Block Mode (virtio_mem_sbm_unplug_request):
convert the byte delta to subblocks and scan candidate blocks state by
state — offline (partial then full) first, then online partial (movable
then kernel), then online full (movable then kernel) — each pass in
descending block-id order; with unplug_online disabled the scan stops
after the offline passes. Leftover budget is -EBUSY. -/
def virtio_mem_sbm_unplug_request (s : VM) (diff : Int) : Option (VM × Int) :=
  let nb := (diff / (s.sbm_sb_size : Int)).toNat
  if nb = 0 then some (s, 0)
  else do
    let (s1, rc, nb1) ←
      virtio_mem_sbm_unplug_phases 0 virtio_mem_sbm_unplug_states s nb
    if rc ≠ 0 ∨ nb1 = 0 then some (s1, rc)
    else some (s1, if nb1 ≠ 0 then -EBUSY else 0)

/-- Plug a big block and add it to Linux
(virtio_mem_bbm_plug_and_add_bb): only legal from UNUSED (else WARN +
-EINVAL); after a successful host plug the block is ADDED; if adding to
Linux fails, a successful compensating host unplug reverts it to
UNUSED, a failed one leaves it PLUGGED for the main loop to retry, and
the add failure is returned either way. -/
def virtio_mem_bbm_plug_and_add_bb (s : VM) (bb_id : Nat) :
    Option (VM × Int) :=
  if virtio_mem_bbm_get_bb_state s bb_id ≠ VIRTIO_MEM_BBM_BB_UNUSED then
    some (s, -EINVAL)
  else
    match virtio_mem_bbm_plug_bb s bb_id with
    | (s1, rc) =>
      if rc ≠ 0 then some (s1, rc)
      else do
        let s2 ← virtio_mem_bbm_set_bb_state s1 bb_id VIRTIO_MEM_BBM_BB_ADDED
        match virtio_mem_bbm_add_bb s2 bb_id with
        | (s3, rc3) =>
          if rc3 = 0 then some (s3, 0)
          else
            match virtio_mem_bbm_unplug_bb s3 bb_id with
            | (s4, rcu) => do
              let s5 ← virtio_mem_bbm_set_bb_state s4 bb_id
                (if rcu = 0 then VIRTIO_MEM_BBM_BB_UNUSED
                  else VIRTIO_MEM_BBM_BB_PLUGGED)
              some (s5, rc3)

/-- The UNUSED-block pass of virtio_mem_bbm_plug_request (ascending
virtio_mem_bbm_for_each_bb with the reference-counter guard); a
successful plug-and-add consumes one big block of the budget. -/
def virtio_mem_bbm_plug_unused_foreach (bb_end : Nat) :
    Nat → VM → Nat → Option (VM × Int × Nat)
  | 0, s, nb => some (s, 0, nb)
  | fuel + 1, s, nb =>
    let id := bb_end - (fuel + 1)
    if s.bbm_bb_count VIRTIO_MEM_BBM_BB_UNUSED = 0 then some (s, 0, nb)
    else if virtio_mem_bbm_get_bb_state s id = VIRTIO_MEM_BBM_BB_UNUSED then
      if ¬ virtio_mem_could_add_memory s s.bbm_bb_size then some (s, -ENOSPC, nb)
      else do
        let (s1, rc) ← virtio_mem_bbm_plug_and_add_bb s id
        let nb1 := if rc = 0 then nb - 1 else nb
        if rc ≠ 0 ∨ nb1 = 0 then some (s1, rc, nb1)
        else virtio_mem_bbm_plug_unused_foreach bb_end fuel s1 nb1
    else virtio_mem_bbm_plug_unused_foreach bb_end fuel s nb

/-- The new-big-block while loop of virtio_mem_bbm_plug_request; the
fuel is last_usable_bb_id + 1 - next_bb_id at entry, and at fuel 0 both
the source's budget check and virtio_mem_bbm_prepare_next_bb yield
-ENOSPC, returned directly by the base case. -/
def virtio_mem_bbm_plug_new_loop : Nat → VM → Nat → Option (VM × Int × Nat)
  | 0, s, nb => if nb = 0 then some (s, 0, 0) else some (s, -ENOSPC, nb)
  | fuel + 1, s, nb =>
    if nb = 0 then some (s, 0, 0)
    else if ¬ virtio_mem_could_add_memory s s.bbm_bb_size then
      some (s, -ENOSPC, nb)
    else
      match virtio_mem_bbm_prepare_next_bb s with
      | (s1, rc, id) =>
        if rc ≠ 0 then some (s1, rc, nb)
        else do
          let (s2, rc2) ← virtio_mem_bbm_plug_and_add_bb s1 id
          let nb2 := if rc2 = 0 then nb - 1 else nb
          if rc2 ≠ 0 then some (s2, rc2, nb2)
          else virtio_mem_bbm_plug_new_loop fuel s2 nb2

/-- Plug request in Big Block Mode (virtio_mem_bbm_plug_request):
convert the byte delta to big blocks, fill UNUSED blocks, then prepare
new ones while the budget and usable region allow. -/
def virtio_mem_bbm_plug_request (s : VM) (diff : Int) : Option (VM × Int) :=
  let nb := (diff / (s.bbm_bb_size : Int)).toNat
  if nb = 0 then some (s, 0)
  else do
    let (s1, rc1, nb1) ←
      virtio_mem_bbm_plug_unused_foreach s.bbm_next_bb_id
        (s.bbm_next_bb_id - s.bbm_first_bb_id) s nb
    if rc1 ≠ 0 ∨ nb1 = 0 then some (s1, rc1)
    else do
      let (s2, rc2, _) ←
        virtio_mem_bbm_plug_new_loop
          (s1.bbm_last_usable_bb_id + 1 - s1.bbm_next_bb_id) s1 nb1
      some (s2, rc2)

/-- Try to plug the requested amount of memory (virtio_mem_plug_request),
dispatching on the operating mode. -/
def virtio_mem_plug_request (s : VM) (diff : Int) : Option (VM × Int) :=
  if s.in_sbm then virtio_mem_sbm_plug_request s diff
  else virtio_mem_bbm_plug_request s diff

/-- Modelled from the spec: pages per memory section
(PAGES_PER_SECTION, an architecture constant outside the sources; the
spec says BBM unplug scans in the OS's native online-page-tracking
unit). 32768 pages corresponds to 128 MiB sections of 4 KiB pages. -/
def PAGES_PER_SECTION : Nat := 32768

/-- Test whether a big block is completely offline
(virtio_mem_bbm_bb_is_offline): no section start in its range maps to
an online page. -/
def virtio_mem_bbm_bb_is_offline (s : VM) (bb_id : Nat) : Bool :=
  let start_pfn := virtio_mem_bb_id_to_phys s bb_id / PAGE_SIZE
  let nr_pages := s.bbm_bb_size / PAGE_SIZE
  let sections := (nr_pages + PAGES_PER_SECTION - 1) / PAGES_PER_SECTION
  (List.range sections).all fun k =>
    !(s.env.pfn_online (start_pfn + k * PAGES_PER_SECTION))

/-- Test whether a big block is completely onlined to ZONE_MOVABLE or
offline (virtio_mem_bbm_bb_is_movable). -/
def virtio_mem_bbm_bb_is_movable (s : VM) (bb_id : Nat) : Bool :=
  let start_pfn := virtio_mem_bb_id_to_phys s bb_id / PAGE_SIZE
  let nr_pages := s.bbm_bb_size / PAGE_SIZE
  let sections := (nr_pages + PAGES_PER_SECTION - 1) / PAGES_PER_SECTION
  (List.range sections).all fun k =>
    let pfn := start_pfn + k * PAGES_PER_SECTION
    !(s.env.pfn_online pfn) || s.env.is_zone_movable pfn

/-- Fake-offline every online section of a big block (the first loop of
virtio_mem_bbm_offline_remove_and_unplug_bb); returns the number of
sections processed before a failure so the rollback can fake-online
exactly those. -/
def virtio_mem_bbm_fake_offline_sections (start_pfn : Nat) :
    Nat → Nat → VM → VM × Int × Nat
  | _, 0, s => (s, 0, 0)
  | k, n + 1, s =>
    let pfn := start_pfn + k * PAGES_PER_SECTION
    if ¬ s.env.pfn_online pfn then
      virtio_mem_bbm_fake_offline_sections start_pfn (k + 1) n s
    else
      match virtio_mem_fake_offline s pfn PAGES_PER_SECTION with
      | (s1, rc) =>
        if rc ≠ 0 then (s1, rc, k)
        else virtio_mem_bbm_fake_offline_sections start_pfn (k + 1) n s1

/-- Fake-online the online sections below the failure point (the
rollback loop of virtio_mem_bbm_offline_remove_and_unplug_bb);
virtio_mem_fake_online only touches struct-page state, so the device
state is returned unchanged section by section. -/
def virtio_mem_bbm_rollback_sections (s : VM) (start_pfn : Nat) : Nat → VM
  | 0 => s
  | k + 1 =>
    let s1 := virtio_mem_bbm_rollback_sections s start_pfn k
    let pfn := start_pfn + k * PAGES_PER_SECTION
    if s1.env.pfn_online pfn then virtio_mem_fake_online s1 pfn PAGES_PER_SECTION
    else s1

/-- Try to offline, remove and unplug a big block
(virtio_mem_bbm_offline_remove_and_unplug_bb): only legal from ADDED;
mark FAKE_OFFLINE, fake-offline every online section (rolling back to
ADDED on failure), offline-and-remove the block, then unplug it from
the host, ending UNUSED on success and PLUGGED when only the host
unplug failed. -/
def virtio_mem_bbm_offline_remove_and_unplug_bb (s : VM) (bb_id : Nat) :
    Option (VM × Int) :=
  let start_pfn := virtio_mem_bb_id_to_phys s bb_id / PAGE_SIZE
  let nr_pages := s.bbm_bb_size / PAGE_SIZE
  let sections := (nr_pages + PAGES_PER_SECTION - 1) / PAGES_PER_SECTION
  if virtio_mem_bbm_get_bb_state s bb_id ≠ VIRTIO_MEM_BBM_BB_ADDED then
    some (s, -EINVAL)
  else do
    let s1 ← virtio_mem_bbm_set_bb_state s bb_id VIRTIO_MEM_BBM_BB_FAKE_OFFLINE
    match virtio_mem_bbm_fake_offline_sections start_pfn 0 sections s1 with
    | (s2, rcf, kfail) =>
      if rcf ≠ 0 then do
        let s3 := virtio_mem_bbm_rollback_sections s2 start_pfn kfail
        let s4 ← virtio_mem_bbm_set_bb_state s3 bb_id VIRTIO_MEM_BBM_BB_ADDED
        some (s4, rcf)
      else
        match virtio_mem_bbm_offline_and_remove_bb s2 bb_id with
        | (s3, rco) =>
          if rco ≠ 0 then do
            let s4 := virtio_mem_bbm_rollback_sections s3 start_pfn sections
            let s5 ← virtio_mem_bbm_set_bb_state s4 bb_id VIRTIO_MEM_BBM_BB_ADDED
            some (s5, rco)
          else
            match virtio_mem_bbm_unplug_bb s3 bb_id with
            | (s4, rcu) =>
              if rcu ≠ 0 then do
                let s5 ← virtio_mem_bbm_set_bb_state s4 bb_id
                  VIRTIO_MEM_BBM_BB_PLUGGED
                some (s5, rcu)
              else do
                let s5 ← virtio_mem_bbm_set_bb_state s4 bb_id
                  VIRTIO_MEM_BBM_BB_UNUSED
                some (s5, 0)

/-- One pass of virtio_mem_bbm_unplug_request over ADDED big blocks in
descending id order (virtio_mem_bbm_for_each_bb_rev), restricted to
offline blocks when i = 0 and movable blocks when i = 1; -EBUSY results
skip the block, a success consumes one big block of the budget. -/
def virtio_mem_bbm_unplug_foreach (i : Nat) :
    Nat → VM → Nat → Option (VM × Int × Nat)
  | 0, s, nb => some (s, 0, nb)
  | fuel + 1, s, nb =>
    let id := s.bbm_first_bb_id + fuel
    if s.bbm_bb_count VIRTIO_MEM_BBM_BB_ADDED = 0 then some (s, 0, nb)
    else if virtio_mem_bbm_get_bb_state s id = VIRTIO_MEM_BBM_BB_ADDED then
      if (i = 0 ∧ ¬ virtio_mem_bbm_bb_is_offline s id) ∨
          (i = 1 ∧ ¬ virtio_mem_bbm_bb_is_movable s id) then
        virtio_mem_bbm_unplug_foreach i fuel s nb
      else do
        let (s1, rc) ← virtio_mem_bbm_offline_remove_and_unplug_bb s id
        if rc = -EBUSY then virtio_mem_bbm_unplug_foreach i fuel s1 nb
        else
          let nb1 := if rc = 0 then nb - 1 else nb
          if rc ≠ 0 ∨ nb1 = 0 then some (s1, rc, nb1)
          else virtio_mem_bbm_unplug_foreach i fuel s1 nb1
    else virtio_mem_bbm_unplug_foreach i fuel s nb

/-- Unplug request in Big Block Mode (virtio_mem_bbm_unplug_request):
three passes over ADDED blocks — offline blocks, movable blocks, then
any — stopping after the first pass when unplug_online is disabled;
leftover budget is -EBUSY. -/
def virtio_mem_bbm_unplug_request (s : VM) (diff : Int) : Option (VM × Int) :=
  let nb := (diff / (s.bbm_bb_size : Int)).toNat
  if nb = 0 then some (s, 0)
  else do
    let (s1, rc1, nb1) ←
      virtio_mem_bbm_unplug_foreach 0
        (s.bbm_next_bb_id - s.bbm_first_bb_id) s nb
    if rc1 ≠ 0 ∨ nb1 = 0 then some (s1, rc1)
    else if ¬ unplug_online then some (s1, 0)
    else do
      let (s2, rc2, nb2) ←
        virtio_mem_bbm_unplug_foreach 1
          (s1.bbm_next_bb_id - s1.bbm_first_bb_id) s1 nb1
      if rc2 ≠ 0 ∨ nb2 = 0 then some (s2, rc2)
      else do
        let (s3, rc3, nb3) ←
          virtio_mem_bbm_unplug_foreach 2
            (s2.bbm_next_bb_id - s2.bbm_first_bb_id) s2 nb2
        if rc3 ≠ 0 ∨ nb3 = 0 then some (s3, rc3)
        else some (s3, if nb3 ≠ 0 then -EBUSY else 0)

/-- Try to unplug the requested amount of memory
(virtio_mem_unplug_request), dispatching on the operating mode. -/
def virtio_mem_unplug_request (s : VM) (diff : Int) : Option (VM × Int) :=
  if s.in_sbm then virtio_mem_sbm_unplug_request s diff
  else virtio_mem_bbm_unplug_request s diff

/-- Unplug all memory (virtio_mem_send_unplug_all_request); this fork
stubs the operation out with WARN_ON(1) and -EINVAL. -/
def virtio_mem_send_unplug_all_request (s : VM) : VM × Int :=
  (s, -EINVAL)

/-- Cleanup pass over BBM blocks stuck in PLUGGED from a prior failed
attempt (the big-block half of virtio_mem_cleanup_pending_mb): unplug
each from the host and mark it UNUSED, propagating the first failure. -/
def virtio_mem_bbm_cleanup_foreach (bb_end : Nat) :
    Nat → VM → Option (VM × Int)
  | 0, s => some (s, 0)
  | fuel + 1, s =>
    let id := bb_end - (fuel + 1)
    if s.bbm_bb_count VIRTIO_MEM_BBM_BB_PLUGGED = 0 then some (s, 0)
    else if virtio_mem_bbm_get_bb_state s id = VIRTIO_MEM_BBM_BB_PLUGGED then
      match virtio_mem_bbm_unplug_bb s id with
      | (s1, rc) =>
        if rc ≠ 0 then some (s1, rc)
        else do
          let s2 ← virtio_mem_bbm_set_bb_state s1 id VIRTIO_MEM_BBM_BB_UNUSED
          virtio_mem_bbm_cleanup_foreach bb_end fuel s2
    else virtio_mem_bbm_cleanup_foreach bb_end fuel s

/-- Cleanup pass over SBM blocks stuck in PLUGGED (the memory-block half
of virtio_mem_cleanup_pending_mb). -/
def virtio_mem_sbm_cleanup_foreach (mb_end : Nat) :
    Nat → VM → Option (VM × Int)
  | 0, s => some (s, 0)
  | fuel + 1, s =>
    let id := mb_end - (fuel + 1)
    if s.sbm_mb_count VIRTIO_MEM_SBM_MB_PLUGGED = 0 then some (s, 0)
    else if virtio_mem_sbm_get_mb_state s id = VIRTIO_MEM_SBM_MB_PLUGGED then
      match virtio_mem_sbm_unplug_mb s id with
      | (s1, rc) =>
        if rc ≠ 0 then some (s1, rc)
        else do
          let s2 ← virtio_mem_sbm_set_mb_state s1 id VIRTIO_MEM_SBM_MB_UNUSED
          virtio_mem_sbm_cleanup_foreach mb_end fuel s2
    else virtio_mem_sbm_cleanup_foreach mb_end fuel s

/-- Retry pass of virtio_mem_cleanup_pending_mb over one partially
plugged state: try to offline-and-remove every fully unplugged block,
accumulating whether any attempt failed (the source's rc |= pattern,
only ever tested against zero). -/
def virtio_mem_sbm_retry_remove_foreach (state mb_end : Nat) :
    Nat → VM → Bool → Option (VM × Bool)
  | 0, s, acc => some (s, acc)
  | fuel + 1, s, acc =>
    let id := mb_end - (fuel + 1)
    if s.sbm_mb_count state = 0 then some (s, acc)
    else if virtio_mem_sbm_get_mb_state s id = state then do
      let (s1, rc) ← virtio_mem_sbm_try_remove_unplugged_mb s id
      virtio_mem_sbm_retry_remove_foreach state mb_end fuel s1 (acc || rc ≠ 0)
    else virtio_mem_sbm_retry_remove_foreach state mb_end fuel s acc

/-- Unplug blocks left in transient PLUGGED states by prior failed
attempts and retry removing fully unplugged blocks
(virtio_mem_cleanup_pending_mb). -/
def virtio_mem_cleanup_pending_mb (s : VM) : Option (VM × Int) :=
  if ¬ s.in_sbm then
    virtio_mem_bbm_cleanup_foreach s.bbm_next_bb_id
      (s.bbm_next_bb_id - s.bbm_first_bb_id) s
  else do
    let (s1, rc) ←
      virtio_mem_sbm_cleanup_foreach s.sbm_next_mb_id
        (s.sbm_next_mb_id - s.sbm_first_mb_id) s
    if rc ≠ 0 then some (s1, rc)
    else if ¬ s1.have_unplugged_mb then some (s1, 0)
    else do
      let s2 := { s1 with have_unplugged_mb := false }
      let (s3, a1) ←
        virtio_mem_sbm_retry_remove_foreach VIRTIO_MEM_SBM_MB_MOVABLE_PARTIAL
          s2.sbm_next_mb_id (s2.sbm_next_mb_id - s2.sbm_first_mb_id) s2 false
      let (s4, a2) ←
        virtio_mem_sbm_retry_remove_foreach VIRTIO_MEM_SBM_MB_KERNEL_PARTIAL
          s3.sbm_next_mb_id (s3.sbm_next_mb_id - s3.sbm_first_mb_id) s3 a1
      let (s5, a3) ←
        virtio_mem_sbm_retry_remove_foreach VIRTIO_MEM_SBM_MB_OFFLINE_PARTIAL
          s4.sbm_next_mb_id (s4.sbm_next_mb_id - s4.sbm_first_mb_id) s4 a2
      let s6 := if a3 then { s5 with have_unplugged_mb := true } else s5
      some (s6, 0)

/-- Refresh derived configuration (virtio_mem_refresh_config): recompute
the last usable block id from the usable end address, rounding inward
for unaligned region ends. -/
def virtio_mem_refresh_config (s : VM) : VM :=
  let end_addr := min (s.addr + s.region_size - 1) s.pluggable_end
  if s.in_sbm then
    let last := end_addr / s.mb_size
    let last := if (end_addr + 1) % s.mb_size ≠ 0 then last - 1 else last
    { s with sbm_last_usable_mb_id := last }
  else
    let last := end_addr / s.bbm_bb_size
    let last := if (end_addr + 1) % s.bbm_bb_size ≠ 0 then last - 1 else last
    { s with bbm_last_usable_bb_id := last }

/-- The opening of each virtio_mem_run_wq pass: forced full unplug if
required, then the config-changed check and refresh. -/
def virtio_mem_run_wq_prelude (s : VM) : VM × Int :=
  let (s1, rc) :=
    if s.unplug_all_required then virtio_mem_send_unplug_all_request s
    else (s, 0)
  let changed := s1.env.config_changed_read s1.cfg_cnt
  let s2 := { s1 with cfg_cnt := s1.cfg_cnt + 1 }
  (if changed then virtio_mem_refresh_config s2 else s2, rc)

/-- The plug-or-unplug dispatch of virtio_mem_run_wq for the current
size delta; skipped when an earlier step failed or the sizes agree. -/
def virtio_mem_run_wq_dispatch (s : VM) (rc : Int) : Option (VM × Int) :=
  if rc = 0 ∧ s.requested_size ≠ s.plugged_size then
    if s.plugged_size < s.requested_size then
      virtio_mem_plug_request s (s.requested_size - s.plugged_size)
    else
      virtio_mem_unplug_request s (s.plugged_size - s.requested_size)
  else some (s, rc)

/-- One pass of the workqueue body of virtio_mem_run_wq, up to and
excluding the result classification: forced full unplug if required,
config refresh, cleanup of leftovers, then the plug or unplug dispatch
for the current size delta; a still-pending unplugged block forces
-EBUSY so the offline-and-remove retry keeps getting scheduled. -/
def virtio_mem_run_wq_pass (s : VM) : Option (VM × Int) := do
  let (s0, rc0) := virtio_mem_run_wq_prelude s
  let (s3, rc3) ←
    if rc0 = 0 then virtio_mem_cleanup_pending_mb s0 else some (s0, rc0)
  let (s4, rc4) ← virtio_mem_run_wq_dispatch s3 rc3
  some (s4,
    if rc4 = 0 ∧ s4.in_sbm = true ∧ s4.have_unplugged_mb = true then -EBUSY
    else rc4)

/-- Result classification of virtio_mem_run_wq's switch: success resets
the backoff delay to the minimum; -ENOSPC stops quietly; the transient
errors -ETXTBSY, -EBUSY and -ENOMEM start the retry timer with the
current delay; -EAGAIN loops (no state effect here); anything else
marks the device broken. -/
def virtio_mem_run_wq_classify (s : VM) (rc : Int) : VM :=
  if rc = 0 then { s with retry_timer_ms := VIRTIO_MEM_RETRY_TIMER_MIN_MS }
  else if rc = -ENOSPC then s
  else if rc = -ETXTBSY ∨ rc = -EBUSY ∨ rc = -ENOMEM then
    { s with timer_pending := true }
  else if rc = -EAGAIN then s
  else { s with broken := true }

/-- The goto-retry loop of virtio_mem_run_wq: rerun the pass while it
ends in -EAGAIN (config changed mid-run); the fuel bounds the number of
immediate reruns modelled, none meaning the run was still looping. -/
def virtio_mem_run_wq_go : Nat → VM → Option (VM × Int)
  | 0, _ => none
  | fuel + 1, s => do
    let (s1, rc) ← virtio_mem_run_wq_pass s
    if rc = -EAGAIN then virtio_mem_run_wq_go fuel s1
    else some (virtio_mem_run_wq_classify s1 rc, rc)

/-- Workqueue function virtio_mem_run_wq: cancel any pending retry
timer, bail out while broken, then run the reconciliation pass with its
goto-retry loop and classify the result. -/
def virtio_mem_run_wq (fuel : Nat) (s : VM) : Option (VM × Int) :=
  let s0 := { s with timer_pending := false }
  if s0.broken then some (s0, 0)
  else virtio_mem_run_wq_go fuel s0

/-- Retry timer expiry (virtio_mem_timer_expired): requeue the worker
and double the backoff delay, capped at the maximum. -/
def virtio_mem_timer_expired (s : VM) : VM :=
  { s with timer_pending := false,
           retry_timer_ms :=
             min (s.retry_timer_ms * 2) VIRTIO_MEM_RETRY_TIMER_MAX_MS }

/-- Kernel helper notifier_from_errno: encode an errno in a notifier
return value. -/
def notifier_from_errno (err : Int) : Int :=
  if err ≠ 0 then 32768 + (NOTIFY_OK - err) else NOTIFY_OK

/-- The MEM_GOING_ONLINE action of virtio_mem_memory_notifier_cb:
ranges not overlapping the device are NOTIFY_DONE; a granularity
mismatch is NOTIFY_BAD; during teardown the transition is refused with
an encoded -EBUSY; otherwise hotplug_active is set and, in SBM, the
per-block veto of virtio_mem_sbm_notify_going_online decides. -/
def virtio_mem_memory_notifier_going_online (s : VM) (start_pfn nr_pages : Nat) :
    VM × Int :=
  let start := start_pfn * PAGE_SIZE
  let size := nr_pages * PAGE_SIZE
  if ¬ (start < s.addr + s.region_size ∧ s.addr < start + size) then
    (s, NOTIFY_DONE)
  else if s.in_sbm then
    let expected_size :=
      if s.memmap_on_memory then s.mb_size - s.sbm_sb_size else s.mb_size
    let expected_offset := if s.memmap_on_memory then s.sbm_sb_size else 0
    let id := virtio_mem_phys_to_mb_id s start
    if size ≠ expected_size ∨ (start - expected_offset) % s.mb_size ≠ 0 then
      (s, NOTIFY_BAD)
    else if s.removing then (s, notifier_from_errno (-EBUSY))
    else
      let s1 := { s with hotplug_active := true }
      (s1, virtio_mem_sbm_notify_going_online s1 id)
  else
    let id := virtio_mem_phys_to_bb_id s start
    if id ≠ virtio_mem_phys_to_bb_id s (start + size - 1) then (s, NOTIFY_BAD)
    else if s.removing then (s, notifier_from_errno (-EBUSY))
    else ({ s with hotplug_active := true }, NOTIFY_OK)

/-- Descending enumeration of the block ids currently in a given state,
as visited by virtio_mem_sbm_for_each_mb_rev (ids from next_mb_id - 1
down to first_mb_id; the reference-counter guard empties the scan when
no block holds the state). -/
def virtio_mem_sbm_state_ids_rev (s : VM) (state : Nat) : List Nat :=
  if s.sbm_mb_count state = 0 then []
  else
    ((List.range (s.sbm_next_mb_id - s.sbm_first_mb_id)).map
      (fun k => s.sbm_next_mb_id - 1 - k)).filter
      (fun id => virtio_mem_sbm_get_mb_state s id = state)

/-- The candidate visit order of virtio_mem_sbm_unplug_request: the
concatenation of the descending per-state scans in the order of the
source's mb_states array. -/
def virtio_mem_sbm_unplug_visit_order (s : VM) : List Nat :=
  virtio_mem_sbm_unplug_states.flatMap (virtio_mem_sbm_state_ids_rev s)

/-- Descending enumeration of the block ids whose state lies in a given
class, used to phrase the claimed visit order. -/
def virtio_mem_sbm_class_ids_rev (s : VM) (states : List Nat) : List Nat :=
  ((List.range (s.sbm_next_mb_id - s.sbm_first_mb_id)).map
    (fun k => s.sbm_next_mb_id - 1 - k)).filter
    (fun id => decide (virtio_mem_sbm_get_mb_state s id ∈ states))

/-- The visit order asserted by the claim: fully/partially offline
blocks first, then movable-zone blocks, then kernel-zone blocks, each
class in descending block-id order. Stated from the claim's words for
comparison with virtio_mem_sbm_unplug_visit_order. -/
def claimed_sbm_unplug_visit_order (s : VM) : List Nat :=
  virtio_mem_sbm_class_ids_rev s
      [VIRTIO_MEM_SBM_MB_OFFLINE, VIRTIO_MEM_SBM_MB_OFFLINE_PARTIAL] ++
    virtio_mem_sbm_class_ids_rev s
      [VIRTIO_MEM_SBM_MB_MOVABLE, VIRTIO_MEM_SBM_MB_MOVABLE_PARTIAL] ++
    virtio_mem_sbm_class_ids_rev s
      [VIRTIO_MEM_SBM_MB_KERNEL, VIRTIO_MEM_SBM_MB_KERNEL_PARTIAL]

/-- Number of tracked SBM blocks (indices below next_mb_id - first_mb_id)
currently in the given state. -/
def virtio_mem_sbm_state_card (s : VM) (state : Nat) : Nat :=
  ((List.range (s.sbm_next_mb_id - s.sbm_first_mb_id)).filter
    (fun i => s.sbm_mb_states i = state)).length

/-- The SBM reference counters agree with the state array: every state's
counter equals the number of tracked blocks in that state. -/
def virtio_mem_sbm_counts_consistent (s : VM) : Prop :=
  ∀ st, s.sbm_mb_count st = virtio_mem_sbm_state_card s st

/-- Number of tracked BBM blocks currently in the given state. -/
def virtio_mem_bbm_state_card (s : VM) (state : Nat) : Nat :=
  ((List.range (s.bbm_next_bb_id - s.bbm_first_bb_id)).filter
    (fun i => s.bbm_bb_states i = state)).length

/-- The BBM reference counters agree with the state array. -/
def virtio_mem_bbm_counts_consistent (s : VM) : Prop :=
  ∀ st, s.bbm_bb_count st = virtio_mem_bbm_state_card s st

/-- Sum of the SBM per-state reference counters over all states. -/
def virtio_mem_sbm_count_sum (s : VM) : Nat :=
  ∑ st ∈ Finset.range VIRTIO_MEM_SBM_MB_COUNT, s.sbm_mb_count st

/-- Sum of the BBM per-state reference counters over all states. -/
def virtio_mem_bbm_count_sum (s : VM) : Nat :=
  ∑ st ∈ Finset.range VIRTIO_MEM_BBM_BB_COUNT, s.bbm_bb_count st

/-- Structural wellformedness of a device configuration: positive unit
sizes and a device block size dividing both units, as established at
init (the subblock size and big block size are multiples of the
device-reported block size). -/
def VMwf (s : VM) : Prop :=
  0 < s.device_block_size ∧ 0 < s.sbm_sb_size ∧ 0 < s.bbm_bb_size ∧
    s.device_block_size ∣ s.sbm_sb_size ∧ s.device_block_size ∣ s.bbm_bb_size

/-- The active unit size: the subblock size in Sub-Block Mode, the big
block size in Big Block Mode. -/
def virtio_mem_unit_size (s : VM) : Nat :=
  if s.in_sbm then s.sbm_sb_size else s.bbm_bb_size

/-- A workqueue result is quiescent when the run_wq switch neither
starts the retry timer (transient errors) nor reruns the loop
(-EAGAIN): no retry pending, no immediate re-run. -/
def virtio_mem_wq_quiescent (rc : Int) : Prop :=
  ¬ (rc = -ETXTBSY ∨ rc = -EBUSY ∨ rc = -ENOMEM ∨ rc = -EAGAIN)

/-- Oracle environment in which every external call succeeds. -/
def envAllOk : Env where
  mem_buf_alloc_result := fun _ => 0
  add_memory_result := fun _ => 0
  remove_memory_result := fun _ => 0
  offline_and_remove_result := fun _ => 0
  alloc_contig_result := fun _ => 0
  config_changed_read := fun _ => false
  local_alloc_ok := fun _ => true
  is_zone_movable := fun _ => false
  pfn_online := fun _ => false

/-- Small concrete device fixture used by the witness theorems: SBM,
one-byte device blocks, 8-byte memory blocks of four 2-byte subblocks,
region of four blocks starting at block id 1, no block tracked yet. -/
def vmBase : VM where
  device_block_size := 1
  mb_size := 8
  vmemmap_size := 2
  memmap_on_memory := false
  in_sbm := true
  addr := 8
  region_size := 32
  pluggable_end := 1000
  plugged_size := 0
  requested_size := 0
  offline_size := 0
  offline_threshold := 100
  broken := false
  removing := false
  hotplug_active := false
  unplug_all_required := false
  have_unplugged_mb := false
  resource_name := true
  retry_timer_ms := 50000
  timer_pending := false
  sbm_sb_size := 2
  sbm_sbs_per_mb := 4
  sbm_first_mb_id := 1
  sbm_next_mb_id := 1
  sbm_last_usable_mb_id := 4
  sbm_mb_states := fun _ => 0
  sbm_mb_count := fun _ => 0
  sbm_sb_states := fun _ => false
  sbm_mb_states_present := false
  sbm_sb_states_present := false
  bbm_bb_states_present := false
  bbm_bb_size := 8
  bbm_first_bb_id := 1
  bbm_next_bb_id := 1
  bbm_last_usable_bb_id := 4
  bbm_bb_states := fun _ => 0
  bbm_bb_count := fun _ => 0
  membuf := fun _ => false
  marked_pages := 0
  alloc_cnt := 0
  la_cnt := 0
  add_cnt := 0
  remove_cnt := 0
  offrem_cnt := 0
  contig_cnt := 0
  cfg_cnt := 0
  env := envAllOk

/-- Fields of the device state that no engine operation modifies within
one workqueue run: the configuration parameters, region geometry, mode,
requested size and the broken/removing flags. -/
def VMstatic (s s2 : VM) : Prop :=
  s2.device_block_size = s.device_block_size ∧ s2.mb_size = s.mb_size ∧
    s2.vmemmap_size = s.vmemmap_size ∧
    s2.memmap_on_memory = s.memmap_on_memory ∧ s2.in_sbm = s.in_sbm ∧
    s2.addr = s.addr ∧ s2.region_size = s.region_size ∧
    s2.pluggable_end = s.pluggable_end ∧
    s2.requested_size = s.requested_size ∧
    s2.offline_threshold = s.offline_threshold ∧
    s2.sbm_sb_size = s.sbm_sb_size ∧ s2.sbm_sbs_per_mb = s.sbm_sbs_per_mb ∧
    s2.sbm_first_mb_id = s.sbm_first_mb_id ∧
    s2.bbm_bb_size = s.bbm_bb_size ∧ s2.bbm_first_bb_id = s.bbm_first_bb_id ∧
    s2.broken = s.broken

/-- The SBM block tracking state (state array, counters, id bounds,
growth flags and the pending-unplugged flag) is untouched. -/
def VMtrackMB (s s2 : VM) : Prop :=
  s2.sbm_mb_states = s.sbm_mb_states ∧ s2.sbm_mb_count = s.sbm_mb_count ∧
    s2.sbm_next_mb_id = s.sbm_next_mb_id ∧
    s2.sbm_last_usable_mb_id = s.sbm_last_usable_mb_id ∧
    s2.sbm_mb_states_present = s.sbm_mb_states_present ∧
    s2.sbm_sb_states_present = s.sbm_sb_states_present ∧
    s2.have_unplugged_mb = s.have_unplugged_mb

/-- The SBM subblock bitmap is untouched. -/
def VMtrackSB (s s2 : VM) : Prop :=
  s2.sbm_sb_states = s.sbm_sb_states

/-- The BBM block tracking state is untouched. -/
def VMtrackBB (s s2 : VM) : Prop :=
  s2.bbm_bb_states = s.bbm_bb_states ∧ s2.bbm_bb_count = s.bbm_bb_count ∧
    s2.bbm_next_bb_id = s.bbm_next_bb_id ∧
    s2.bbm_last_usable_bb_id = s.bbm_last_usable_bb_id ∧
    s2.bbm_bb_states_present = s.bbm_bb_states_present

/-- Combined frame of a host-transport-level operation: configuration
statics and all block tracking state are untouched. -/
def HostFrame (s s2 : VM) : Prop :=
  VMstatic s s2 ∧ VMtrackMB s s2 ∧ VMtrackSB s s2 ∧ VMtrackBB s s2

/-- Fixture for the unrecognized-host-error run: the base device asked
to grow by one subblock while every membuf allocation fails with -EIO,
an error code the run_wq switch has no case for. -/
def vmHostErr : VM :=
  { vmBase with
    requested_size := 2,
    env := { envAllOk with mem_buf_alloc_result := fun _ => -EIO_code } }

/-- Fixture for the BBM rollback run: Big Block Mode with big block 1
tracked as UNUSED, the host transport healthy and add_memory failing
with -ENOMEM. -/
def vmBbmRollback : VM :=
  { vmBase with
    in_sbm := false,
    bbm_next_bb_id := 2,
    bbm_bb_count := fun st => if st = VIRTIO_MEM_BBM_BB_UNUSED then 1 else 0,
    env := { envAllOk with add_memory_result := fun _ => -ENOMEM } }

/-- Fixture for the unplug candidate order: block 1 is KERNEL_PARTIAL
and block 2 is MOVABLE, so the source's state-major order visits 1
before 2 while a zone-major order would visit 2 before 1. -/
def vmUnplugOrder : VM :=
  { vmBase with
    sbm_next_mb_id := 3,
    sbm_mb_states := fun i =>
      if i = 0 then VIRTIO_MEM_SBM_MB_KERNEL_PARTIAL
      else if i = 1 then VIRTIO_MEM_SBM_MB_MOVABLE
      else VIRTIO_MEM_SBM_MB_UNUSED,
    sbm_mb_count := fun st =>
      if st = VIRTIO_MEM_SBM_MB_KERNEL_PARTIAL then 1
      else if st = VIRTIO_MEM_SBM_MB_MOVABLE then 1
      else 0 }

theorem VMstatic_refl (s : VM) : VMstatic s s :=
  ⟨rfl, rfl, rfl, rfl, rfl, rfl, rfl, rfl, rfl, rfl, rfl, rfl, rfl, rfl, rfl,
    rfl⟩

theorem VMstatic_trans {a b c : VM} (h1 : VMstatic a b) (h2 : VMstatic b c) :
    VMstatic a c := by
  obtain ⟨p1, p2, p3, p4, p5, p6, p7, p8, p9, p10, p11, p12, p13, p14, p15,
    p16⟩ := h1
  obtain ⟨q1, q2, q3, q4, q5, q6, q7, q8, q9, q10, q11, q12, q13, q14, q15,
    q16⟩ := h2
  exact ⟨q1.trans p1, q2.trans p2, q3.trans p3, q4.trans p4, q5.trans p5,
    q6.trans p6, q7.trans p7, q8.trans p8, q9.trans p9, q10.trans p10,
    q11.trans p11, q12.trans p12, q13.trans p13, q14.trans p14,
    q15.trans p15, q16.trans p16⟩

theorem hostFrame_refl (s : VM) : HostFrame s s :=
  ⟨VMstatic_refl s, ⟨rfl, rfl, rfl, rfl, rfl, rfl, rfl⟩, rfl,
    ⟨rfl, rfl, rfl, rfl, rfl⟩⟩

theorem hostFrame_trans {a b c : VM} (h1 : HostFrame a b) (h2 : HostFrame b c) :
    HostFrame a c := by
  obtain ⟨hs1, ⟨m1, m2, m3, m4, m5, m6, m7⟩, hb1, ⟨b1, b2, b3, b4, b5⟩⟩ := h1
  obtain ⟨hs2, ⟨n1, n2, n3, n4, n5, n6, n7⟩, hb2, ⟨c1, c2, c3, c4, c5⟩⟩ := h2
  exact ⟨VMstatic_trans hs1 hs2, ⟨n1.trans m1, n2.trans m2, n3.trans m3,
    n4.trans m4, n5.trans m5, n6.trans m6, n7.trans m7⟩, hb2.trans hb1,
    ⟨c1.trans b1, c2.trans b2, c3.trans b3, c4.trans b4, c5.trans b5⟩⟩

theorem virtio_mem_send_unplug_loop_frame (n : Nat) :
    ∀ (s : VM) (a : Nat),
      HostFrame s (virtio_mem_send_unplug_loop n s a).1 ∧
      (virtio_mem_send_unplug_loop n s a).1.plugged_size = s.plugged_size ∧
      (virtio_mem_send_unplug_loop n s a).1.marked_pages = s.marked_pages := by
  induction n with
  | zero =>
    intro s a
    exact ⟨hostFrame_refl s, rfl, rfl⟩
  | succ n ih =>
    intro s a
    by_cases hm : s.membuf a
    · have hstep : HostFrame s
          { s with membuf := fun x => if x = a then false else s.membuf x } := by
        simp [HostFrame, VMstatic, VMtrackMB, VMtrackSB, VMtrackBB]
      have h := ih { s with membuf := fun x => if x = a then false else s.membuf x }
        (a + s.device_block_size)
      simp only [virtio_mem_send_unplug_loop, hm, if_true]
      exact ⟨hostFrame_trans hstep h.1, h.2.1, h.2.2⟩
    · simp only [virtio_mem_send_unplug_loop, hm, if_false]
      exact ⟨hostFrame_refl s, rfl, rfl⟩

theorem virtio_mem_send_unplug_loop_all_present (n : Nat) :
    ∀ (s : VM) (a : Nat), 0 < s.device_block_size →
      (∀ k < n, s.membuf (a + k * s.device_block_size) = true) →
      (virtio_mem_send_unplug_loop n s a).2 = 0 := by
  induction n with
  | zero => intro s a _ _; rfl
  | succ n ih =>
    intro s a hdbs hall
    have h0 : s.membuf a = true := by
      have := hall 0 (Nat.succ_pos n)
      simpa using this
    simp only [virtio_mem_send_unplug_loop, h0, if_true]
    refine ih _ _ ?_ ?_
    · exact hdbs
    intro k hk
    have hne : a + s.device_block_size + k * s.device_block_size ≠ a := by
      omega
    have h2 := hall (k + 1) (by omega)
    have heq : a + (k + 1) * s.device_block_size
        = a + s.device_block_size + k * s.device_block_size := by ring
    rw [heq] at h2
    simpa [hne] using h2

theorem virtio_mem_convert_error_code_ne_zero (rc : Int) :
    virtio_mem_convert_error_code rc ≠ 0 := by
  unfold virtio_mem_convert_error_code ENOSPC ETXTBSY EBUSY EAGAIN ENOMEM
  split <;> omega

theorem virtio_mem_send_unplug_request_spec (s : VM) (a size : Nat)
    (memmap : Bool) :
    HostFrame s (virtio_mem_send_unplug_request s a size memmap).1 ∧
    (virtio_mem_send_unplug_request s a size memmap).1.marked_pages
      = s.marked_pages ∧
    ((virtio_mem_send_unplug_request s a size memmap).2 = 0 →
      (virtio_mem_send_unplug_request s a size memmap).1.plugged_size
        = s.plugged_size - (if memmap then 0 else (size : Int))) ∧
    ((virtio_mem_send_unplug_request s a size memmap).2 ≠ 0 →
      (virtio_mem_send_unplug_request s a size memmap).1.plugged_size
        = s.plugged_size) ∧
    (0 < s.device_block_size →
      (∀ k < size / s.device_block_size,
        s.membuf (a + k * s.device_block_size) = true) →
      (virtio_mem_send_unplug_request s a size memmap).2 = 0) := by
  obtain ⟨hf, hp, hm⟩ :=
    virtio_mem_send_unplug_loop_frame (size / s.device_block_size) s a
  have hall := virtio_mem_send_unplug_loop_all_present
    (size / s.device_block_size) s a
  unfold virtio_mem_send_unplug_request
  rcases hloop : virtio_mem_send_unplug_loop (size / s.device_block_size) s a
    with ⟨s1, rc⟩
  rw [hloop] at hf hp hm hall
  replace hf : HostFrame s s1 := hf
  replace hp : s1.plugged_size = s.plugged_size := hp
  replace hm : s1.marked_pages = s.marked_pages := hm
  replace hall : 0 < s.device_block_size →
      (∀ k < size / s.device_block_size,
        s.membuf (a + k * s.device_block_size) = true) → rc = 0 := hall
  by_cases hrc : rc = 0
  · subst hrc
    cases memmap with
    | true =>
      refine ⟨hf, hm, fun _ => by simpa using hp, fun hne => absurd rfl hne,
        fun _ _ => rfl⟩
    | false =>
      refine ⟨?_, hm, fun _ => by simp [hp], fun hne => absurd rfl hne,
        fun _ _ => rfl⟩
      refine hostFrame_trans hf ?_
      simp [HostFrame, VMstatic, VMtrackMB, VMtrackSB, VMtrackBB]
  · simp only [if_neg hrc]
    exact ⟨hf, hm, fun h0 => absurd h0 hrc, fun _ => hp,
      fun hd hpre => absurd (hall hd hpre) hrc⟩


theorem virtio_mem_send_plug_loop_spec (n : Nat) :
    ∀ (s : VM) (a : Nat) (memmap : Bool),
      HostFrame s (virtio_mem_send_plug_loop n s a memmap).1 ∧
      (virtio_mem_send_plug_loop n s a memmap).1.marked_pages
        = s.marked_pages ∧
      (virtio_mem_send_plug_loop n s a memmap).2.2 ≤ n ∧
      (virtio_mem_send_plug_loop n s a memmap).1.plugged_size
        = s.plugged_size + (if memmap then 0 else
            (((n - (virtio_mem_send_plug_loop n s a memmap).2.2)
              * s.device_block_size : Nat) : Int)) ∧
      ((virtio_mem_send_plug_loop n s a memmap).2.1 = 0 →
        (virtio_mem_send_plug_loop n s a memmap).2.2 = 0) ∧
      (∀ x, s.membuf x = true →
        (virtio_mem_send_plug_loop n s a memmap).1.membuf x = true) ∧
      (∀ k, k < n - (virtio_mem_send_plug_loop n s a memmap).2.2 →
        (virtio_mem_send_plug_loop n s a memmap).1.membuf
          (a + k * s.device_block_size) = true) := by
  induction n with
  | zero =>
    intro s a memmap
    refine ⟨hostFrame_refl s, rfl, Nat.le_refl 0, ?_, fun _ => rfl,
      fun x hx => hx, fun k hk => absurd hk (by omega)⟩
    show s.plugged_size = s.plugged_size + (if memmap then 0 else
      (((0 - (0 : Nat)) * s.device_block_size : Nat) : Int))
    cases memmap <;> simp
  | succ n ih =>
    intro s a memmap
    by_cases hr : s.env.mem_buf_alloc_result s.alloc_cnt = 0
    · have hstep : virtio_mem_send_plug_loop (n + 1) s a memmap
        = virtio_mem_send_plug_loop n
          { s with
            alloc_cnt := s.alloc_cnt + 1,
            membuf := fun x => if x = a then true else s.membuf x,
            plugged_size :=
              if memmap then s.plugged_size
              else s.plugged_size + (s.device_block_size : Int) }
          (a + s.device_block_size) memmap := by
        simp only [virtio_mem_send_plug_loop, hr, if_true]
      rw [hstep]
      set t : VM :=
        { s with
          alloc_cnt := s.alloc_cnt + 1,
          membuf := fun x => if x = a then true else s.membuf x,
          plugged_size :=
            if memmap then s.plugged_size
            else s.plugged_size + (s.device_block_size : Int) } with ht
      obtain ⟨f1, f2, f3, f4, f5, f6, f7⟩ := ih t (a + s.device_block_size) memmap
      replace f2 : (virtio_mem_send_plug_loop n t
          (a + s.device_block_size) memmap).1.marked_pages
          = s.marked_pages := f2
      replace f4 : (virtio_mem_send_plug_loop n t
          (a + s.device_block_size) memmap).1.plugged_size
          = (if memmap then s.plugged_size
              else s.plugged_size + (s.device_block_size : Int))
            + (if memmap then 0 else
              (((n - (virtio_mem_send_plug_loop n t
                (a + s.device_block_size) memmap).2.2)
                * s.device_block_size : Nat) : Int)) := f4
      replace f7 : ∀ k, k < n - (virtio_mem_send_plug_loop n t
          (a + s.device_block_size) memmap).2.2 →
          (virtio_mem_send_plug_loop n t
            (a + s.device_block_size) memmap).1.membuf
            ((a + s.device_block_size) + k * s.device_block_size) = true := f7
      have hframe : HostFrame s t := by
        rw [ht]
        simp [HostFrame, VMstatic, VMtrackMB, VMtrackSB, VMtrackBB]
      refine ⟨hostFrame_trans hframe f1, f2, Nat.le_succ_of_le f3, ?_, f5,
        fun x hx => f6 x (by simp [hx]), ?_⟩
      · rw [f4]
        cases memmap with
        | true => simp
        | false =>
          simp only [Bool.false_eq_true, if_false]
          have h1 : n + 1 - (virtio_mem_send_plug_loop n t
              (a + s.device_block_size) false).2.2
              = (n - (virtio_mem_send_plug_loop n t
                (a + s.device_block_size) false).2.2) + 1 := by
            omega
          rw [h1, Nat.succ_mul]
          push_cast
          ring
      · intro k hk
        match k with
        | 0 =>
          simp only [Nat.zero_mul, Nat.add_zero]
          exact f6 a (by simp)
        | j + 1 =>
          have heq : a + (j + 1) * s.device_block_size
              = (a + s.device_block_size) + j * s.device_block_size := by ring
          rw [heq]
          exact f7 j (by omega)
    · have hstep : virtio_mem_send_plug_loop (n + 1) s a memmap
        = ({ s with alloc_cnt := s.alloc_cnt + 1 },
            virtio_mem_convert_error_code
              (s.env.mem_buf_alloc_result s.alloc_cnt), n + 1) := by
        simp only [virtio_mem_send_plug_loop, hr, if_false]
      rw [hstep]
      refine ⟨?_, rfl, Nat.le_refl _, ?_, ?_, fun x hx => hx,
        fun k hk => by simp at hk⟩
      · simp [HostFrame, VMstatic, VMtrackMB, VMtrackSB, VMtrackBB]
      · show s.plugged_size = s.plugged_size + (if memmap then 0 else
          (((n + 1 - (n + 1)) * s.device_block_size : Nat) : Int))
        cases memmap <;> simp
      · intro h0
        exact absurd h0 (virtio_mem_convert_error_code_ne_zero _)



theorem virtio_mem_send_plug_request_spec (s : VM) (a size : Nat)
    (memmap : Bool) :
    HostFrame s (virtio_mem_send_plug_request s a size memmap).1 ∧
    (virtio_mem_send_plug_request s a size memmap).1.marked_pages
      = s.marked_pages ∧
    ((virtio_mem_send_plug_request s a size memmap).2 = 0 →
      (virtio_mem_send_plug_request s a size memmap).1.plugged_size
        = s.plugged_size + (if memmap then 0 else
            ((size / s.device_block_size * s.device_block_size : Nat) : Int))) ∧
    ((virtio_mem_send_plug_request s a size memmap).2 ≠ 0 →
      (virtio_mem_send_plug_request s a size memmap).1.plugged_size
        = s.plugged_size) ∧
    ((virtio_mem_send_plug_request s a size memmap).2 = 0 →
      ∀ k, k < size / s.device_block_size →
        (virtio_mem_send_plug_request s a size memmap).1.membuf
          (a + k * s.device_block_size) = true) := by
  unfold virtio_mem_send_plug_request
  simp only
  split
  · refine ⟨?_, rfl,
      fun h0 => absurd (show (-ENOMEM : Int) = 0 from h0) (by decide),
      fun _ => rfl,
      fun h0 => absurd (show (-ENOMEM : Int) = 0 from h0) (by decide)⟩
    simp [HostFrame, VMstatic, VMtrackMB, VMtrackSB, VMtrackBB]
  next hok =>
    rcases hloop : virtio_mem_send_plug_loop (size / s.device_block_size)
        { s with la_cnt := s.la_cnt + 1 } a memmap with ⟨s1, rc, rem⟩
    dsimp only
    obtain ⟨f1, f2, f3, f4, f5, f6, f7⟩ :=
      virtio_mem_send_plug_loop_spec (size / s.device_block_size)
        { s with la_cnt := s.la_cnt + 1 } a memmap
    rw [hloop] at f1 f2 f3 f4 f5 f7
    replace f1 : HostFrame { s with la_cnt := s.la_cnt + 1 } s1 := f1
    replace f2 : s1.marked_pages = s.marked_pages := f2
    replace f3 : rem ≤ size / s.device_block_size := f3
    replace f4 : s1.plugged_size = s.plugged_size + (if memmap then 0 else
      (((size / s.device_block_size - rem) * s.device_block_size : Nat)
        : Int)) := f4
    replace f5 : rc = 0 → rem = 0 := f5
    replace f7 : ∀ k, k < size / s.device_block_size - rem →
      s1.membuf (a + k * s.device_block_size) = true := f7
    have hfr0 : HostFrame s { s with la_cnt := s.la_cnt + 1 } := by
      simp [HostFrame, VMstatic, VMtrackMB, VMtrackSB, VMtrackBB]
    have hfr1 : HostFrame s s1 := hostFrame_trans hfr0 f1
    split
    next hrc =>
      have hrem := f5 hrc
      have hplug : s1.plugged_size = s.plugged_size + (if memmap then 0 else
          ((size / s.device_block_size * s.device_block_size : Nat) : Int))
        := by
        rw [f4, hrem]
        simp
      refine ⟨hfr1, f2, fun _ => hplug, fun hne => absurd rfl hne,
        fun _ k hk => f7 k (by omega)⟩
    next hrc =>
      split
      next hdone =>
        rcases hunp : virtio_mem_send_unplug_request s1 a
            ((size / s.device_block_size - rem) * s.device_block_size) memmap
          with ⟨s2, rcu⟩
        dsimp only
        obtain ⟨g1, g2, g3, g4, g5⟩ := virtio_mem_send_unplug_request_spec
          s1 a ((size / s.device_block_size - rem) * s.device_block_size)
          memmap
        rw [hunp] at g1 g2 g3 g4 g5
        replace g1 : HostFrame s1 s2 := g1
        replace g2 : s2.marked_pages = s1.marked_pages := g2
        replace g3 : rcu = 0 → s2.plugged_size = s1.plugged_size -
          (if memmap then 0 else
            (((size / s.device_block_size - rem) * s.device_block_size
              : Nat) : Int)) := g3
        replace g5 : 0 < s1.device_block_size →
          (∀ k, k < (size / s.device_block_size - rem)
              * s.device_block_size / s1.device_block_size →
            s1.membuf (a + k * s1.device_block_size) = true) →
          rcu = 0 := g5
        have hdbs : 0 < s.device_block_size := by
          rcases Nat.eq_zero_or_pos s.device_block_size with h0 | h1
          · rw [h0] at hdone
            simp at hdone
          · exact h1
        have hdbs1 : s1.device_block_size = s.device_block_size := hfr1.1.1
        have hrcu : rcu = 0 := by
          apply g5 (by rw [hdbs1]; exact hdbs)
          intro k hk
          rw [hdbs1] at hk ⊢
          rw [Nat.mul_div_cancel _ hdbs] at hk
          exact f7 k hk
        have hplug : s2.plugged_size = s.plugged_size := by
          rw [g3 hrcu, f4]
          cases memmap <;> simp
        exact ⟨hostFrame_trans hfr1 g1, g2.trans f2,
          fun h0 => absurd h0 hrc, fun _ => hplug,
          fun h0 => absurd h0 hrc⟩
      next hdone =>
        have hplug : s1.plugged_size = s.plugged_size := by
          rw [f4]
          have hz : (size / s.device_block_size - rem) * s.device_block_size
              = 0 := by omega
          rw [hz]
          cases memmap <;> simp
        exact ⟨hfr1, f2, fun h0 => absurd h0 hrc, fun _ => hplug,
          fun h0 => absurd h0 hrc⟩

theorem virtio_mem_plug_memmap_spec (s : VM) (a : Nat) :
    HostFrame s (virtio_mem_plug_memmap s a).1 ∧
    (virtio_mem_plug_memmap s a).1.plugged_size = s.plugged_size ∧
    (virtio_mem_plug_memmap s a).1.marked_pages = s.marked_pages := by
  unfold virtio_mem_plug_memmap
  split
  · exact ⟨hostFrame_refl s, rfl, rfl⟩
  · obtain ⟨f1, f2, f3, f4, f5⟩ :=
      virtio_mem_send_plug_request_spec s a s.vmemmap_size true
    refine ⟨f1, ?_, f2⟩
    by_cases h : (virtio_mem_send_plug_request s a s.vmemmap_size true).2 = 0
    · rw [f3 h]
      simp
    · exact f4 h

theorem virtio_mem_unplug_memmap_spec (s : VM) (a : Nat) :
    HostFrame s (virtio_mem_unplug_memmap s a) ∧
    (virtio_mem_unplug_memmap s a).plugged_size = s.plugged_size ∧
    (virtio_mem_unplug_memmap s a).marked_pages = s.marked_pages := by
  unfold virtio_mem_unplug_memmap
  split
  · exact ⟨hostFrame_refl s, rfl, rfl⟩
  · obtain ⟨f1, f2, f3, f4, f5⟩ :=
      virtio_mem_send_unplug_request_spec s a s.vmemmap_size true
    refine ⟨f1, ?_, f2⟩
    by_cases h : (virtio_mem_send_unplug_request s a s.vmemmap_size true).2 = 0
    · rw [f3 h]
      simp
    · exact f4 h


theorem virtio_mem_add_memory_go_spec (s : VM) (a size : Nat) :
    HostFrame s (virtio_mem_add_memory_go s a size).1 ∧
    (virtio_mem_add_memory_go s a size).1.plugged_size = s.plugged_size ∧
    (virtio_mem_add_memory_go s a size).1.marked_pages = s.marked_pages := by
  unfold virtio_mem_add_memory_go
  rcases hpm : virtio_mem_plug_memmap s a with ⟨s1, rc⟩
  dsimp only
  obtain ⟨g1, g2, g3⟩ := virtio_mem_plug_memmap_spec s a
  rw [hpm] at g1 g2 g3
  replace g1 : HostFrame s s1 := g1
  replace g2 : s1.plugged_size = s.plugged_size := g2
  replace g3 : s1.marked_pages = s.marked_pages := g3
  split
  next hrc => exact ⟨g1, g2, g3⟩
  next hrc =>
    split
    next hrc2 =>
      refine ⟨hostFrame_trans g1 ?_, g2, g3⟩
      simp [HostFrame, VMstatic, VMtrackMB, VMtrackSB, VMtrackBB]
    next hrc2 =>
      obtain ⟨u1, u2, u3⟩ := virtio_mem_unplug_memmap_spec
        { s1 with add_cnt := s1.add_cnt + 1 } a
      replace u2 : (virtio_mem_unplug_memmap
        { s1 with add_cnt := s1.add_cnt + 1 } a).plugged_size
        = s1.plugged_size := u2
      replace u3 : (virtio_mem_unplug_memmap
        { s1 with add_cnt := s1.add_cnt + 1 } a).marked_pages
        = s1.marked_pages := u3
      have hstep : HostFrame s1 { s1 with add_cnt := s1.add_cnt + 1 } := by
        simp [HostFrame, VMstatic, VMtrackMB, VMtrackSB, VMtrackBB]
      exact ⟨hostFrame_trans g1 (hostFrame_trans hstep u1),
        u2.trans g2, u3.trans g3⟩

theorem virtio_mem_add_memory_spec (s : VM) (a size : Nat) :
    HostFrame s (virtio_mem_add_memory s a size).1 ∧
    (virtio_mem_add_memory s a size).1.plugged_size = s.plugged_size ∧
    (virtio_mem_add_memory s a size).1.marked_pages = s.marked_pages := by
  unfold virtio_mem_add_memory
  split
  · exact virtio_mem_add_memory_go_spec s a size
  · split
    · obtain ⟨u1, u2, u3⟩ := virtio_mem_add_memory_go_spec
        { s with la_cnt := s.la_cnt + 1, resource_name := true } a size
      replace u2 : (virtio_mem_add_memory_go
        { s with la_cnt := s.la_cnt + 1, resource_name := true } a
          size).1.plugged_size = s.plugged_size := u2
      replace u3 : (virtio_mem_add_memory_go
        { s with la_cnt := s.la_cnt + 1, resource_name := true } a
          size).1.marked_pages = s.marked_pages := u3
      have hstep : HostFrame s
          { s with la_cnt := s.la_cnt + 1, resource_name := true } := by
        simp [HostFrame, VMstatic, VMtrackMB, VMtrackSB, VMtrackBB]
      exact ⟨hostFrame_trans hstep u1, u2, u3⟩
    · exact ⟨by simp [HostFrame, VMstatic, VMtrackMB, VMtrackSB, VMtrackBB],
        rfl, rfl⟩

theorem virtio_mem_remove_memory_spec (s : VM) (a size : Nat) :
    HostFrame s (virtio_mem_remove_memory s a size).1 ∧
    (virtio_mem_remove_memory s a size).1.plugged_size = s.plugged_size ∧
    (virtio_mem_remove_memory s a size).1.marked_pages = s.marked_pages := by
  unfold virtio_mem_remove_memory
  simp only
  split
  next hrc =>
    obtain ⟨u1, u2, u3⟩ := virtio_mem_unplug_memmap_spec
      { s with
        remove_cnt := s.remove_cnt + 1,
        offline_size := s.offline_size - (size : Int) } a
    replace u2 : (virtio_mem_unplug_memmap
      { s with
        remove_cnt := s.remove_cnt + 1,
        offline_size := s.offline_size - (size : Int) } a).plugged_size
      = s.plugged_size := u2
    replace u3 : (virtio_mem_unplug_memmap
      { s with
        remove_cnt := s.remove_cnt + 1,
        offline_size := s.offline_size - (size : Int) } a).marked_pages
      = s.marked_pages := u3
    have hstep : HostFrame s
        { s with
          remove_cnt := s.remove_cnt + 1,
          offline_size := s.offline_size - (size : Int) } := by
      simp [HostFrame, VMstatic, VMtrackMB, VMtrackSB, VMtrackBB]
    exact ⟨hostFrame_trans hstep u1, u2, u3⟩
  next hrc =>
    exact ⟨by simp [HostFrame, VMstatic, VMtrackMB, VMtrackSB, VMtrackBB],
      rfl, rfl⟩

theorem virtio_mem_offline_and_remove_memory_spec (s : VM) (a size : Nat) :
    HostFrame s (virtio_mem_offline_and_remove_memory s a size).1 ∧
    (virtio_mem_offline_and_remove_memory s a size).1.plugged_size
      = s.plugged_size ∧
    (virtio_mem_offline_and_remove_memory s a size).1.marked_pages
      = s.marked_pages := by
  unfold virtio_mem_offline_and_remove_memory
  simp only
  split
  next hrc =>
    obtain ⟨u1, u2, u3⟩ := virtio_mem_unplug_memmap_spec
      { s with
        offrem_cnt := s.offrem_cnt + 1,
        offline_size := s.offline_size - (size : Int) } a
    replace u2 : (virtio_mem_unplug_memmap
      { s with
        offrem_cnt := s.offrem_cnt + 1,
        offline_size := s.offline_size - (size : Int) } a).plugged_size
      = s.plugged_size := u2
    replace u3 : (virtio_mem_unplug_memmap
      { s with
        offrem_cnt := s.offrem_cnt + 1,
        offline_size := s.offline_size - (size : Int) } a).marked_pages
      = s.marked_pages := u3
    have hstep : HostFrame s
        { s with
          offrem_cnt := s.offrem_cnt + 1,
          offline_size := s.offline_size - (size : Int) } := by
      simp [HostFrame, VMstatic, VMtrackMB, VMtrackSB, VMtrackBB]
    exact ⟨hostFrame_trans hstep u1, u2, u3⟩
  next hrc =>
    exact ⟨by simp [HostFrame, VMstatic, VMtrackMB, VMtrackSB, VMtrackBB],
      rfl, rfl⟩

theorem virtio_mem_fake_offline_loop_spec (pfn nr_pages : Nat) (fuel : Nat) :
    ∀ (s : VM) (mv : Bool),
      HostFrame s (virtio_mem_fake_offline_loop pfn nr_pages fuel s mv).1 ∧
      (virtio_mem_fake_offline_loop pfn nr_pages fuel s mv).1.plugged_size
        = s.plugged_size ∧
      ((virtio_mem_fake_offline_loop pfn nr_pages fuel s mv).2 ≠ 0 →
        (virtio_mem_fake_offline_loop pfn nr_pages fuel s mv).1.marked_pages
          = s.marked_pages) ∧
      (virtio_mem_fake_offline_loop pfn nr_pages fuel s mv).1.contig_cnt
        ≤ s.contig_cnt + fuel ∧
      (virtio_mem_fake_offline_loop pfn nr_pages fuel s mv).1.cfg_cnt
        ≤ s.cfg_cnt + fuel := by
  induction fuel with
  | zero =>
    intro s mv
    exact ⟨hostFrame_refl s, rfl, fun _ => rfl, Nat.le_refl _, Nat.le_refl _⟩
  | succ fuel ih =>
    intro s mv
    simp only [virtio_mem_fake_offline_loop]
    split
    · exact ⟨by simp [HostFrame, VMstatic, VMtrackMB, VMtrackSB, VMtrackBB],
        rfl, fun _ => rfl, by dsimp only; omega, by dsimp only; omega⟩
    · split
      next h1 =>
        exact ⟨by simp [HostFrame, VMstatic, VMtrackMB, VMtrackSB, VMtrackBB],
          rfl, fun _ => rfl, by dsimp only; omega, by dsimp only; omega⟩
      next h1 =>
        split
        next h2 =>
          exact ⟨by simp [HostFrame, VMstatic, VMtrackMB, VMtrackSB,
            VMtrackBB], rfl, fun _ => rfl, by dsimp only; omega, by dsimp only; omega⟩
        next h2 =>
          split
          next h3 =>
            obtain ⟨u1, u2, u3, u4, u5⟩ := ih
              { s with
                cfg_cnt := s.cfg_cnt + 1,
                contig_cnt := s.contig_cnt + 1 }
              mv
            replace u2 : (virtio_mem_fake_offline_loop pfn nr_pages fuel
              { s with
                cfg_cnt := s.cfg_cnt + 1,
                contig_cnt := s.contig_cnt + 1 } mv).1.plugged_size
              = s.plugged_size := u2
            replace u3 : (virtio_mem_fake_offline_loop pfn nr_pages fuel
              { s with
                cfg_cnt := s.cfg_cnt + 1,
                contig_cnt := s.contig_cnt + 1 } mv).2 ≠ 0 →
              (virtio_mem_fake_offline_loop pfn nr_pages fuel
                { s with
                  cfg_cnt := s.cfg_cnt + 1,
                  contig_cnt := s.contig_cnt + 1 } mv).1.marked_pages
                = s.marked_pages := u3
            replace u4 : (virtio_mem_fake_offline_loop pfn nr_pages fuel
              { s with
                cfg_cnt := s.cfg_cnt + 1,
                contig_cnt := s.contig_cnt + 1 } mv).1.contig_cnt
              ≤ s.contig_cnt + 1 + fuel := u4
            replace u5 : (virtio_mem_fake_offline_loop pfn nr_pages fuel
              { s with
                cfg_cnt := s.cfg_cnt + 1,
                contig_cnt := s.contig_cnt + 1 } mv).1.cfg_cnt
              ≤ s.cfg_cnt + 1 + fuel := u5
            have hstep : HostFrame s
                { s with
                  cfg_cnt := s.cfg_cnt + 1,
                  contig_cnt := s.contig_cnt + 1 } := by
              simp [HostFrame, VMstatic, VMtrackMB, VMtrackSB, VMtrackBB]
            exact ⟨hostFrame_trans hstep u1, u2, u3, by omega, by omega⟩
          next h3 =>
            refine ⟨?_, rfl, ?_,
              by dsimp only [virtio_mem_set_fake_offline]; omega,
              by dsimp only [virtio_mem_set_fake_offline]; omega⟩
            · simp [virtio_mem_set_fake_offline, HostFrame, VMstatic,
                VMtrackMB, VMtrackSB, VMtrackBB]
            · intro hne
              exact absurd rfl hne

theorem virtio_mem_fake_offline_spec (s : VM) (pfn nr_pages : Nat) :
    HostFrame s (virtio_mem_fake_offline s pfn nr_pages).1 ∧
    (virtio_mem_fake_offline s pfn nr_pages).1.plugged_size
      = s.plugged_size ∧
    ((virtio_mem_fake_offline s pfn nr_pages).2 ≠ 0 →
      (virtio_mem_fake_offline s pfn nr_pages).1.marked_pages
        = s.marked_pages) := by
  obtain ⟨u1, u2, u3, _, _⟩ := virtio_mem_fake_offline_loop_spec pfn nr_pages
    5 s (s.env.is_zone_movable pfn)
  exact ⟨u1, u2, u3⟩

theorem virtio_mem_sbm_set_mb_state_spec (s : VM) (mb_id state : Nat)
    (s2 : VM) (h : virtio_mem_sbm_set_mb_state s mb_id state = some s2) :
    VMstatic s s2 ∧ s2.plugged_size = s.plugged_size ∧
    s2.marked_pages = s.marked_pages ∧ VMtrackBB s s2 ∧
    s2.sbm_next_mb_id = s.sbm_next_mb_id ∧
    s2.sbm_last_usable_mb_id = s.sbm_last_usable_mb_id ∧
    s2.sbm_sb_states = s.sbm_sb_states := by
  unfold virtio_mem_sbm_set_mb_state at h
  simp only at h
  split at h
  · exact absurd h (by simp)
  · have h2 := h
    simp only [Option.some.injEq] at h2
    subst h2
    exact ⟨⟨rfl, rfl, rfl, rfl, rfl, rfl, rfl, rfl, rfl, rfl, rfl, rfl, rfl,
      rfl, rfl, rfl⟩, rfl, rfl, ⟨rfl, rfl, rfl, rfl, rfl⟩, rfl, rfl, rfl⟩

theorem virtio_mem_bbm_set_bb_state_spec (s : VM) (bb_id state : Nat)
    (s2 : VM) (h : virtio_mem_bbm_set_bb_state s bb_id state = some s2) :
    VMstatic s s2 ∧ s2.plugged_size = s.plugged_size ∧
    s2.marked_pages = s.marked_pages ∧ VMtrackMB s s2 ∧
    s2.sbm_sb_states = s.sbm_sb_states ∧ s2.membuf = s.membuf ∧
    s2.bbm_next_bb_id = s.bbm_next_bb_id ∧
    s2.bbm_bb_states (bb_id - s.bbm_first_bb_id) = state := by
  unfold virtio_mem_bbm_set_bb_state at h
  simp only at h
  split at h
  · exact absurd h (by simp)
  · have h2 := h
    simp only [Option.some.injEq] at h2
    subst h2
    refine ⟨⟨rfl, rfl, rfl, rfl, rfl, rfl, rfl, rfl, rfl, rfl, rfl, rfl, rfl,
      rfl, rfl, rfl⟩, rfl, rfl, ⟨rfl, rfl, rfl, rfl, rfl, rfl, rfl⟩, rfl, rfl,
      rfl, ?_⟩
    simp

theorem virtio_mem_sbm_plug_sb_spec (s : VM) (mb_id sb_id count : Nat)
    (hdvd : s.device_block_size ∣ s.sbm_sb_size) :
    VMstatic s (virtio_mem_sbm_plug_sb s mb_id sb_id count).1 ∧
    (virtio_mem_sbm_plug_sb s mb_id sb_id count).1.marked_pages
      = s.marked_pages ∧
    ((virtio_mem_sbm_plug_sb s mb_id sb_id count).2 = 0 →
      (virtio_mem_sbm_plug_sb s mb_id sb_id count).1.plugged_size
        = s.plugged_size + ((count * s.sbm_sb_size : Nat) : Int)) ∧
    ((virtio_mem_sbm_plug_sb s mb_id sb_id count).2 ≠ 0 →
      (virtio_mem_sbm_plug_sb s mb_id sb_id count).1.plugged_size
        = s.plugged_size) := by
  unfold virtio_mem_sbm_plug_sb
  simp only
  rcases hpl : virtio_mem_send_plug_request s
      (virtio_mem_sb_id_to_phys s mb_id sb_id) (count * s.sbm_sb_size) false
    with ⟨s1, rc⟩
  dsimp only
  obtain ⟨f1, f2, f3, f4, f5⟩ := virtio_mem_send_plug_request_spec s
    (virtio_mem_sb_id_to_phys s mb_id sb_id) (count * s.sbm_sb_size) false
  rw [hpl] at f1 f2 f3 f4
  replace f2 : s1.marked_pages = s.marked_pages := f2
  replace f3 : rc = 0 → s1.plugged_size = s.plugged_size +
    ((count * s.sbm_sb_size / s.device_block_size * s.device_block_size
      : Nat) : Int) := by
    intro h0
    have := f3 h0
    simpa using this
  replace f4 : rc ≠ 0 → s1.plugged_size = s.plugged_size := f4
  have hcancel : count * s.sbm_sb_size / s.device_block_size
      * s.device_block_size = count * s.sbm_sb_size :=
    Nat.div_mul_cancel (Dvd.dvd.mul_left hdvd count)
  split
  next hrc =>
    refine ⟨?_, f2, fun _ => ?_, fun hne => absurd rfl hne⟩
    · refine VMstatic_trans f1.1 ?_
      simp [virtio_mem_sbm_set_sb_plugged, VMstatic]
    · have := f3 hrc
      rw [hcancel] at this
      exact this
  next hrc =>
    exact ⟨f1.1, f2, fun h0 => absurd h0 hrc, fun _ => f4 hrc⟩

theorem virtio_mem_sbm_unplug_sb_spec (s : VM) (mb_id sb_id count : Nat) :
    VMstatic s (virtio_mem_sbm_unplug_sb s mb_id sb_id count).1 ∧
    (virtio_mem_sbm_unplug_sb s mb_id sb_id count).1.marked_pages
      = s.marked_pages ∧
    ((virtio_mem_sbm_unplug_sb s mb_id sb_id count).2 = 0 →
      (virtio_mem_sbm_unplug_sb s mb_id sb_id count).1.plugged_size
        = s.plugged_size - ((count * s.sbm_sb_size : Nat) : Int)) ∧
    ((virtio_mem_sbm_unplug_sb s mb_id sb_id count).2 ≠ 0 →
      (virtio_mem_sbm_unplug_sb s mb_id sb_id count).1.plugged_size
        = s.plugged_size) := by
  unfold virtio_mem_sbm_unplug_sb
  simp only
  rcases hup : virtio_mem_send_unplug_request s
      (virtio_mem_sb_id_to_phys s mb_id sb_id) (count * s.sbm_sb_size) false
    with ⟨s1, rc⟩
  dsimp only
  obtain ⟨f1, f2, f3, f4, f5⟩ := virtio_mem_send_unplug_request_spec s
    (virtio_mem_sb_id_to_phys s mb_id sb_id) (count * s.sbm_sb_size) false
  rw [hup] at f1 f2 f3 f4
  replace f2 : s1.marked_pages = s.marked_pages := f2
  replace f3 : rc = 0 → s1.plugged_size = s.plugged_size -
    ((count * s.sbm_sb_size : Nat) : Int) := by
    intro h0
    have := f3 h0
    simpa using this
  replace f4 : rc ≠ 0 → s1.plugged_size = s.plugged_size := f4
  split
  next hrc =>
    refine ⟨?_, f2, fun _ => f3 hrc, fun hne => absurd rfl hne⟩
    refine VMstatic_trans f1.1 ?_
    simp [virtio_mem_sbm_set_sb_unplugged, VMstatic]
  next hrc =>
    exact ⟨f1.1, f2, fun h0 => absurd h0 hrc, fun _ => f4 hrc⟩

theorem virtio_mem_sbm_plug_count_aux_le (s : VM) (mb_id nb sb_id : Nat) :
    ∀ (rem extra : Nat), extra + 1 ≤ nb →
      virtio_mem_sbm_plug_count_aux s mb_id nb sb_id rem extra + 1 ≤ nb := by
  intro rem
  induction rem with
  | zero => intro extra h; exact h
  | succ rem ih =>
    intro extra h
    unfold virtio_mem_sbm_plug_count_aux
    split
    next hg => exact ih (extra + 1) (by have := hg.1; omega)
    next hg => exact h

theorem virtio_mem_fake_online_spec (s : VM) (pfn nr_pages : Nat) :
    VMstatic s (virtio_mem_fake_online s pfn nr_pages) ∧
    (virtio_mem_fake_online s pfn nr_pages).plugged_size = s.plugged_size := by
  constructor
  · simp [virtio_mem_fake_online, virtio_mem_clear_fake_offline, VMstatic]
  · rfl


theorem virtio_mem_sbm_plug_any_sb_loop_spec (mb_id old_state : Nat) :
    ∀ (nb : Nat) (s : VM), s.device_block_size ∣ s.sbm_sb_size →
      ∀ s1 rc nb1,
        virtio_mem_sbm_plug_any_sb_loop mb_id old_state s nb
          = some (s1, rc, nb1) →
        VMstatic s s1 ∧ nb1 ≤ nb ∧
        s1.plugged_size = s.plugged_size
          + (((nb - nb1) * s.sbm_sb_size : Nat) : Int) := by
  intro nb
  induction nb using Nat.strong_induction_on with
  | _ nb ih =>
    intro s hdvd s1 rc nb1 hrun
    rw [virtio_mem_sbm_plug_any_sb_loop] at hrun
    by_cases hnb : nb = 0
    · rw [dif_pos hnb] at hrun
      simp only [Option.some.injEq, Prod.mk.injEq] at hrun
      obtain ⟨h1, _, h3⟩ := hrun
      subst h1
      subst hnb
      exact ⟨VMstatic_refl s, by omega, by simp [← h3]⟩
    · rw [dif_neg hnb] at hrun
      by_cases hfull : s.sbm_sbs_per_mb
          ≤ virtio_mem_sbm_first_unplugged_sb s mb_id
      · rw [if_pos hfull] at hrun
        simp only [Option.some.injEq, Prod.mk.injEq] at hrun
        obtain ⟨h1, _, h3⟩ := hrun
        subst h1
        exact ⟨VMstatic_refl s, by omega, by simp [← h3]⟩
      · rw [if_neg hfull] at hrun
        simp only at hrun
        rcases hps : virtio_mem_sbm_plug_sb s mb_id
            (virtio_mem_sbm_first_unplugged_sb s mb_id)
            (virtio_mem_sbm_plug_count_aux s mb_id nb
              (virtio_mem_sbm_first_unplugged_sb s mb_id)
              (s.sbm_sbs_per_mb - virtio_mem_sbm_first_unplugged_sb s mb_id
                - 1) 0 + 1)
          with ⟨sA, rcA⟩
        rw [hps] at hrun
        dsimp only at hrun
        obtain ⟨p1, p2, p3, p4⟩ := virtio_mem_sbm_plug_sb_spec s mb_id
          (virtio_mem_sbm_first_unplugged_sb s mb_id)
          (virtio_mem_sbm_plug_count_aux s mb_id nb
            (virtio_mem_sbm_first_unplugged_sb s mb_id)
            (s.sbm_sbs_per_mb - virtio_mem_sbm_first_unplugged_sb s mb_id
              - 1) 0 + 1) hdvd
        rw [hps] at p1 p2 p3 p4
        replace p1 : VMstatic s sA := p1
        replace p3 : rcA = 0 → sA.plugged_size = s.plugged_size +
          (((virtio_mem_sbm_plug_count_aux s mb_id nb
            (virtio_mem_sbm_first_unplugged_sb s mb_id)
            (s.sbm_sbs_per_mb - virtio_mem_sbm_first_unplugged_sb s mb_id
              - 1) 0 + 1) * s.sbm_sb_size : Nat) : Int) := p3
        replace p4 : rcA ≠ 0 → sA.plugged_size = s.plugged_size := p4
        by_cases hrcA : rcA = 0
        · rw [if_neg (by simp [hrcA])] at hrun
          set count := virtio_mem_sbm_plug_count_aux s mb_id nb
            (virtio_mem_sbm_first_unplugged_sb s mb_id)
            (s.sbm_sbs_per_mb - virtio_mem_sbm_first_unplugged_sb s mb_id
              - 1) 0 + 1 with hcount
          have hcle : count ≤ nb := virtio_mem_sbm_plug_count_aux_le s mb_id
            nb (virtio_mem_sbm_first_unplugged_sb s mb_id)
            (s.sbm_sbs_per_mb - virtio_mem_sbm_first_unplugged_sb s mb_id - 1)
            0 (by omega)
          set s2 := if old_state = VIRTIO_MEM_SBM_MB_OFFLINE_PARTIAL then sA
            else
              virtio_mem_fake_online sA
                (virtio_mem_sb_id_to_phys sA mb_id
                  (virtio_mem_sbm_first_unplugged_sb s mb_id) / PAGE_SIZE)
                (count * sA.sbm_sb_size / PAGE_SIZE) with hs2
          have hA2 : VMstatic sA s2 ∧ s2.plugged_size = sA.plugged_size := by
            rw [hs2]
            split
            · exact ⟨VMstatic_refl sA, rfl⟩
            · exact ⟨(virtio_mem_fake_online_spec sA _ _).1,
                (virtio_mem_fake_online_spec sA _ _).2⟩
          have hsbA : sA.sbm_sb_size = s.sbm_sb_size := p1.2.2.2.2.2.2.2.2.2.2.1
          have hsbeq : s2.sbm_sb_size = s.sbm_sb_size := by
            rw [hA2.1.2.2.2.2.2.2.2.2.2.2.1, hsbA]
          have hdvd2 : s2.device_block_size ∣ s2.sbm_sb_size := by
            rw [hA2.1.1, p1.1, hsbeq]
            exact hdvd
          obtain ⟨q1, q2, q3⟩ := ih (nb - count) (by omega) s2 hdvd2 s1 rc nb1
            hrun
          refine ⟨VMstatic_trans p1 (VMstatic_trans hA2.1 q1), by omega, ?_⟩
          rw [q3, hA2.2, p3 hrcA, hsbeq]
          have harith : (nb - nb1) * s.sbm_sb_size
              = count * s.sbm_sb_size + (nb - count - nb1) * s.sbm_sb_size := by
            rw [← Nat.add_mul]
            congr 1
            omega
          rw [harith]
          push_cast
          ring
        · rw [if_pos hrcA] at hrun
          simp only [Option.some.injEq, Prod.mk.injEq] at hrun
          obtain ⟨h1, _, h3⟩ := hrun
          subst h1
          refine ⟨p1, by omega, ?_⟩
          rw [← h3, p4 hrcA]
          simp

theorem VMstatic_dbs {a b : VM} (h : VMstatic a b) :
    b.device_block_size = a.device_block_size := h.1

theorem VMstatic_in_sbm {a b : VM} (h : VMstatic a b) :
    b.in_sbm = a.in_sbm := h.2.2.2.2.1

theorem VMstatic_requested {a b : VM} (h : VMstatic a b) :
    b.requested_size = a.requested_size := h.2.2.2.2.2.2.2.2.1

theorem VMstatic_sb_size {a b : VM} (h : VMstatic a b) :
    b.sbm_sb_size = a.sbm_sb_size := h.2.2.2.2.2.2.2.2.2.2.1

theorem VMstatic_sbs_per_mb {a b : VM} (h : VMstatic a b) :
    b.sbm_sbs_per_mb = a.sbm_sbs_per_mb := h.2.2.2.2.2.2.2.2.2.2.2.1

theorem VMstatic_bb_size {a b : VM} (h : VMstatic a b) :
    b.bbm_bb_size = a.bbm_bb_size := h.2.2.2.2.2.2.2.2.2.2.2.2.2.1

theorem VMstatic_broken {a b : VM} (h : VMstatic a b) :
    b.broken = a.broken := h.2.2.2.2.2.2.2.2.2.2.2.2.2.2.2

theorem VMstatic_dvd_sb {a b : VM} (h : VMstatic a b)
    (hd : a.device_block_size ∣ a.sbm_sb_size) :
    b.device_block_size ∣ b.sbm_sb_size := by
  rw [VMstatic_dbs h, VMstatic_sb_size h]
  exact hd

theorem VMstatic_dvd_bb {a b : VM} (h : VMstatic a b)
    (hd : a.device_block_size ∣ a.bbm_bb_size) :
    b.device_block_size ∣ b.bbm_bb_size := by
  rw [VMstatic_dbs h, VMstatic_bb_size h]
  exact hd

theorem virtio_mem_sbm_plug_any_sb_spec (s : VM) (mb_id nb : Nat)
    (hdvd : s.device_block_size ∣ s.sbm_sb_size) :
    ∀ s1 rc nb1, virtio_mem_sbm_plug_any_sb s mb_id nb = some (s1, rc, nb1) →
      VMstatic s s1 ∧ nb1 ≤ nb ∧
      s1.plugged_size = s.plugged_size
        + (((nb - nb1) * s.sbm_sb_size : Nat) : Int) := by
  intro s1 rc nb1 hrun
  unfold virtio_mem_sbm_plug_any_sb at hrun
  simp only at hrun
  by_cases hnb : nb = 0
  · rw [if_pos hnb] at hrun
    simp only [Option.some.injEq, Prod.mk.injEq] at hrun
    obtain ⟨h1, _, h3⟩ := hrun
    subst h1
    exact ⟨VMstatic_refl s, by omega, by simp [← h3]⟩
  · rw [if_neg hnb] at hrun
    rcases hl : virtio_mem_sbm_plug_any_sb_loop mb_id
        (virtio_mem_sbm_get_mb_state s mb_id) s nb with _ | ⟨sL, rcL, nbL⟩
    · rw [hl] at hrun
      exact Option.noConfusion hrun
    · rw [hl] at hrun
      obtain ⟨q1, q2, q3⟩ := virtio_mem_sbm_plug_any_sb_loop_spec mb_id
        (virtio_mem_sbm_get_mb_state s mb_id) nb s hdvd sL rcL nbL hl
      simp only [Option.bind_eq_bind, Option.some_bind] at hrun
      by_cases hrcL : rcL ≠ 0
      · rw [if_pos hrcL] at hrun
        simp only [Option.some.injEq, Prod.mk.injEq] at hrun
        obtain ⟨h1, _, h3⟩ := hrun
        subst h1
        exact ⟨q1, by omega, by rw [← h3]; exact q3⟩
      · rw [if_neg hrcL] at hrun
        by_cases htest : virtio_mem_sbm_test_sb_plugged sL mb_id 0
            sL.sbm_sbs_per_mb = true
        · rw [if_pos htest] at hrun
          rcases hset : virtio_mem_sbm_set_mb_state sL mb_id
              (virtio_mem_sbm_get_mb_state s mb_id - 1) with _ | s2
          · rw [hset] at hrun
            exact Option.noConfusion hrun
          · rw [hset] at hrun
            simp only [Option.some_bind', Option.some.injEq, Prod.mk.injEq]
              at hrun
            obtain ⟨h1, _, h3⟩ := hrun
            subst h1
            obtain ⟨w1, w2, _⟩ := virtio_mem_sbm_set_mb_state_spec sL mb_id
              (virtio_mem_sbm_get_mb_state s mb_id - 1) s2 hset
            refine ⟨VMstatic_trans q1 w1, by omega, ?_⟩
            rw [w2, ← h3]
            exact q3
        · rw [if_neg htest] at hrun
          simp only [Option.some.injEq, Prod.mk.injEq] at hrun
          obtain ⟨h1, _, h3⟩ := hrun
          subst h1
          exact ⟨q1, by omega, by rw [← h3]; exact q3⟩

theorem virtio_mem_sbm_add_mb_spec (s : VM) (mb_id : Nat) :
    VMstatic s (virtio_mem_sbm_add_mb s mb_id).1 ∧
    (virtio_mem_sbm_add_mb s mb_id).1.plugged_size = s.plugged_size ∧
    (virtio_mem_sbm_add_mb s mb_id).1.marked_pages = s.marked_pages := by
  unfold virtio_mem_sbm_add_mb
  obtain ⟨f1, f2, f3⟩ := virtio_mem_add_memory_spec s
    (virtio_mem_mb_id_to_phys s mb_id) s.mb_size
  exact ⟨f1.1, f2, f3⟩

theorem virtio_mem_sbm_plug_and_add_mb_spec (s : VM) (mb_id nb : Nat)
    (hdvd : s.device_block_size ∣ s.sbm_sb_size) :
    ∀ s1 rc nb1,
      virtio_mem_sbm_plug_and_add_mb s mb_id nb = some (s1, rc, nb1) →
      VMstatic s s1 ∧ nb1 ≤ nb ∧
      (rc = 0 → s1.plugged_size = s.plugged_size
        + (((nb - nb1) * s.sbm_sb_size : Nat) : Int)) ∧
      ((s.sbm_sb_size : Int) ∣ s1.plugged_size - s.plugged_size) := by
  intro s1 rc nb1 hrun
  unfold virtio_mem_sbm_plug_and_add_mb at hrun
  simp only at hrun
  by_cases hcz : min nb s.sbm_sbs_per_mb = 0
  · rw [if_pos hcz] at hrun
    simp only [Option.some.injEq, Prod.mk.injEq] at hrun
    obtain ⟨h1, h2, h3⟩ := hrun
    subst h1
    refine ⟨VMstatic_refl s, by omega, fun h0 => absurd h0.symm (by rw [← h2]; decide), by simp⟩
  · rw [if_neg hcz] at hrun
    rcases hps : virtio_mem_sbm_plug_sb s mb_id 0 (min nb s.sbm_sbs_per_mb)
      with ⟨sA, rcA⟩
    rw [hps] at hrun
    dsimp only at hrun
    obtain ⟨p1, p2, p3, p4⟩ := virtio_mem_sbm_plug_sb_spec s mb_id 0
      (min nb s.sbm_sbs_per_mb) hdvd
    rw [hps] at p1 p2 p3 p4
    replace p1 : VMstatic s sA := p1
    replace p3 : rcA = 0 → sA.plugged_size = s.plugged_size +
      ((min nb s.sbm_sbs_per_mb * s.sbm_sb_size : Nat) : Int) := p3
    replace p4 : rcA ≠ 0 → sA.plugged_size = s.plugged_size := p4
    by_cases hrcA : rcA ≠ 0
    · rw [if_pos hrcA] at hrun
      simp only [Option.some.injEq, Prod.mk.injEq] at hrun
      obtain ⟨h1, h2, h3⟩ := hrun
      subst h1
      refine ⟨p1, by omega, fun h0 => absurd h0 (by rw [← h2]; exact hrcA),
        by rw [p4 hrcA]; simp⟩
    · rw [if_neg hrcA] at hrun
      replace hrcA : rcA = 0 := by by_contra hc; exact hrcA hc
      simp only [Option.bind_eq_bind] at hrun
      rcases hset : virtio_mem_sbm_set_mb_state sA mb_id
          (if min nb s.sbm_sbs_per_mb = s.sbm_sbs_per_mb then
            VIRTIO_MEM_SBM_MB_OFFLINE else VIRTIO_MEM_SBM_MB_OFFLINE_PARTIAL)
        with _ | sB
      · rw [hset] at hrun
        exact Option.noConfusion hrun
      · rw [hset] at hrun
        simp only [Option.some_bind] at hrun
        obtain ⟨w1, w2, _⟩ := virtio_mem_sbm_set_mb_state_spec sA mb_id
          (if min nb s.sbm_sbs_per_mb = s.sbm_sbs_per_mb then
            VIRTIO_MEM_SBM_MB_OFFLINE else VIRTIO_MEM_SBM_MB_OFFLINE_PARTIAL)
          sB hset
        rcases hadd : virtio_mem_sbm_add_mb sB mb_id with ⟨sC, rc3⟩
        rw [hadd] at hrun
        dsimp only at hrun
        obtain ⟨a1, a2, _⟩ := virtio_mem_sbm_add_mb_spec sB mb_id
        rw [hadd] at a1 a2
        replace a1 : VMstatic sB sC := a1
        replace a2 : sC.plugged_size = sB.plugged_size := a2
        have hsC : VMstatic s sC := VMstatic_trans p1 (VMstatic_trans w1 a1)
        have hplugC : sC.plugged_size = s.plugged_size +
            ((min nb s.sbm_sbs_per_mb * s.sbm_sb_size : Nat) : Int) := by
          rw [a2, w2, p3 hrcA]
        by_cases hrc3 : rc3 = 0
        · rw [if_pos hrc3] at hrun
          simp only [Option.some.injEq, Prod.mk.injEq] at hrun
          obtain ⟨h1, h2, h3⟩ := hrun
          subst h1
          refine ⟨hsC, by omega, fun _ => ?_, ?_⟩
          · rw [hplugC, ← h3]
            have : nb - (nb - min nb s.sbm_sbs_per_mb)
                = min nb s.sbm_sbs_per_mb := by omega
            rw [this]
          · rw [hplugC]
            simp
        · rw [if_neg hrc3] at hrun
          rcases hunp : virtio_mem_sbm_unplug_sb sC mb_id 0
              (min nb s.sbm_sbs_per_mb) with ⟨sD, rcu⟩
          rw [hunp] at hrun
          dsimp only at hrun
          obtain ⟨u1, u2, u3, u4⟩ := virtio_mem_sbm_unplug_sb_spec sC mb_id 0
            (min nb s.sbm_sbs_per_mb)
          rw [hunp] at u1 u2 u3 u4
          replace u1 : VMstatic sC sD := u1
          replace u3 : rcu = 0 → sD.plugged_size = sC.plugged_size -
            ((min nb s.sbm_sbs_per_mb * sC.sbm_sb_size : Nat) : Int) := u3
          replace u4 : rcu ≠ 0 → sD.plugged_size = sC.plugged_size := u4
          rcases hset2 : virtio_mem_sbm_set_mb_state sD mb_id
              (if rcu = 0 then VIRTIO_MEM_SBM_MB_UNUSED
                else VIRTIO_MEM_SBM_MB_PLUGGED) with _ | sE
          · rw [hset2] at hrun
            exact Option.noConfusion hrun
          · rw [hset2] at hrun
            simp only [Option.some_bind, Option.some.injEq, Prod.mk.injEq]
              at hrun
            obtain ⟨h1, h2, h3⟩ := hrun
            subst h1
            obtain ⟨v1, v2, _⟩ := virtio_mem_sbm_set_mb_state_spec sD mb_id
              (if rcu = 0 then VIRTIO_MEM_SBM_MB_UNUSED
                else VIRTIO_MEM_SBM_MB_PLUGGED) sE hset2
            have hsbC : sC.sbm_sb_size = s.sbm_sb_size := VMstatic_sb_size hsC
            refine ⟨VMstatic_trans hsC (VMstatic_trans u1 v1), by omega,
              fun h0 => absurd h0 (by rw [← h2]; exact hrc3), ?_⟩
            by_cases hrcu : rcu = 0
            · rw [v2, u3 hrcu, hplugC, hsbC]
              simp
            · rw [v2, u4 hrcu, hplugC]
              simp

theorem virtio_mem_sbm_mb_states_prepare_next_mb_spec (s : VM) :
    VMstatic s (virtio_mem_sbm_mb_states_prepare_next_mb s).1 ∧
    (virtio_mem_sbm_mb_states_prepare_next_mb s).1.plugged_size
      = s.plugged_size ∧
    (virtio_mem_sbm_mb_states_prepare_next_mb s).1.marked_pages
      = s.marked_pages := by
  unfold virtio_mem_sbm_mb_states_prepare_next_mb
  simp only
  split
  · exact ⟨VMstatic_refl s, rfl, rfl⟩
  · split <;> exact ⟨by simp [VMstatic], rfl, rfl⟩

theorem virtio_mem_sbm_sb_states_prepare_next_mb_spec (s : VM) :
    VMstatic s (virtio_mem_sbm_sb_states_prepare_next_mb s).1 ∧
    (virtio_mem_sbm_sb_states_prepare_next_mb s).1.plugged_size
      = s.plugged_size ∧
    (virtio_mem_sbm_sb_states_prepare_next_mb s).1.marked_pages
      = s.marked_pages := by
  unfold virtio_mem_sbm_sb_states_prepare_next_mb
  simp only
  split
  · exact ⟨VMstatic_refl s, rfl, rfl⟩
  · split <;> exact ⟨by simp [VMstatic], rfl, rfl⟩

theorem virtio_mem_sbm_prepare_next_mb_spec (s : VM) :
    VMstatic s (virtio_mem_sbm_prepare_next_mb s).1 ∧
    (virtio_mem_sbm_prepare_next_mb s).1.plugged_size = s.plugged_size ∧
    (virtio_mem_sbm_prepare_next_mb s).1.marked_pages = s.marked_pages := by
  unfold virtio_mem_sbm_prepare_next_mb
  simp only
  split
  · exact ⟨VMstatic_refl s, rfl, rfl⟩
  · rcases h1 : virtio_mem_sbm_mb_states_prepare_next_mb s with ⟨sA, rcA⟩
    obtain ⟨f1, f2, f3⟩ := virtio_mem_sbm_mb_states_prepare_next_mb_spec s
    rw [h1] at f1 f2 f3
    replace f1 : VMstatic s sA := f1
    replace f2 : sA.plugged_size = s.plugged_size := f2
    replace f3 : sA.marked_pages = s.marked_pages := f3
    dsimp only
    split
    · exact ⟨f1, f2, f3⟩
    · rcases h2 : virtio_mem_sbm_sb_states_prepare_next_mb sA with ⟨sB, rcB⟩
      obtain ⟨g1, g2, g3⟩ := virtio_mem_sbm_sb_states_prepare_next_mb_spec sA
      rw [h2] at g1 g2 g3
      replace g1 : VMstatic sA sB := g1
      replace g2 : sB.plugged_size = sA.plugged_size := g2
      replace g3 : sB.marked_pages = sA.marked_pages := g3
      have hst : VMstatic s sB := VMstatic_trans f1 g1
      dsimp only
      split
      · exact ⟨hst, by rw [g2, f2], by rw [g3, f3]⟩
      · refine ⟨?_, by dsimp only; rw [g2, f2], by dsimp only; rw [g3, f3]⟩
        refine VMstatic_trans hst ?_
        simp [VMstatic]

theorem virtio_mem_sbm_plug_foreach_spec (state mb_end : Nat) :
    ∀ (fuel : Nat) (s : VM) (nb : Nat),
      s.device_block_size ∣ s.sbm_sb_size →
      ∀ s1 rc nb1,
        virtio_mem_sbm_plug_foreach state mb_end fuel s nb
          = some (s1, rc, nb1) →
        VMstatic s s1 ∧ nb1 ≤ nb ∧
        s1.plugged_size = s.plugged_size
          + (((nb - nb1) * s.sbm_sb_size : Nat) : Int) := by
  intro fuel
  induction fuel with
  | zero =>
    intro s nb hdvd s1 rc nb1 hrun
    rw [virtio_mem_sbm_plug_foreach] at hrun
    simp only [Option.some.injEq, Prod.mk.injEq] at hrun
    obtain ⟨h1, _, h3⟩ := hrun
    subst h1
    exact ⟨VMstatic_refl s, by omega, by simp [← h3]⟩
  | succ fuel ih =>
    intro s nb hdvd s1 rc nb1 hrun
    rw [virtio_mem_sbm_plug_foreach] at hrun
    simp only at hrun
    by_cases hcnt : s.sbm_mb_count state = 0
    · rw [if_pos hcnt] at hrun
      simp only [Option.some.injEq, Prod.mk.injEq] at hrun
      obtain ⟨h1, _, h3⟩ := hrun
      subst h1
      exact ⟨VMstatic_refl s, by omega, by simp [← h3]⟩
    · rw [if_neg hcnt] at hrun
      by_cases hst : virtio_mem_sbm_get_mb_state s (mb_end - (fuel + 1)) = state
      · rw [if_pos hst] at hrun
        simp only [Option.bind_eq_bind] at hrun
        rcases hpa : virtio_mem_sbm_plug_any_sb s (mb_end - (fuel + 1)) nb
          with _ | ⟨sA, rcA, nbA⟩
        · rw [hpa] at hrun
          exact Option.noConfusion hrun
        · rw [hpa] at hrun
          simp only [Option.some_bind] at hrun
          obtain ⟨p1, p2, p3⟩ := virtio_mem_sbm_plug_any_sb_spec s
            (mb_end - (fuel + 1)) nb hdvd sA rcA nbA hpa
          by_cases hcond : rcA ≠ 0 ∨ nbA = 0
          · rw [if_pos hcond] at hrun
            simp only [Option.some.injEq, Prod.mk.injEq] at hrun
            obtain ⟨h1, _, h3⟩ := hrun
            subst h1
            subst h3
            exact ⟨p1, p2, p3⟩
          · rw [if_neg hcond] at hrun
            have hdvdA : sA.device_block_size ∣ sA.sbm_sb_size :=
              VMstatic_dvd_sb p1 hdvd
            obtain ⟨q1, q2, q3⟩ := ih sA nbA hdvdA s1 rc nb1 hrun
            refine ⟨VMstatic_trans p1 q1, by omega, ?_⟩
            rw [q3, p3, VMstatic_sb_size p1]
            have harith : (nb - nb1) * s.sbm_sb_size
                = (nb - nbA) * s.sbm_sb_size
                  + (nbA - nb1) * s.sbm_sb_size := by
              rw [← Nat.add_mul]
              congr 1
              omega
            rw [harith]
            push_cast
            ring
      · rw [if_neg hst] at hrun
        exact ih s nb hdvd s1 rc nb1 hrun

theorem virtio_mem_sbm_plug_partial_phases_spec :
    ∀ (sts : List Nat) (s : VM) (nb : Nat),
      s.device_block_size ∣ s.sbm_sb_size →
      ∀ s1 rc nb1,
        virtio_mem_sbm_plug_partial_phases sts s nb = some (s1, rc, nb1) →
        VMstatic s s1 ∧ nb1 ≤ nb ∧
        s1.plugged_size = s.plugged_size
          + (((nb - nb1) * s.sbm_sb_size : Nat) : Int) := by
  intro sts
  induction sts with
  | nil =>
    intro s nb hdvd s1 rc nb1 hrun
    rw [virtio_mem_sbm_plug_partial_phases] at hrun
    simp only [Option.some.injEq, Prod.mk.injEq] at hrun
    obtain ⟨h1, _, h3⟩ := hrun
    subst h1
    exact ⟨VMstatic_refl s, by omega, by simp [← h3]⟩
  | cons st rest ih =>
    intro s nb hdvd s1 rc nb1 hrun
    rw [virtio_mem_sbm_plug_partial_phases] at hrun
    simp only [Option.bind_eq_bind] at hrun
    rcases hfe : virtio_mem_sbm_plug_foreach st s.sbm_next_mb_id
        (s.sbm_next_mb_id - s.sbm_first_mb_id) s nb
      with _ | ⟨sA, rcA, nbA⟩
    · rw [hfe] at hrun
      exact Option.noConfusion hrun
    · rw [hfe] at hrun
      simp only [Option.some_bind] at hrun
      obtain ⟨p1, p2, p3⟩ := virtio_mem_sbm_plug_foreach_spec st
        s.sbm_next_mb_id (s.sbm_next_mb_id - s.sbm_first_mb_id) s nb hdvd
        sA rcA nbA hfe
      by_cases hcond : rcA ≠ 0 ∨ nbA = 0
      · rw [if_pos hcond] at hrun
        simp only [Option.some.injEq, Prod.mk.injEq] at hrun
        obtain ⟨h1, _, h3⟩ := hrun
        subst h1
        subst h3
        exact ⟨p1, p2, p3⟩
      · rw [if_neg hcond] at hrun
        obtain ⟨q1, q2, q3⟩ := ih sA nbA (VMstatic_dvd_sb p1 hdvd) s1 rc nb1
          hrun
        refine ⟨VMstatic_trans p1 q1, by omega, ?_⟩
        rw [q3, p3, VMstatic_sb_size p1]
        have harith : (nb - nb1) * s.sbm_sb_size
            = (nb - nbA) * s.sbm_sb_size + (nbA - nb1) * s.sbm_sb_size := by
          rw [← Nat.add_mul]
          congr 1
          omega
        rw [harith]
        push_cast
        ring

theorem virtio_mem_sbm_plug_unused_foreach_spec (mb_end : Nat) :
    ∀ (fuel : Nat) (s : VM) (nb : Nat),
      s.device_block_size ∣ s.sbm_sb_size →
      ∀ s1 rc nb1,
        virtio_mem_sbm_plug_unused_foreach mb_end fuel s nb
          = some (s1, rc, nb1) →
        VMstatic s s1 ∧ nb1 ≤ nb ∧
        (rc = 0 → s1.plugged_size = s.plugged_size
          + (((nb - nb1) * s.sbm_sb_size : Nat) : Int)) ∧
        ((s.sbm_sb_size : Int) ∣ s1.plugged_size - s.plugged_size) := by
  intro fuel
  induction fuel with
  | zero =>
    intro s nb hdvd s1 rc nb1 hrun
    rw [virtio_mem_sbm_plug_unused_foreach] at hrun
    simp only [Option.some.injEq, Prod.mk.injEq] at hrun
    obtain ⟨h1, _, h3⟩ := hrun
    subst h1
    exact ⟨VMstatic_refl s, by omega, fun _ => by simp [← h3], by simp⟩
  | succ fuel ih =>
    intro s nb hdvd s1 rc nb1 hrun
    rw [virtio_mem_sbm_plug_unused_foreach] at hrun
    simp only at hrun
    by_cases hcnt : s.sbm_mb_count VIRTIO_MEM_SBM_MB_UNUSED = 0
    · rw [if_pos hcnt] at hrun
      simp only [Option.some.injEq, Prod.mk.injEq] at hrun
      obtain ⟨h1, _, h3⟩ := hrun
      subst h1
      exact ⟨VMstatic_refl s, by omega, fun _ => by simp [← h3], by simp⟩
    · rw [if_neg hcnt] at hrun
      by_cases hst : virtio_mem_sbm_get_mb_state s (mb_end - (fuel + 1))
          = VIRTIO_MEM_SBM_MB_UNUSED
      · rw [if_pos hst] at hrun
        by_cases hadd : ¬ virtio_mem_could_add_memory s s.mb_size = true
        · rw [if_pos hadd] at hrun
          simp only [Option.some.injEq, Prod.mk.injEq] at hrun
          obtain ⟨h1, h2, h3⟩ := hrun
          subst h1
          refine ⟨VMstatic_refl s, by omega,
            fun h0 => absurd h0.symm (by rw [← h2]; decide), by simp⟩
        · rw [if_neg hadd] at hrun
          simp only [Option.bind_eq_bind] at hrun
          rcases hpa : virtio_mem_sbm_plug_and_add_mb s (mb_end - (fuel + 1))
            nb with _ | ⟨sA, rcA, nbA⟩
          · rw [hpa] at hrun
            exact Option.noConfusion hrun
          · rw [hpa] at hrun
            simp only [Option.some_bind] at hrun
            obtain ⟨p1, p2, p3, p4⟩ := virtio_mem_sbm_plug_and_add_mb_spec s
              (mb_end - (fuel + 1)) nb hdvd sA rcA nbA hpa
            by_cases hcond : rcA ≠ 0 ∨ nbA = 0
            · rw [if_pos hcond] at hrun
              simp only [Option.some.injEq, Prod.mk.injEq] at hrun
              obtain ⟨h1, h2, h3⟩ := hrun
              subst h1
              subst h3
              refine ⟨p1, p2, fun h0 => p3 (by rw [h2]; exact h0), p4⟩
            · rw [if_neg hcond] at hrun
              push_neg at hcond
              obtain ⟨q1, q2, q3, q4⟩ := ih sA nbA
                (VMstatic_dvd_sb p1 hdvd) s1 rc nb1 hrun
              have hsbA : sA.sbm_sb_size = s.sbm_sb_size := VMstatic_sb_size p1
              refine ⟨VMstatic_trans p1 q1, by omega, fun h0 => ?_, ?_⟩
              · rw [q3 h0, hsbA, p3 hcond.1]
                have harith : (nb - nb1) * s.sbm_sb_size
                    = (nb - nbA) * s.sbm_sb_size
                      + (nbA - nb1) * s.sbm_sb_size := by
                  rw [← Nat.add_mul]
                  congr 1
                  omega
                rw [harith]
                push_cast
                ring
              · have : s1.plugged_size - s.plugged_size
                    = (s1.plugged_size - sA.plugged_size)
                      + (sA.plugged_size - s.plugged_size) := by ring
                rw [this]
                exact dvd_add (by rw [← hsbA]; exact q4) p4
      · rw [if_neg hst] at hrun
        exact ih s nb hdvd s1 rc nb1 hrun

theorem virtio_mem_sbm_plug_new_loop_spec :
    ∀ (fuel : Nat) (s : VM) (nb : Nat),
      s.device_block_size ∣ s.sbm_sb_size →
      ∀ s1 rc nb1,
        virtio_mem_sbm_plug_new_loop fuel s nb = some (s1, rc, nb1) →
        VMstatic s s1 ∧
        (rc = 0 → s1.plugged_size = s.plugged_size
          + ((nb * s.sbm_sb_size : Nat) : Int)) ∧
        ((s.sbm_sb_size : Int) ∣ s1.plugged_size - s.plugged_size) := by
  intro fuel
  induction fuel with
  | zero =>
    intro s nb hdvd s1 rc nb1 hrun
    rw [virtio_mem_sbm_plug_new_loop] at hrun
    by_cases hnb : nb = 0
    · rw [if_pos hnb] at hrun
      simp only [Option.some.injEq, Prod.mk.injEq] at hrun
      obtain ⟨h1, _, _⟩ := hrun
      subst h1
      exact ⟨VMstatic_refl s, fun _ => by simp [hnb], by simp⟩
    · rw [if_neg hnb] at hrun
      simp only [Option.some.injEq, Prod.mk.injEq] at hrun
      obtain ⟨h1, h2, _⟩ := hrun
      subst h1
      exact ⟨VMstatic_refl s,
        fun h0 => absurd h0.symm (by rw [← h2]; decide), by simp⟩
  | succ fuel ih =>
    intro s nb hdvd s1 rc nb1 hrun
    rw [virtio_mem_sbm_plug_new_loop] at hrun
    by_cases hnb : nb = 0
    · rw [if_pos hnb] at hrun
      simp only [Option.some.injEq, Prod.mk.injEq] at hrun
      obtain ⟨h1, _, _⟩ := hrun
      subst h1
      exact ⟨VMstatic_refl s, fun _ => by simp [hnb], by simp⟩
    · rw [if_neg hnb] at hrun
      by_cases hadd : ¬ virtio_mem_could_add_memory s s.mb_size = true
      · rw [if_pos hadd] at hrun
        simp only [Option.some.injEq, Prod.mk.injEq] at hrun
        obtain ⟨h1, h2, _⟩ := hrun
        subst h1
        exact ⟨VMstatic_refl s,
          fun h0 => absurd h0.symm (by rw [← h2]; decide), by simp⟩
      · rw [if_neg hadd] at hrun
        rcases hprep : virtio_mem_sbm_prepare_next_mb s with ⟨sP, rcP, id⟩
        rw [hprep] at hrun
        dsimp only at hrun
        obtain ⟨w1, w2, _⟩ := virtio_mem_sbm_prepare_next_mb_spec s
        rw [hprep] at w1 w2
        replace w1 : VMstatic s sP := w1
        replace w2 : sP.plugged_size = s.plugged_size := w2
        by_cases hrcP : rcP ≠ 0
        · rw [if_pos hrcP] at hrun
          simp only [Option.some.injEq, Prod.mk.injEq] at hrun
          obtain ⟨h1, h2, _⟩ := hrun
          subst h1
          exact ⟨w1, fun h0 => absurd h0 (by rw [← h2]; exact hrcP),
            by rw [w2]; simp⟩
        · rw [if_neg hrcP] at hrun
          simp only [Option.bind_eq_bind] at hrun
          rcases hpa : virtio_mem_sbm_plug_and_add_mb sP id nb
            with _ | ⟨sA, rcA, nbA⟩
          · rw [hpa] at hrun
            exact Option.noConfusion hrun
          · rw [hpa] at hrun
            simp only [Option.some_bind] at hrun
            obtain ⟨p1, p2, p3, p4⟩ := virtio_mem_sbm_plug_and_add_mb_spec sP
              id nb (VMstatic_dvd_sb w1 hdvd) sA rcA nbA hpa
            have hsbP : sP.sbm_sb_size = s.sbm_sb_size := VMstatic_sb_size w1
            by_cases hrcA : rcA ≠ 0
            · rw [if_pos hrcA] at hrun
              simp only [Option.some.injEq, Prod.mk.injEq] at hrun
              obtain ⟨h1, h2, _⟩ := hrun
              subst h1
              refine ⟨VMstatic_trans w1 p1,
                fun h0 => absurd h0 (by rw [← h2]; exact hrcA), ?_⟩
              have heq : sA.plugged_size - s.plugged_size
                  = sA.plugged_size - sP.plugged_size := by rw [w2]
              rw [heq, ← hsbP]
              exact p4
            · rw [if_neg hrcA] at hrun
              replace hrcA : rcA = 0 := by by_contra hc; exact hrcA hc
              obtain ⟨q1, q2, q3⟩ := ih sA nbA
                (VMstatic_dvd_sb (VMstatic_trans w1 p1) hdvd) s1 rc nb1 hrun
              have hsbA : sA.sbm_sb_size = s.sbm_sb_size := by
                rw [VMstatic_sb_size p1, hsbP]
              refine ⟨VMstatic_trans w1 (VMstatic_trans p1 q1),
                fun h0 => ?_, ?_⟩
              · rw [q2 h0, hsbA, p3 hrcA, w2, hsbP]
                have harith : nb * s.sbm_sb_size
                    = (nb - nbA) * s.sbm_sb_size + nbA * s.sbm_sb_size := by
                  rw [← Nat.add_mul]
                  congr 1
                  omega
                rw [harith]
                push_cast
                ring
              · have hd1 : (s.sbm_sb_size : Int)
                    ∣ sA.plugged_size - sP.plugged_size := by
                  rw [← hsbP]
                  exact p4
                have hd2 : (s.sbm_sb_size : Int)
                    ∣ s1.plugged_size - sA.plugged_size := by
                  rw [← hsbA]
                  exact q3
                have heq : s1.plugged_size - s.plugged_size
                    = (s1.plugged_size - sA.plugged_size)
                      + ((sA.plugged_size - sP.plugged_size)
                        + (sP.plugged_size - s.plugged_size)) := by ring
                rw [heq]
                refine dvd_add hd2 (dvd_add hd1 ?_)
                rw [w2, sub_self]
                exact dvd_zero _

theorem virtio_mem_sbm_plug_request_spec (s : VM) (diff : Int)
    (hdvd : s.device_block_size ∣ s.sbm_sb_size) :
    ∀ s1 rc, virtio_mem_sbm_plug_request s diff = some (s1, rc) →
      VMstatic s s1 ∧
      ((s.sbm_sb_size : Int) ∣ s1.plugged_size - s.plugged_size) ∧
      (rc = 0 → s1.plugged_size = s.plugged_size
        + (((diff / (s.sbm_sb_size : Int)).toNat * s.sbm_sb_size : Nat)
          : Int)) := by
  intro s1 rc hrun
  unfold virtio_mem_sbm_plug_request at hrun
  simp only at hrun
  by_cases hnb : (diff / (s.sbm_sb_size : Int)).toNat = 0
  · rw [if_pos hnb] at hrun
    simp only [Option.some.injEq, Prod.mk.injEq] at hrun
    obtain ⟨h1, _⟩ := hrun
    subst h1
    exact ⟨VMstatic_refl s, by simp, fun _ => by simp [hnb]⟩
  · rw [if_neg hnb] at hrun
    simp only [Option.bind_eq_bind] at hrun
    rcases hph : virtio_mem_sbm_plug_partial_phases
        [VIRTIO_MEM_SBM_MB_KERNEL_PARTIAL, VIRTIO_MEM_SBM_MB_MOVABLE_PARTIAL,
          VIRTIO_MEM_SBM_MB_OFFLINE_PARTIAL] s
        (diff / (s.sbm_sb_size : Int)).toNat
      with _ | ⟨sA, rcA, nbA⟩
    · rw [hph] at hrun
      exact Option.noConfusion hrun
    · rw [hph] at hrun
      simp only [Option.some_bind] at hrun
      obtain ⟨p1, p2, p3⟩ := virtio_mem_sbm_plug_partial_phases_spec
        [VIRTIO_MEM_SBM_MB_KERNEL_PARTIAL, VIRTIO_MEM_SBM_MB_MOVABLE_PARTIAL,
          VIRTIO_MEM_SBM_MB_OFFLINE_PARTIAL] s
        (diff / (s.sbm_sb_size : Int)).toNat hdvd sA rcA nbA hph
      by_cases hcond : rcA ≠ 0 ∨ nbA = 0
      · rw [if_pos hcond] at hrun
        simp only [Option.some.injEq, Prod.mk.injEq] at hrun
        obtain ⟨h1, h2⟩ := hrun
        subst h1
        refine ⟨p1, by rw [p3]; simp, fun h0 => ?_⟩
        have hnbA : nbA = 0 := by
          rcases hcond with hc | hc
          · exact absurd (h2.trans h0) hc
          · exact hc
        rw [p3, hnbA]
        simp
      · rw [if_neg hcond] at hrun
        push_neg at hcond
        rcases huf : virtio_mem_sbm_plug_unused_foreach sA.sbm_next_mb_id
            (sA.sbm_next_mb_id - sA.sbm_first_mb_id) sA nbA
          with _ | ⟨sB, rcB, nbB⟩
        · rw [huf] at hrun
          exact Option.noConfusion hrun
        · rw [huf] at hrun
          simp only [Option.some_bind] at hrun
          obtain ⟨q1, q2, q3, q4⟩ := virtio_mem_sbm_plug_unused_foreach_spec
            sA.sbm_next_mb_id (sA.sbm_next_mb_id - sA.sbm_first_mb_id) sA nbA
            (VMstatic_dvd_sb p1 hdvd) sB rcB nbB huf
          have hsbA : sA.sbm_sb_size = s.sbm_sb_size := VMstatic_sb_size p1
          have hdA : (s.sbm_sb_size : Int)
              ∣ sB.plugged_size - sA.plugged_size := by
            rw [← hsbA]
            exact q4
          by_cases hcond2 : rcB ≠ 0 ∨ nbB = 0
          · rw [if_pos hcond2] at hrun
            simp only [Option.some.injEq, Prod.mk.injEq] at hrun
            obtain ⟨h1, h2⟩ := hrun
            subst h1
            refine ⟨VMstatic_trans p1 q1, ?_, fun h0 => ?_⟩
            · have heq : sB.plugged_size - s.plugged_size
                  = (sB.plugged_size - sA.plugged_size)
                    + (sA.plugged_size - s.plugged_size) := by ring
              rw [heq]
              exact dvd_add hdA (by rw [p3]; simp)
            · have hrcB : rcB = 0 := h2.trans h0
              have hnbB : nbB = 0 := by
                rcases hcond2 with hc | hc
                · exact absurd hrcB hc
                · exact hc
              rw [q3 hrcB, hnbB, hsbA, p3]
              have harith : (diff / (s.sbm_sb_size : Int)).toNat
                    * s.sbm_sb_size
                  = ((diff / (s.sbm_sb_size : Int)).toNat - nbA)
                      * s.sbm_sb_size
                    + (nbA - 0) * s.sbm_sb_size := by
                rw [← Nat.add_mul]
                congr 1
                omega
              rw [harith]
              push_cast
              ring
          · rw [if_neg hcond2] at hrun
            push_neg at hcond2
            rcases hnl : virtio_mem_sbm_plug_new_loop
                (sB.sbm_last_usable_mb_id + 1 - sB.sbm_next_mb_id) sB nbB
              with _ | ⟨sC, rcC, nbC⟩
            · rw [hnl] at hrun
              exact Option.noConfusion hrun
            · rw [hnl] at hrun
              simp only [Option.some_bind, Option.some.injEq,
                Prod.mk.injEq] at hrun
              obtain ⟨h1, h2⟩ := hrun
              subst h1
              obtain ⟨r1, r2, r3⟩ := virtio_mem_sbm_plug_new_loop_spec
                (sB.sbm_last_usable_mb_id + 1 - sB.sbm_next_mb_id) sB nbB
                (VMstatic_dvd_sb (VMstatic_trans p1 q1) hdvd) sC rcC nbC hnl
              have hsbB : sB.sbm_sb_size = s.sbm_sb_size := by
                rw [VMstatic_sb_size q1, hsbA]
              have hdB : (s.sbm_sb_size : Int)
                  ∣ sC.plugged_size - sB.plugged_size := by
                rw [← hsbB]
                exact r3
              refine ⟨VMstatic_trans p1 (VMstatic_trans q1 r1), ?_,
                fun h0 => ?_⟩
              · have heq : sC.plugged_size - s.plugged_size
                    = (sC.plugged_size - sB.plugged_size)
                      + ((sB.plugged_size - sA.plugged_size)
                        + (sA.plugged_size - s.plugged_size)) := by ring
                rw [heq]
                exact dvd_add hdB (dvd_add hdA (by rw [p3]; simp))
              · have hrcC : rcC = 0 := h2.trans h0
                rw [r2 hrcC, hsbB, q3 hcond2.1, hsbA, p3]
                have harith : (diff / (s.sbm_sb_size : Int)).toNat
                      * s.sbm_sb_size
                    = ((diff / (s.sbm_sb_size : Int)).toNat - nbA)
                        * s.sbm_sb_size
                      + ((nbA - nbB) * s.sbm_sb_size
                        + nbB * s.sbm_sb_size) := by
                  rw [← Nat.add_mul, ← Nat.add_mul]
                  congr 1
                  omega
                rw [harith]
                push_cast
                ring

theorem virtio_mem_sbm_unplug_extend_le (s : VM) (mb_id nb : Nat) :
    ∀ (sb extra : Nat), extra + 1 ≤ nb →
      (virtio_mem_sbm_unplug_extend s mb_id nb sb extra).2 + 1 ≤ nb := by
  intro sb
  induction sb with
  | zero =>
    intro extra h
    rw [virtio_mem_sbm_unplug_extend]
    exact h
  | succ sb ih =>
    intro extra h
    rw [virtio_mem_sbm_unplug_extend]
    split
    next hg => exact ih (extra + 1) (by omega)
    next hg => exact h

theorem virtio_mem_sbm_unplug_extend_fst_le (s : VM) (mb_id nb : Nat) :
    ∀ (sb extra : Nat),
      (virtio_mem_sbm_unplug_extend s mb_id nb sb extra).1 ≤ sb := by
  intro sb
  induction sb with
  | zero =>
    intro extra
    rw [virtio_mem_sbm_unplug_extend]
  | succ sb ih =>
    intro extra
    rw [virtio_mem_sbm_unplug_extend]
    split
    next hg => exact le_trans (ih (extra + 1)) (by omega)
    next hg => exact le_refl _

theorem virtio_mem_sbm_unplug_raw_loop_spec (mb_id : Nat) :
    ∀ (n : Nat) (s : VM) (nb cursor : Nat), nb + cursor ≤ n →
      ∀ s1 rc nb1,
        virtio_mem_sbm_unplug_raw_loop mb_id s nb cursor = (s1, rc, nb1) →
        VMstatic s s1 ∧ nb1 ≤ nb ∧
        s1.plugged_size = s.plugged_size
          - (((nb - nb1) * s.sbm_sb_size : Nat) : Int) := by
  intro n
  induction n using Nat.strong_induction_on with
  | _ n ih =>
    intro s nb cursor hle s1 rc nb1 hrun
    rw [virtio_mem_sbm_unplug_raw_loop.eq_def] at hrun
    dsimp only at hrun
    by_cases hnb : nb = 0
    · rw [dif_pos hnb] at hrun
      simp only [Prod.mk.injEq] at hrun
      obtain ⟨h1, _, h3⟩ := hrun
      subst h1
      subst hnb
      exact ⟨VMstatic_refl s, by omega, by simp [← h3]⟩
    · rw [dif_neg hnb] at hrun
      cases cursor with
      | zero =>
        dsimp only at hrun
        simp only [Prod.mk.injEq] at hrun
        obtain ⟨h1, _, h3⟩ := hrun
        subst h1
        exact ⟨VMstatic_refl s, by omega, by simp [← h3]⟩
      | succ c =>
        dsimp only at hrun
        by_cases hplugged : ¬ virtio_mem_sbm_test_sb_plugged s mb_id c 1
            = true
        · rw [if_pos hplugged] at hrun
          exact ih (nb + c) (by omega) s nb c (by omega) s1 rc nb1 hrun
        · rw [if_neg hplugged] at hrun
          rcases hext : virtio_mem_sbm_unplug_extend s mb_id nb c 0
            with ⟨sb, extra⟩
          rw [hext] at hrun
          dsimp only at hrun
          have hexle : extra + 1 ≤ nb := by
            have := virtio_mem_sbm_unplug_extend_le s mb_id nb c 0 (by omega)
            rw [hext] at this
            exact this
          have hsble : sb ≤ c := by
            have := virtio_mem_sbm_unplug_extend_fst_le s mb_id nb c 0
            rw [hext] at this
            exact this
          rcases hup : virtio_mem_sbm_unplug_sb s mb_id sb (extra + 1)
            with ⟨sA, rcA⟩
          rw [hup] at hrun
          dsimp only at hrun
          obtain ⟨p1, p2, p3, p4⟩ := virtio_mem_sbm_unplug_sb_spec s mb_id sb
            (extra + 1)
          rw [hup] at p1 p2 p3 p4
          replace p1 : VMstatic s sA := p1
          replace p3 : rcA = 0 → sA.plugged_size = s.plugged_size -
            (((extra + 1) * s.sbm_sb_size : Nat) : Int) := p3
          replace p4 : rcA ≠ 0 → sA.plugged_size = s.plugged_size := p4
          by_cases hrcA : rcA ≠ 0
          · rw [if_pos hrcA] at hrun
            simp only [Prod.mk.injEq] at hrun
            obtain ⟨h1, _, h3⟩ := hrun
            subst h1
            refine ⟨p1, by omega, ?_⟩
            rw [← h3, p4 hrcA]
            simp
          · rw [if_neg hrcA] at hrun
            replace hrcA : rcA = 0 := by by_contra hc; exact hrcA hc
            obtain ⟨q1, q2, q3⟩ := ih (nb - (extra + 1) + sb) (by omega) sA
              (nb - (extra + 1)) sb (by omega) s1 rc nb1 hrun
            refine ⟨VMstatic_trans p1 q1, by omega, ?_⟩
            rw [q3, VMstatic_sb_size p1, p3 hrcA]
            have harith : (nb - nb1) * s.sbm_sb_size
                = (extra + 1) * s.sbm_sb_size
                  + (nb - (extra + 1) - nb1) * s.sbm_sb_size := by
              rw [← Nat.add_mul]
              congr 1
              omega
            rw [harith]
            push_cast
            ring

theorem virtio_mem_sbm_unplug_any_sb_raw_spec (s : VM) (mb_id nb : Nat) :
    ∀ s1 rc nb1,
      virtio_mem_sbm_unplug_any_sb_raw s mb_id nb = (s1, rc, nb1) →
      VMstatic s s1 ∧ nb1 ≤ nb ∧
      s1.plugged_size = s.plugged_size
        - (((nb - nb1) * s.sbm_sb_size : Nat) : Int) := by
  intro s1 rc nb1 hrun
  unfold virtio_mem_sbm_unplug_any_sb_raw at hrun
  exact virtio_mem_sbm_unplug_raw_loop_spec mb_id (nb + s.sbm_sbs_per_mb) s
    nb s.sbm_sbs_per_mb (le_refl _) s1 rc nb1 hrun

theorem virtio_mem_sbm_unplug_mb_spec (s : VM) (mb_id : Nat) :
    ∀ s1 rc, virtio_mem_sbm_unplug_mb s mb_id = (s1, rc) →
      VMstatic s s1 ∧
      ((s.sbm_sb_size : Int) ∣ s1.plugged_size - s.plugged_size) := by
  intro s1 rc hrun
  unfold virtio_mem_sbm_unplug_mb at hrun
  rcases hraw : virtio_mem_sbm_unplug_any_sb_raw s mb_id s.sbm_sbs_per_mb
    with ⟨sA, rcA, nbA⟩
  rw [hraw] at hrun
  dsimp only at hrun
  simp only [Prod.mk.injEq] at hrun
  obtain ⟨h1, _⟩ := hrun
  subst h1
  obtain ⟨p1, p2, p3⟩ := virtio_mem_sbm_unplug_any_sb_raw_spec s mb_id
    s.sbm_sbs_per_mb sA rcA nbA hraw
  refine ⟨p1, ?_⟩
  rw [p3]
  have : s.plugged_size
      - (((s.sbm_sbs_per_mb - nbA) * s.sbm_sb_size : Nat) : Int)
      - s.plugged_size
      = -(((s.sbm_sbs_per_mb - nbA) * s.sbm_sb_size : Nat) : Int) := by ring
  rw [this]
  exact dvd_neg.mpr (by push_cast; exact dvd_mul_left _ _)

theorem virtio_mem_sbm_remove_mb_spec (s : VM) (mb_id : Nat) :
    VMstatic s (virtio_mem_sbm_remove_mb s mb_id).1 ∧
    (virtio_mem_sbm_remove_mb s mb_id).1.plugged_size = s.plugged_size ∧
    (virtio_mem_sbm_remove_mb s mb_id).1.marked_pages = s.marked_pages := by
  unfold virtio_mem_sbm_remove_mb
  obtain ⟨f1, f2, f3⟩ := virtio_mem_remove_memory_spec s
    (virtio_mem_mb_id_to_phys s mb_id) s.mb_size
  exact ⟨f1.1, f2, f3⟩

theorem virtio_mem_sbm_offline_and_remove_mb_spec (s : VM) (mb_id : Nat) :
    VMstatic s (virtio_mem_sbm_offline_and_remove_mb s mb_id).1 ∧
    (virtio_mem_sbm_offline_and_remove_mb s mb_id).1.plugged_size
      = s.plugged_size ∧
    (virtio_mem_sbm_offline_and_remove_mb s mb_id).1.marked_pages
      = s.marked_pages := by
  unfold virtio_mem_sbm_offline_and_remove_mb
  obtain ⟨f1, f2, f3⟩ := virtio_mem_offline_and_remove_memory_spec s
    (virtio_mem_mb_id_to_phys s mb_id) s.mb_size
  exact ⟨f1.1, f2, f3⟩

theorem virtio_mem_sbm_try_remove_unplugged_mb_spec (s : VM) (mb_id : Nat) :
    ∀ s1 rc,
      virtio_mem_sbm_try_remove_unplugged_mb s mb_id = some (s1, rc) →
      VMstatic s s1 ∧ s1.plugged_size = s.plugged_size := by
  intro s1 rc hrun
  unfold virtio_mem_sbm_try_remove_unplugged_mb at hrun
  by_cases htest : ¬ virtio_mem_sbm_test_sb_unplugged s mb_id 0
      s.sbm_sbs_per_mb = true
  · rw [if_pos htest] at hrun
    simp only [Option.some.injEq, Prod.mk.injEq] at hrun
    obtain ⟨h1, _⟩ := hrun
    subst h1
    exact ⟨VMstatic_refl s, rfl⟩
  · rw [if_neg htest] at hrun
    rcases hor : virtio_mem_sbm_offline_and_remove_mb s mb_id with ⟨sA, rcA⟩
    rw [hor] at hrun
    dsimp only at hrun
    obtain ⟨p1, p2, _⟩ := virtio_mem_sbm_offline_and_remove_mb_spec s mb_id
    rw [hor] at p1 p2
    replace p1 : VMstatic s sA := p1
    replace p2 : sA.plugged_size = s.plugged_size := p2
    by_cases hrcA : rcA = 0
    · rw [if_pos hrcA] at hrun
      simp only [Option.bind_eq_bind] at hrun
      rcases hset : virtio_mem_sbm_set_mb_state sA mb_id
          VIRTIO_MEM_SBM_MB_UNUSED with _ | sB
      · rw [hset] at hrun
        exact Option.noConfusion hrun
      · rw [hset] at hrun
        simp only [Option.some_bind, Option.some.injEq, Prod.mk.injEq]
          at hrun
        obtain ⟨h1, _⟩ := hrun
        subst h1
        obtain ⟨w1, w2, _⟩ := virtio_mem_sbm_set_mb_state_spec sA mb_id
          VIRTIO_MEM_SBM_MB_UNUSED sB hset
        exact ⟨VMstatic_trans p1 w1, by rw [w2, p2]⟩
    · rw [if_neg hrcA] at hrun
      simp only [Option.some.injEq, Prod.mk.injEq] at hrun
      obtain ⟨h1, _⟩ := hrun
      subst h1
      exact ⟨p1, p2⟩


theorem virtio_mem_sbm_unplug_any_sb_offline_spec (s : VM) (mb_id nb : Nat) :
    ∀ s1 rc nb1,
      virtio_mem_sbm_unplug_any_sb_offline s mb_id nb = some (s1, rc, nb1) →
      VMstatic s s1 ∧ nb1 ≤ nb ∧
      s1.plugged_size = s.plugged_size
        - (((nb - nb1) * s.sbm_sb_size : Nat) : Int) := by
  intro s1 rc nb1 hrun
  unfold virtio_mem_sbm_unplug_any_sb_offline at hrun
  rcases hraw : virtio_mem_sbm_unplug_any_sb_raw s mb_id nb
    with ⟨sA, rcA, nbA⟩
  rw [hraw] at hrun
  dsimp only at hrun
  obtain ⟨p1, p2, p3⟩ := virtio_mem_sbm_unplug_any_sb_raw_spec s mb_id nb
    sA rcA nbA hraw
  have hcont : ∀ sB : VM, VMstatic sA sB →
      sB.plugged_size = sA.plugged_size →
      (if rcA ≠ 0 then some (sB, rcA, nbA)
        else
          if virtio_mem_sbm_test_sb_unplugged sB mb_id 0 sB.sbm_sbs_per_mb
              = true then
            (virtio_mem_sbm_set_mb_state sB mb_id
              VIRTIO_MEM_SBM_MB_UNUSED).bind fun s3 =>
                if (virtio_mem_sbm_remove_mb s3 mb_id).2 ≠ 0 then none
                else some ((virtio_mem_sbm_remove_mb s3 mb_id).1, 0, nbA)
          else some (sB, 0, nbA)) = some (s1, rc, nb1) →
      VMstatic s s1 ∧ nb1 ≤ nb ∧
      s1.plugged_size = s.plugged_size
        - (((nb - nb1) * s.sbm_sb_size : Nat) : Int) := by
    intro sB hstB hplB hcr
    have hB : VMstatic s sB := VMstatic_trans p1 hstB
    have hBpl : sB.plugged_size = s.plugged_size
        - (((nb - nbA) * s.sbm_sb_size : Nat) : Int) := by
      rw [hplB, p3]
    by_cases hrcA : rcA ≠ 0
    · rw [if_pos hrcA] at hcr
      simp only [Option.some.injEq, Prod.mk.injEq] at hcr
      obtain ⟨h1, _, h3⟩ := hcr
      subst h1
      subst h3
      exact ⟨hB, p2, hBpl⟩
    · rw [if_neg hrcA] at hcr
      by_cases htest : virtio_mem_sbm_test_sb_unplugged sB mb_id 0
          sB.sbm_sbs_per_mb = true
      · rw [if_pos htest] at hcr
        rcases hset : virtio_mem_sbm_set_mb_state sB mb_id
            VIRTIO_MEM_SBM_MB_UNUSED with _ | sC
        · rw [hset] at hcr
          exact Option.noConfusion hcr
        · rw [hset] at hcr
          simp only [Option.some_bind'] at hcr
          obtain ⟨v1, v2, _⟩ := virtio_mem_sbm_set_mb_state_spec sB mb_id
            VIRTIO_MEM_SBM_MB_UNUSED sC hset
          obtain ⟨r1, r2, _⟩ := virtio_mem_sbm_remove_mb_spec sC mb_id
          by_cases hrcD : (virtio_mem_sbm_remove_mb sC mb_id).2 ≠ 0
          · rw [if_pos hrcD] at hcr
            exact Option.noConfusion hcr
          · rw [if_neg hrcD] at hcr
            simp only [Option.some.injEq, Prod.mk.injEq] at hcr
            obtain ⟨h1, _, h3⟩ := hcr
            subst h1
            subst h3
            exact ⟨VMstatic_trans hB (VMstatic_trans v1 r1), p2,
              by rw [r2, v2, hBpl]⟩
      · rw [if_neg htest] at hcr
        simp only [Option.some.injEq, Prod.mk.injEq] at hcr
        obtain ⟨h1, _, h3⟩ := hcr
        subst h1
        subst h3
        exact ⟨hB, p2, hBpl⟩
  by_cases ht : ¬ virtio_mem_sbm_test_sb_plugged sA mb_id 0
      sA.sbm_sbs_per_mb = true
  · rw [if_pos ht] at hrun
    rcases hsB : virtio_mem_sbm_set_mb_state sA mb_id
        VIRTIO_MEM_SBM_MB_OFFLINE_PARTIAL with _ | sB
    · rw [hsB] at hrun
      exact Option.noConfusion hrun
    · rw [hsB] at hrun
      obtain ⟨w1, w2, _⟩ := virtio_mem_sbm_set_mb_state_spec sA mb_id
        VIRTIO_MEM_SBM_MB_OFFLINE_PARTIAL sB hsB
      exact hcont sB w1 w2 hrun
  · rw [if_neg ht] at hrun
    exact hcont sA (VMstatic_refl sA) rfl hrun

theorem virtio_mem_sbm_unplug_sb_online_spec (s : VM) (mb_id sb_id count : Nat) :
    ∀ s1 rc,
      virtio_mem_sbm_unplug_sb_online s mb_id sb_id count = some (s1, rc) →
      VMstatic s s1 ∧
      (rc = 0 → s1.plugged_size = s.plugged_size
        - ((count * s.sbm_sb_size : Nat) : Int)) ∧
      (rc ≠ 0 → s1.plugged_size = s.plugged_size) := by
  intro s1 rc hrun
  unfold virtio_mem_sbm_unplug_sb_online at hrun
  simp only at hrun
  rcases hfo : virtio_mem_fake_offline s
      (virtio_mem_sb_id_to_phys s mb_id sb_id / PAGE_SIZE)
      (s.sbm_sb_size / PAGE_SIZE * count) with ⟨sA, rcA⟩
  rw [hfo] at hrun
  dsimp only at hrun
  obtain ⟨p1, p2, _⟩ := virtio_mem_fake_offline_spec s
    (virtio_mem_sb_id_to_phys s mb_id sb_id / PAGE_SIZE)
    (s.sbm_sb_size / PAGE_SIZE * count)
  rw [hfo] at p1 p2
  replace p1 : VMstatic s sA := p1.1
  replace p2 : sA.plugged_size = s.plugged_size := p2
  by_cases hrcA : rcA ≠ 0
  · rw [if_pos hrcA] at hrun
    simp only [Option.some.injEq, Prod.mk.injEq] at hrun
    obtain ⟨h1, h2⟩ := hrun
    subst h1
    exact ⟨p1, fun h0 => absurd h0 (by rw [← h2]; exact hrcA), fun _ => p2⟩
  · rw [if_neg hrcA] at hrun
    rcases hup : virtio_mem_sbm_unplug_sb sA mb_id sb_id count with ⟨sB, rcB⟩
    rw [hup] at hrun
    dsimp only at hrun
    obtain ⟨q1, q2, q3, q4⟩ := virtio_mem_sbm_unplug_sb_spec sA mb_id sb_id
      count
    rw [hup] at q1 q2 q3 q4
    replace q1 : VMstatic sA sB := q1
    replace q3 : rcB = 0 → sB.plugged_size = sA.plugged_size -
      ((count * sA.sbm_sb_size : Nat) : Int) := q3
    replace q4 : rcB ≠ 0 → sB.plugged_size = sA.plugged_size := q4
    have hsbA : sA.sbm_sb_size = s.sbm_sb_size := VMstatic_sb_size p1
    by_cases hrcB : rcB ≠ 0
    · rw [if_pos hrcB] at hrun
      simp only [Option.some.injEq, Prod.mk.injEq] at hrun
      obtain ⟨h1, h2⟩ := hrun
      subst h1
      obtain ⟨f1, f2⟩ := virtio_mem_fake_online_spec sB
        (virtio_mem_sb_id_to_phys s mb_id sb_id / PAGE_SIZE)
        (s.sbm_sb_size / PAGE_SIZE * count)
      refine ⟨VMstatic_trans p1 (VMstatic_trans q1 f1),
        fun h0 => absurd h0 (by rw [← h2]; exact hrcB),
        fun _ => by rw [f2, q4 hrcB, p2]⟩
    · rw [if_neg hrcB] at hrun
      replace hrcB : rcB = 0 := by by_contra hc; exact hrcB hc
      have hplB : sB.plugged_size = s.plugged_size
          - ((count * s.sbm_sb_size : Nat) : Int) := by
        rw [q3 hrcB, p2, hsbA]
      have hstB : VMstatic s sB := VMstatic_trans p1 q1
      by_cases hk : virtio_mem_sbm_get_mb_state s mb_id
          = VIRTIO_MEM_SBM_MB_KERNEL
      · rw [if_pos hk] at hrun
        rcases hset : virtio_mem_sbm_set_mb_state sB mb_id
            VIRTIO_MEM_SBM_MB_KERNEL_PARTIAL with _ | sC
        · rw [hset] at hrun
          exact Option.noConfusion hrun
        · rw [hset] at hrun
          replace hrun : some ((sC : VM), (0 : Int)) = some (s1, rc) := hrun
          simp only [Option.some.injEq, Prod.mk.injEq] at hrun
          obtain ⟨h1, h2⟩ := hrun
          subst h1
          obtain ⟨v1, v2, _⟩ := virtio_mem_sbm_set_mb_state_spec sB mb_id
            VIRTIO_MEM_SBM_MB_KERNEL_PARTIAL sC hset
          exact ⟨VMstatic_trans hstB v1, fun _ => by rw [v2, hplB],
            fun hne => absurd h2.symm hne⟩
      · rw [if_neg hk] at hrun
        by_cases hm : virtio_mem_sbm_get_mb_state s mb_id
            = VIRTIO_MEM_SBM_MB_MOVABLE
        · rw [if_pos hm] at hrun
          rcases hset : virtio_mem_sbm_set_mb_state sB mb_id
              VIRTIO_MEM_SBM_MB_MOVABLE_PARTIAL with _ | sC
          · rw [hset] at hrun
            exact Option.noConfusion hrun
          · rw [hset] at hrun
            replace hrun : some ((sC : VM), (0 : Int)) = some (s1, rc) := hrun
            simp only [Option.some.injEq, Prod.mk.injEq] at hrun
            obtain ⟨h1, h2⟩ := hrun
            subst h1
            obtain ⟨v1, v2, _⟩ := virtio_mem_sbm_set_mb_state_spec sB mb_id
              VIRTIO_MEM_SBM_MB_MOVABLE_PARTIAL sC hset
            exact ⟨VMstatic_trans hstB v1, fun _ => by rw [v2, hplB],
              fun hne => absurd h2.symm hne⟩
        · rw [if_neg hm] at hrun
          simp only [Option.some.injEq, Prod.mk.injEq] at hrun
          obtain ⟨h1, h2⟩ := hrun
          subst h1
          exact ⟨hstB, fun _ => hplB, fun hne => absurd h2.symm hne⟩

theorem virtio_mem_sbm_unplug_online_tail_spec (s : VM) (mb_id nb : Nat) :
    ∀ s1 rc nb1,
      virtio_mem_sbm_unplug_online_tail s mb_id nb = some (s1, rc, nb1) →
      VMstatic s s1 ∧ rc = 0 ∧ nb1 = nb ∧
      s1.plugged_size = s.plugged_size := by
  intro s1 rc nb1 hrun
  unfold virtio_mem_sbm_unplug_online_tail at hrun
  simp only [Option.bind_eq_bind] at hrun
  rcases htr : virtio_mem_sbm_try_remove_unplugged_mb s mb_id
    with _ | ⟨sA, rcA⟩
  · rw [htr] at hrun
    exact Option.noConfusion hrun
  · rw [htr] at hrun
    simp only [Option.some_bind, Option.some.injEq, Prod.mk.injEq] at hrun
    obtain ⟨h1, h2, h3⟩ := hrun
    obtain ⟨p1, p2⟩ := virtio_mem_sbm_try_remove_unplugged_mb_spec s mb_id
      sA rcA htr
    subst h1
    refine ⟨?_, h2.symm, h3.symm, ?_⟩
    · split
      · exact VMstatic_trans p1 (by simp [VMstatic])
      · exact p1
    · split
      · exact p2
      · exact p2

theorem virtio_mem_sbm_unplug_online_singles_spec (mb_id : Nat) :
    ∀ (c : Nat) (s : VM) (nb : Nat),
      ∀ s1 rc nb1,
        virtio_mem_sbm_unplug_online_singles mb_id c s nb
          = some (s1, rc, nb1) →
        VMstatic s s1 ∧ nb1 ≤ nb ∧
        s1.plugged_size = s.plugged_size
          - (((nb - nb1) * s.sbm_sb_size : Nat) : Int) := by
  intro c
  induction c with
  | zero =>
    intro s nb s1 rc nb1 hrun
    rw [virtio_mem_sbm_unplug_online_singles] at hrun
    simp only [Option.some.injEq, Prod.mk.injEq] at hrun
    obtain ⟨h1, _, h3⟩ := hrun
    subst h1
    exact ⟨VMstatic_refl s, by omega, by simp [← h3]⟩
  | succ c ih =>
    intro s nb s1 rc nb1 hrun
    rw [virtio_mem_sbm_unplug_online_singles] at hrun
    by_cases hnb : nb = 0
    · rw [if_pos hnb] at hrun
      simp only [Option.some.injEq, Prod.mk.injEq] at hrun
      obtain ⟨h1, _, h3⟩ := hrun
      subst h1
      subst hnb
      exact ⟨VMstatic_refl s, by omega, by simp [← h3]⟩
    · rw [if_neg hnb] at hrun
      by_cases hplugged : ¬ virtio_mem_sbm_test_sb_plugged s mb_id c 1 = true
      · rw [if_pos hplugged] at hrun
        exact ih s nb s1 rc nb1 hrun
      · rw [if_neg hplugged] at hrun
        simp only [Option.bind_eq_bind] at hrun
        rcases hso : virtio_mem_sbm_unplug_sb_online s mb_id c 1
          with _ | ⟨sA, rcA⟩
        · rw [hso] at hrun
          exact Option.noConfusion hrun
        · rw [hso] at hrun
          simp only [Option.some_bind] at hrun
          obtain ⟨p1, p2, p3⟩ := virtio_mem_sbm_unplug_sb_online_spec s mb_id
            c 1 sA rcA hso
          have hsbA : sA.sbm_sb_size = s.sbm_sb_size := VMstatic_sb_size p1
          by_cases hbusy : rcA = -EBUSY
          · rw [if_pos hbusy] at hrun
            obtain ⟨q1, q2, q3⟩ := ih sA nb s1 rc nb1 hrun
            refine ⟨VMstatic_trans p1 q1, q2, ?_⟩
            rw [q3, p3 (by rw [hbusy]; decide), hsbA]
          · rw [if_neg hbusy] at hrun
            by_cases hrcA : rcA ≠ 0
            · rw [if_pos hrcA] at hrun
              simp only [Option.some.injEq, Prod.mk.injEq] at hrun
              obtain ⟨h1, _, h3⟩ := hrun
              subst h1
              refine ⟨p1, by omega, ?_⟩
              rw [← h3, p3 hrcA]
              simp
            · rw [if_neg hrcA] at hrun
              replace hrcA : rcA = 0 := by by_contra hc; exact hrcA hc
              obtain ⟨q1, q2, q3⟩ := ih sA (nb - 1) s1 rc nb1 hrun
              refine ⟨VMstatic_trans p1 q1, by omega, ?_⟩
              rw [q3, hsbA, p2 hrcA]
              have harith : (nb - nb1) * s.sbm_sb_size
                  = 1 * s.sbm_sb_size + (nb - 1 - nb1) * s.sbm_sb_size := by
                rw [← Nat.add_mul]
                congr 1
                omega
              rw [harith]
              push_cast
              ring

theorem virtio_mem_sbm_unplug_any_sb_online_spec (s : VM) (mb_id nb : Nat) :
    ∀ s1 rc nb1,
      virtio_mem_sbm_unplug_any_sb_online s mb_id nb = some (s1, rc, nb1) →
      VMstatic s s1 ∧ nb1 ≤ nb ∧
      s1.plugged_size = s.plugged_size
        - (((nb - nb1) * s.sbm_sb_size : Nat) : Int) := by
  intro s1 rc nb1 hrun
  unfold virtio_mem_sbm_unplug_any_sb_online at hrun
  have hsingles : ∀ (s' : VM) (c : Nat), VMstatic s s' →
      s'.plugged_size = s.plugged_size →
      (virtio_mem_sbm_unplug_online_singles mb_id c s' nb).bind
          (fun x =>
            if x.2.1 ≠ 0 then some (x.1, x.2.1, x.2.2)
            else virtio_mem_sbm_unplug_online_tail x.1 mb_id x.2.2)
        = some (s1, rc, nb1) →
      VMstatic s s1 ∧ nb1 ≤ nb ∧
      s1.plugged_size = s.plugged_size
        - (((nb - nb1) * s.sbm_sb_size : Nat) : Int) := by
    intro s' c hst hpl hcr
    rcases hsg : virtio_mem_sbm_unplug_online_singles mb_id c s' nb
      with _ | ⟨sB, rcB, nbB⟩
    · rw [hsg] at hcr
      exact Option.noConfusion hcr
    · rw [hsg] at hcr
      simp only [Option.some_bind'] at hcr
      obtain ⟨q1, q2, q3⟩ := virtio_mem_sbm_unplug_online_singles_spec mb_id
        c s' nb sB rcB nbB hsg
      have hsb' : s'.sbm_sb_size = s.sbm_sb_size := VMstatic_sb_size hst
      have hplB : sB.plugged_size = s.plugged_size
          - (((nb - nbB) * s.sbm_sb_size : Nat) : Int) := by
        rw [q3, hpl, hsb']
      by_cases hrcB : rcB ≠ 0
      · rw [if_pos hrcB] at hcr
        simp only [Option.some.injEq, Prod.mk.injEq] at hcr
        obtain ⟨h1, _, h3⟩ := hcr
        subst h1
        subst h3
        exact ⟨VMstatic_trans hst q1, q2, hplB⟩
      · rw [if_neg hrcB] at hcr
        obtain ⟨t1, _, t3, t4⟩ := virtio_mem_sbm_unplug_online_tail_spec sB
          mb_id nbB s1 rc nb1 hcr
        subst t3
        exact ⟨VMstatic_trans hst (VMstatic_trans q1 t1), q2,
          by rw [t4, hplB]⟩
  by_cases hguard : s.sbm_sbs_per_mb ≤ nb ∧
      virtio_mem_sbm_test_sb_plugged s mb_id 0 s.sbm_sbs_per_mb = true
  · rw [if_pos hguard] at hrun
    simp only [Option.bind_eq_bind] at hrun
    rcases hso : virtio_mem_sbm_unplug_sb_online s mb_id 0 s.sbm_sbs_per_mb
      with _ | ⟨sA, rcA⟩
    · rw [hso] at hrun
      exact Option.noConfusion hrun
    · rw [hso] at hrun
      simp only [Option.some_bind] at hrun
      obtain ⟨p1, p2, p3⟩ := virtio_mem_sbm_unplug_sb_online_spec s mb_id 0
        s.sbm_sbs_per_mb sA rcA hso
      have hsbsA : sA.sbm_sbs_per_mb = s.sbm_sbs_per_mb :=
        VMstatic_sbs_per_mb p1
      by_cases hrcA : rcA = 0
      · rw [if_pos hrcA] at hrun
        obtain ⟨t1, _, t3, t4⟩ := virtio_mem_sbm_unplug_online_tail_spec sA
          mb_id (nb - sA.sbm_sbs_per_mb) s1 rc nb1 hrun
        subst t3
        refine ⟨VMstatic_trans p1 t1, by omega, ?_⟩
        rw [t4, p2 hrcA, hsbsA]
        have harith : (nb - (nb - s.sbm_sbs_per_mb)) * s.sbm_sb_size
            = s.sbm_sbs_per_mb * s.sbm_sb_size := by
          congr 1
          omega
        rw [harith]
      · rw [if_neg hrcA] at hrun
        by_cases hother : rcA ≠ -EBUSY ∧ rcA ≠ -ENOMEM
        · rw [if_pos hother] at hrun
          simp only [Option.some.injEq, Prod.mk.injEq] at hrun
          obtain ⟨h1, _, h3⟩ := hrun
          subst h1
          subst h3
          refine ⟨p1, by omega, ?_⟩
          rw [p3 hrcA]
          simp
        · rw [if_neg hother] at hrun
          exact hsingles sA sA.sbm_sbs_per_mb p1 (p3 hrcA) hrun
  · rw [if_neg hguard] at hrun
    simp only [Option.bind_eq_bind] at hrun
    exact hsingles s s.sbm_sbs_per_mb (VMstatic_refl s) rfl hrun

theorem virtio_mem_sbm_unplug_any_sb_spec (s : VM) (mb_id nb : Nat) :
    ∀ s1 rc nb1,
      virtio_mem_sbm_unplug_any_sb s mb_id nb = some (s1, rc, nb1) →
      VMstatic s s1 ∧ nb1 ≤ nb ∧
      s1.plugged_size = s.plugged_size
        - (((nb - nb1) * s.sbm_sb_size : Nat) : Int) := by
  intro s1 rc nb1 hrun
  unfold virtio_mem_sbm_unplug_any_sb at hrun
  simp only at hrun
  split at hrun
  · exact virtio_mem_sbm_unplug_any_sb_online_spec s mb_id nb s1 rc nb1 hrun
  · split at hrun
    · exact virtio_mem_sbm_unplug_any_sb_offline_spec s mb_id nb s1 rc nb1
        hrun
    · simp only [Option.some.injEq, Prod.mk.injEq] at hrun
      obtain ⟨h1, _, h3⟩ := hrun
      subst h1
      exact ⟨VMstatic_refl s, by omega, by simp [← h3]⟩

theorem virtio_mem_sbm_unplug_foreach_spec (state : Nat) :
    ∀ (fuel : Nat) (s : VM) (nb : Nat),
      ∀ s1 rc nb1,
        virtio_mem_sbm_unplug_foreach state fuel s nb = some (s1, rc, nb1) →
        VMstatic s s1 ∧ nb1 ≤ nb ∧
        s1.plugged_size = s.plugged_size
          - (((nb - nb1) * s.sbm_sb_size : Nat) : Int) := by
  intro fuel
  induction fuel with
  | zero =>
    intro s nb s1 rc nb1 hrun
    rw [virtio_mem_sbm_unplug_foreach] at hrun
    simp only [Option.some.injEq, Prod.mk.injEq] at hrun
    obtain ⟨h1, _, h3⟩ := hrun
    subst h1
    exact ⟨VMstatic_refl s, by omega, by simp [← h3]⟩
  | succ fuel ih =>
    intro s nb s1 rc nb1 hrun
    rw [virtio_mem_sbm_unplug_foreach] at hrun
    simp only at hrun
    by_cases hcnt : s.sbm_mb_count state = 0
    · rw [if_pos hcnt] at hrun
      simp only [Option.some.injEq, Prod.mk.injEq] at hrun
      obtain ⟨h1, _, h3⟩ := hrun
      subst h1
      exact ⟨VMstatic_refl s, by omega, by simp [← h3]⟩
    · rw [if_neg hcnt] at hrun
      by_cases hst : virtio_mem_sbm_get_mb_state s (s.sbm_first_mb_id + fuel)
          = state
      · rw [if_pos hst] at hrun
        simp only [Option.bind_eq_bind] at hrun
        rcases hua : virtio_mem_sbm_unplug_any_sb s (s.sbm_first_mb_id + fuel)
          nb with _ | ⟨sA, rcA, nbA⟩
        · rw [hua] at hrun
          exact Option.noConfusion hrun
        · rw [hua] at hrun
          simp only [Option.some_bind] at hrun
          obtain ⟨p1, p2, p3⟩ := virtio_mem_sbm_unplug_any_sb_spec s
            (s.sbm_first_mb_id + fuel) nb sA rcA nbA hua
          by_cases hcond : rcA ≠ 0 ∨ nbA = 0
          · rw [if_pos hcond] at hrun
            simp only [Option.some.injEq, Prod.mk.injEq] at hrun
            obtain ⟨h1, _, h3⟩ := hrun
            subst h1
            subst h3
            exact ⟨p1, p2, p3⟩
          · rw [if_neg hcond] at hrun
            obtain ⟨q1, q2, q3⟩ := ih sA nbA s1 rc nb1 hrun
            refine ⟨VMstatic_trans p1 q1, by omega, ?_⟩
            rw [q3, p3, VMstatic_sb_size p1]
            have harith : (nb - nb1) * s.sbm_sb_size
                = (nb - nbA) * s.sbm_sb_size
                  + (nbA - nb1) * s.sbm_sb_size := by
              rw [← Nat.add_mul]
              congr 1
              omega
            rw [harith]
            push_cast
            ring
      · rw [if_neg hst] at hrun
        exact ih s nb s1 rc nb1 hrun

theorem virtio_mem_sbm_unplug_phases_spec :
    ∀ (sts : List Nat) (i : Nat) (s : VM) (nb : Nat),
      ∀ s1 rc nb1,
        virtio_mem_sbm_unplug_phases i sts s nb = some (s1, rc, nb1) →
        VMstatic s s1 ∧ nb1 ≤ nb ∧
        s1.plugged_size = s.plugged_size
          - (((nb - nb1) * s.sbm_sb_size : Nat) : Int) := by
  intro sts
  induction sts with
  | nil =>
    intro i s nb s1 rc nb1 hrun
    rw [virtio_mem_sbm_unplug_phases] at hrun
    simp only [Option.some.injEq, Prod.mk.injEq] at hrun
    obtain ⟨h1, _, h3⟩ := hrun
    subst h1
    exact ⟨VMstatic_refl s, by omega, by simp [← h3]⟩
  | cons st rest ih =>
    intro i s nb s1 rc nb1 hrun
    rw [virtio_mem_sbm_unplug_phases] at hrun
    simp only [Option.bind_eq_bind] at hrun
    rcases hfe : virtio_mem_sbm_unplug_foreach st
        (s.sbm_next_mb_id - s.sbm_first_mb_id) s nb
      with _ | ⟨sA, rcA, nbA⟩
    · rw [hfe] at hrun
      exact Option.noConfusion hrun
    · rw [hfe] at hrun
      simp only [Option.some_bind] at hrun
      obtain ⟨p1, p2, p3⟩ := virtio_mem_sbm_unplug_foreach_spec st
        (s.sbm_next_mb_id - s.sbm_first_mb_id) s nb sA rcA nbA hfe
      by_cases hcond : rcA ≠ 0 ∨ nbA = 0
      · rw [if_pos hcond] at hrun
        simp only [Option.some.injEq, Prod.mk.injEq] at hrun
        obtain ⟨h1, _, h3⟩ := hrun
        subst h1
        subst h3
        exact ⟨p1, p2, p3⟩
      · rw [if_neg hcond] at hrun
        by_cases hstop : ¬ unplug_online ∧ i = 1
        · rw [if_pos hstop] at hrun
          simp only [Option.some.injEq, Prod.mk.injEq] at hrun
          obtain ⟨h1, _, h3⟩ := hrun
          subst h1
          subst h3
          exact ⟨p1, p2, p3⟩
        · rw [if_neg hstop] at hrun
          obtain ⟨q1, q2, q3⟩ := ih (i + 1) sA nbA s1 rc nb1 hrun
          refine ⟨VMstatic_trans p1 q1, by omega, ?_⟩
          rw [q3, p3, VMstatic_sb_size p1]
          have harith : (nb - nb1) * s.sbm_sb_size
              = (nb - nbA) * s.sbm_sb_size + (nbA - nb1) * s.sbm_sb_size := by
            rw [← Nat.add_mul]
            congr 1
            omega
          rw [harith]
          push_cast
          ring

theorem virtio_mem_sbm_unplug_request_spec (s : VM) (diff : Int) :
    ∀ s1 rc, virtio_mem_sbm_unplug_request s diff = some (s1, rc) →
      VMstatic s s1 ∧
      ((s.sbm_sb_size : Int) ∣ s1.plugged_size - s.plugged_size) ∧
      (rc = 0 → s1.plugged_size = s.plugged_size
        - (((diff / (s.sbm_sb_size : Int)).toNat * s.sbm_sb_size : Nat)
          : Int)) := by
  intro s1 rc hrun
  unfold virtio_mem_sbm_unplug_request at hrun
  simp only at hrun
  by_cases hnb : (diff / (s.sbm_sb_size : Int)).toNat = 0
  · rw [if_pos hnb] at hrun
    simp only [Option.some.injEq, Prod.mk.injEq] at hrun
    obtain ⟨h1, _⟩ := hrun
    subst h1
    exact ⟨VMstatic_refl s, by simp, fun _ => by simp [hnb]⟩
  · rw [if_neg hnb] at hrun
    simp only [Option.bind_eq_bind] at hrun
    rcases hph : virtio_mem_sbm_unplug_phases 0 virtio_mem_sbm_unplug_states
        s (diff / (s.sbm_sb_size : Int)).toNat
      with _ | ⟨sA, rcA, nbA⟩
    · rw [hph] at hrun
      exact Option.noConfusion hrun
    · rw [hph] at hrun
      simp only [Option.some_bind] at hrun
      obtain ⟨p1, p2, p3⟩ := virtio_mem_sbm_unplug_phases_spec
        virtio_mem_sbm_unplug_states 0 s
        (diff / (s.sbm_sb_size : Int)).toNat sA rcA nbA hph
      have hdvdA : (s.sbm_sb_size : Int)
          ∣ sA.plugged_size - s.plugged_size := by
        rw [p3]
        have heq : s.plugged_size
            - ((((diff / (s.sbm_sb_size : Int)).toNat - nbA)
              * s.sbm_sb_size : Nat) : Int) - s.plugged_size
            = -((((diff / (s.sbm_sb_size : Int)).toNat - nbA)
              * s.sbm_sb_size : Nat) : Int) := by ring
        rw [heq]
        exact dvd_neg.mpr (by push_cast; exact dvd_mul_left _ _)
      by_cases hcond : rcA ≠ 0 ∨ nbA = 0
      · rw [if_pos hcond] at hrun
        simp only [Option.some.injEq, Prod.mk.injEq] at hrun
        obtain ⟨h1, h2⟩ := hrun
        subst h1
        refine ⟨p1, hdvdA, fun h0 => ?_⟩
        have hnbA : nbA = 0 := by
          rcases hcond with hc | hc
          · exact absurd (h2.trans h0) hc
          · exact hc
        rw [p3, hnbA]
        simp
      · rw [if_neg hcond] at hrun
        push_neg at hcond
        simp only [Option.some.injEq, Prod.mk.injEq] at hrun
        obtain ⟨h1, h2⟩ := hrun
        subst h1
        refine ⟨p1, hdvdA, fun h0 => ?_⟩
        have hnbA : nbA = 0 := by
          by_contra hc
          rw [if_pos hc] at h2
          exact absurd (h2.trans h0) (by decide)
        rw [p3, hnbA]
        simp

theorem virtio_mem_bbm_plug_bb_spec (s : VM) (bb_id : Nat)
    (hdvd : s.device_block_size ∣ s.bbm_bb_size) :
    VMstatic s (virtio_mem_bbm_plug_bb s bb_id).1 ∧
    (virtio_mem_bbm_plug_bb s bb_id).1.marked_pages = s.marked_pages ∧
    ((virtio_mem_bbm_plug_bb s bb_id).2 = 0 →
      (virtio_mem_bbm_plug_bb s bb_id).1.plugged_size
        = s.plugged_size + (s.bbm_bb_size : Int)) ∧
    ((virtio_mem_bbm_plug_bb s bb_id).2 ≠ 0 →
      (virtio_mem_bbm_plug_bb s bb_id).1.plugged_size = s.plugged_size) := by
  unfold virtio_mem_bbm_plug_bb
  obtain ⟨f1, f2, f3, f4, _⟩ := virtio_mem_send_plug_request_spec s
    (virtio_mem_bb_id_to_phys s bb_id) s.bbm_bb_size false
  refine ⟨f1.1, f2, fun h0 => ?_, f4⟩
  rw [f3 h0]
  simp [Nat.div_mul_cancel hdvd]

theorem virtio_mem_bbm_unplug_bb_spec (s : VM) (bb_id : Nat) :
    VMstatic s (virtio_mem_bbm_unplug_bb s bb_id).1 ∧
    (virtio_mem_bbm_unplug_bb s bb_id).1.marked_pages = s.marked_pages ∧
    ((virtio_mem_bbm_unplug_bb s bb_id).2 = 0 →
      (virtio_mem_bbm_unplug_bb s bb_id).1.plugged_size
        = s.plugged_size - (s.bbm_bb_size : Int)) ∧
    ((virtio_mem_bbm_unplug_bb s bb_id).2 ≠ 0 →
      (virtio_mem_bbm_unplug_bb s bb_id).1.plugged_size = s.plugged_size) := by
  unfold virtio_mem_bbm_unplug_bb
  obtain ⟨f1, f2, f3, f4, _⟩ := virtio_mem_send_unplug_request_spec s
    (virtio_mem_bb_id_to_phys s bb_id) s.bbm_bb_size false
  refine ⟨f1.1, f2, fun h0 => ?_, f4⟩
  rw [f3 h0]
  simp

theorem virtio_mem_bbm_add_bb_spec (s : VM) (bb_id : Nat) :
    VMstatic s (virtio_mem_bbm_add_bb s bb_id).1 ∧
    (virtio_mem_bbm_add_bb s bb_id).1.plugged_size = s.plugged_size ∧
    (virtio_mem_bbm_add_bb s bb_id).1.marked_pages = s.marked_pages := by
  unfold virtio_mem_bbm_add_bb
  obtain ⟨f1, f2, f3⟩ := virtio_mem_add_memory_spec s
    (virtio_mem_bb_id_to_phys s bb_id) s.bbm_bb_size
  exact ⟨f1.1, f2, f3⟩

theorem virtio_mem_bbm_offline_and_remove_bb_spec (s : VM) (bb_id : Nat) :
    VMstatic s (virtio_mem_bbm_offline_and_remove_bb s bb_id).1 ∧
    (virtio_mem_bbm_offline_and_remove_bb s bb_id).1.plugged_size
      = s.plugged_size ∧
    (virtio_mem_bbm_offline_and_remove_bb s bb_id).1.marked_pages
      = s.marked_pages := by
  unfold virtio_mem_bbm_offline_and_remove_bb
  obtain ⟨f1, f2, f3⟩ := virtio_mem_offline_and_remove_memory_spec s
    (virtio_mem_bb_id_to_phys s bb_id) s.bbm_bb_size
  exact ⟨f1.1, f2, f3⟩

theorem virtio_mem_bbm_bb_states_prepare_next_bb_spec (s : VM) :
    VMstatic s (virtio_mem_bbm_bb_states_prepare_next_bb s).1 ∧
    (virtio_mem_bbm_bb_states_prepare_next_bb s).1.plugged_size
      = s.plugged_size ∧
    (virtio_mem_bbm_bb_states_prepare_next_bb s).1.marked_pages
      = s.marked_pages := by
  unfold virtio_mem_bbm_bb_states_prepare_next_bb
  simp only
  split
  · exact ⟨VMstatic_refl s, rfl, rfl⟩
  · split <;> exact ⟨by simp [VMstatic], rfl, rfl⟩

theorem virtio_mem_bbm_prepare_next_bb_spec (s : VM) :
    VMstatic s (virtio_mem_bbm_prepare_next_bb s).1 ∧
    (virtio_mem_bbm_prepare_next_bb s).1.plugged_size = s.plugged_size ∧
    (virtio_mem_bbm_prepare_next_bb s).1.marked_pages = s.marked_pages := by
  unfold virtio_mem_bbm_prepare_next_bb
  simp only
  split
  · exact ⟨VMstatic_refl s, rfl, rfl⟩
  · rcases h1 : virtio_mem_bbm_bb_states_prepare_next_bb s with ⟨sA, rcA⟩
    obtain ⟨f1, f2, f3⟩ := virtio_mem_bbm_bb_states_prepare_next_bb_spec s
    rw [h1] at f1 f2 f3
    replace f1 : VMstatic s sA := f1
    replace f2 : sA.plugged_size = s.plugged_size := f2
    replace f3 : sA.marked_pages = s.marked_pages := f3
    dsimp only
    split
    · exact ⟨f1, f2, f3⟩
    · refine ⟨VMstatic_trans f1 (by simp [VMstatic]),
        by dsimp only; rw [f2], by dsimp only; rw [f3]⟩

theorem virtio_mem_bbm_plug_and_add_bb_spec (s : VM) (bb_id : Nat)
    (hdvd : s.device_block_size ∣ s.bbm_bb_size) :
    ∀ s1 rc,
      virtio_mem_bbm_plug_and_add_bb s bb_id = some (s1, rc) →
      VMstatic s s1 ∧
      (rc = 0 → s1.plugged_size = s.plugged_size + (s.bbm_bb_size : Int)) ∧
      ((s.bbm_bb_size : Int) ∣ s1.plugged_size - s.plugged_size) := by
  intro s1 rc hrun
  unfold virtio_mem_bbm_plug_and_add_bb at hrun
  by_cases hst : virtio_mem_bbm_get_bb_state s bb_id
      ≠ VIRTIO_MEM_BBM_BB_UNUSED
  · rw [if_pos hst] at hrun
    simp only [Option.some.injEq, Prod.mk.injEq] at hrun
    obtain ⟨h1, h2⟩ := hrun
    subst h1
    exact ⟨VMstatic_refl s,
      fun h0 => absurd h0.symm (by rw [← h2]; decide), by simp⟩
  · rw [if_neg hst] at hrun
    rcases hpl : virtio_mem_bbm_plug_bb s bb_id with ⟨sA, rcA⟩
    rw [hpl] at hrun
    dsimp only at hrun
    obtain ⟨p1, _, p3, p4⟩ := virtio_mem_bbm_plug_bb_spec s bb_id hdvd
    rw [hpl] at p1 p3 p4
    replace p1 : VMstatic s sA := p1
    replace p3 : rcA = 0 → sA.plugged_size
      = s.plugged_size + (s.bbm_bb_size : Int) := p3
    replace p4 : rcA ≠ 0 → sA.plugged_size = s.plugged_size := p4
    by_cases hrcA : rcA ≠ 0
    · rw [if_pos hrcA] at hrun
      simp only [Option.some.injEq, Prod.mk.injEq] at hrun
      obtain ⟨h1, h2⟩ := hrun
      subst h1
      exact ⟨p1, fun h0 => absurd h0 (by rw [← h2]; exact hrcA),
        by rw [p4 hrcA]; simp⟩
    · rw [if_neg hrcA] at hrun
      replace hrcA : rcA = 0 := by by_contra hc; exact hrcA hc
      rcases hset : virtio_mem_bbm_set_bb_state sA bb_id
          VIRTIO_MEM_BBM_BB_ADDED with _ | sB
      · rw [hset] at hrun
        exact Option.noConfusion hrun
      · rw [hset] at hrun
        simp only [Option.bind_eq_bind, Option.some_bind] at hrun
        obtain ⟨w1, w2, _⟩ := virtio_mem_bbm_set_bb_state_spec sA bb_id
          VIRTIO_MEM_BBM_BB_ADDED sB hset
        have hplB : sB.plugged_size
            = s.plugged_size + (s.bbm_bb_size : Int) := by
          rw [w2, p3 hrcA]
        have hstB : VMstatic s sB := VMstatic_trans p1 w1
        rcases hadd : virtio_mem_bbm_add_bb sB bb_id with ⟨sC, rcC⟩
        rw [hadd] at hrun
        dsimp only at hrun
        obtain ⟨a1, a2, _⟩ := virtio_mem_bbm_add_bb_spec sB bb_id
        rw [hadd] at a1 a2
        replace a1 : VMstatic sB sC := a1
        replace a2 : sC.plugged_size = sB.plugged_size := a2
        have hstC : VMstatic s sC := VMstatic_trans hstB a1
        have hplC : sC.plugged_size
            = s.plugged_size + (s.bbm_bb_size : Int) := by rw [a2, hplB]
        by_cases hrcC : rcC = 0
        · rw [if_pos hrcC] at hrun
          simp only [Option.some.injEq, Prod.mk.injEq] at hrun
          obtain ⟨h1, _⟩ := hrun
          subst h1
          exact ⟨hstC, fun _ => hplC, by rw [hplC]; simp⟩
        · rw [if_neg hrcC] at hrun
          rcases hunp : virtio_mem_bbm_unplug_bb sC bb_id with ⟨sD, rcD⟩
          rw [hunp] at hrun
          dsimp only at hrun
          obtain ⟨u1, _, u3, u4⟩ := virtio_mem_bbm_unplug_bb_spec sC bb_id
          rw [hunp] at u1 u3 u4
          replace u1 : VMstatic sC sD := u1
          replace u3 : rcD = 0 → sD.plugged_size
            = sC.plugged_size - (sC.bbm_bb_size : Int) := u3
          replace u4 : rcD ≠ 0 → sD.plugged_size = sC.plugged_size := u4
          have hbbC : sC.bbm_bb_size = s.bbm_bb_size := VMstatic_bb_size hstC
          rcases hset2 : virtio_mem_bbm_set_bb_state sD bb_id
              (if rcD = 0 then VIRTIO_MEM_BBM_BB_UNUSED
                else VIRTIO_MEM_BBM_BB_PLUGGED) with _ | sE
          · rw [hset2] at hrun
            exact Option.noConfusion hrun
          · rw [hset2] at hrun
            replace hrun : some ((sE : VM), rcC) = some (s1, rc) := hrun
            simp only [Option.some.injEq, Prod.mk.injEq] at hrun
            obtain ⟨h1, h2⟩ := hrun
            subst h1
            obtain ⟨v1, v2, _⟩ := virtio_mem_bbm_set_bb_state_spec sD bb_id
              (if rcD = 0 then VIRTIO_MEM_BBM_BB_UNUSED
                else VIRTIO_MEM_BBM_BB_PLUGGED) sE hset2
            refine ⟨VMstatic_trans hstC (VMstatic_trans u1 v1),
              fun h0 => absurd h0 (by rw [← h2]; exact hrcC), ?_⟩
            by_cases hrcD : rcD = 0
            · rw [v2, u3 hrcD, hplC, hbbC]
              simp
            · rw [v2, u4 hrcD, hplC]
              simp

theorem virtio_mem_bbm_plug_unused_foreach_spec (bb_end : Nat) :
    ∀ (fuel : Nat) (s : VM) (nb : Nat), 0 < nb →
      s.device_block_size ∣ s.bbm_bb_size →
      ∀ s1 rc nb1,
        virtio_mem_bbm_plug_unused_foreach bb_end fuel s nb
          = some (s1, rc, nb1) →
        VMstatic s s1 ∧ nb1 ≤ nb ∧
        (rc = 0 → s1.plugged_size = s.plugged_size
          + (((nb - nb1) * s.bbm_bb_size : Nat) : Int)) ∧
        ((s.bbm_bb_size : Int) ∣ s1.plugged_size - s.plugged_size) := by
  intro fuel
  induction fuel with
  | zero =>
    intro s nb hnb hdvd s1 rc nb1 hrun
    rw [virtio_mem_bbm_plug_unused_foreach] at hrun
    simp only [Option.some.injEq, Prod.mk.injEq] at hrun
    obtain ⟨h1, _, h3⟩ := hrun
    subst h1
    exact ⟨VMstatic_refl s, by omega, fun _ => by simp [← h3], by simp⟩
  | succ fuel ih =>
    intro s nb hnb hdvd s1 rc nb1 hrun
    rw [virtio_mem_bbm_plug_unused_foreach] at hrun
    simp only at hrun
    by_cases hcnt : s.bbm_bb_count VIRTIO_MEM_BBM_BB_UNUSED = 0
    · rw [if_pos hcnt] at hrun
      simp only [Option.some.injEq, Prod.mk.injEq] at hrun
      obtain ⟨h1, _, h3⟩ := hrun
      subst h1
      exact ⟨VMstatic_refl s, by omega, fun _ => by simp [← h3], by simp⟩
    · rw [if_neg hcnt] at hrun
      by_cases hst : virtio_mem_bbm_get_bb_state s (bb_end - (fuel + 1))
          = VIRTIO_MEM_BBM_BB_UNUSED
      · rw [if_pos hst] at hrun
        by_cases hadd : ¬ virtio_mem_could_add_memory s s.bbm_bb_size = true
        · rw [if_pos hadd] at hrun
          simp only [Option.some.injEq, Prod.mk.injEq] at hrun
          obtain ⟨h1, h2, h3⟩ := hrun
          subst h1
          exact ⟨VMstatic_refl s, by omega,
            fun h0 => absurd h0.symm (by rw [← h2]; decide), by simp⟩
        · rw [if_neg hadd] at hrun
          simp only [Option.bind_eq_bind] at hrun
          rcases hpa : virtio_mem_bbm_plug_and_add_bb s (bb_end - (fuel + 1))
            with _ | ⟨sA, rcA⟩
          · rw [hpa] at hrun
            exact Option.noConfusion hrun
          · rw [hpa] at hrun
            simp only [Option.some_bind] at hrun
            obtain ⟨p1, p2, p3⟩ := virtio_mem_bbm_plug_and_add_bb_spec s
              (bb_end - (fuel + 1)) hdvd sA rcA hpa
            have hbbA : sA.bbm_bb_size = s.bbm_bb_size := VMstatic_bb_size p1
            by_cases hcond : rcA ≠ 0 ∨ (if rcA = 0 then nb - 1 else nb) = 0
            · rw [if_pos hcond] at hrun
              simp only [Option.some.injEq, Prod.mk.injEq] at hrun
              obtain ⟨h1, h2, h3⟩ := hrun
              subst h1
              refine ⟨p1, by split at h3 <;> omega, fun h0 => ?_, p3⟩
              have hrcA : rcA = 0 := by rw [h2]; exact h0
              rw [if_pos hrcA] at h3
              rw [p2 hrcA, ← h3]
              have : (nb - (nb - 1)) * s.bbm_bb_size = s.bbm_bb_size := by
                have : nb - (nb - 1) = 1 := by omega
                rw [this, Nat.one_mul]
              rw [this]
            · rw [if_neg hcond] at hrun
              push_neg at hcond
              obtain ⟨hrcA, hnb1⟩ := hcond
              rw [if_pos hrcA] at hrun
              rw [if_pos hrcA] at hnb1
              obtain ⟨q1, q2, q3, q4⟩ := ih sA (nb - 1) (by omega)
                (VMstatic_dvd_bb p1 hdvd) s1 rc nb1 hrun
              refine ⟨VMstatic_trans p1 q1, by omega, fun h0 => ?_, ?_⟩
              · rw [q3 h0, hbbA, p2 hrcA]
                have harith : (nb - nb1) * s.bbm_bb_size
                    = 1 * s.bbm_bb_size
                      + (nb - 1 - nb1) * s.bbm_bb_size := by
                  rw [← Nat.add_mul]
                  congr 1
                  omega
                rw [harith]
                push_cast
                ring
              · have heq : s1.plugged_size - s.plugged_size
                    = (s1.plugged_size - sA.plugged_size)
                      + (sA.plugged_size - s.plugged_size) := by ring
                rw [heq]
                exact dvd_add (by rw [← hbbA]; exact q4) p3
      · rw [if_neg hst] at hrun
        exact ih s nb hnb hdvd s1 rc nb1 hrun

theorem virtio_mem_bbm_plug_new_loop_spec :
    ∀ (fuel : Nat) (s : VM) (nb : Nat),
      s.device_block_size ∣ s.bbm_bb_size →
      ∀ s1 rc nb1,
        virtio_mem_bbm_plug_new_loop fuel s nb = some (s1, rc, nb1) →
        VMstatic s s1 ∧
        (rc = 0 → s1.plugged_size = s.plugged_size
          + ((nb * s.bbm_bb_size : Nat) : Int)) ∧
        ((s.bbm_bb_size : Int) ∣ s1.plugged_size - s.plugged_size) := by
  intro fuel
  induction fuel with
  | zero =>
    intro s nb hdvd s1 rc nb1 hrun
    rw [virtio_mem_bbm_plug_new_loop] at hrun
    by_cases hnb : nb = 0
    · rw [if_pos hnb] at hrun
      simp only [Option.some.injEq, Prod.mk.injEq] at hrun
      obtain ⟨h1, _, _⟩ := hrun
      subst h1
      exact ⟨VMstatic_refl s, fun _ => by simp [hnb], by simp⟩
    · rw [if_neg hnb] at hrun
      simp only [Option.some.injEq, Prod.mk.injEq] at hrun
      obtain ⟨h1, h2, _⟩ := hrun
      subst h1
      exact ⟨VMstatic_refl s,
        fun h0 => absurd h0.symm (by rw [← h2]; decide), by simp⟩
  | succ fuel ih =>
    intro s nb hdvd s1 rc nb1 hrun
    rw [virtio_mem_bbm_plug_new_loop] at hrun
    by_cases hnb : nb = 0
    · rw [if_pos hnb] at hrun
      simp only [Option.some.injEq, Prod.mk.injEq] at hrun
      obtain ⟨h1, _, _⟩ := hrun
      subst h1
      exact ⟨VMstatic_refl s, fun _ => by simp [hnb], by simp⟩
    · rw [if_neg hnb] at hrun
      by_cases hadd : ¬ virtio_mem_could_add_memory s s.bbm_bb_size = true
      · rw [if_pos hadd] at hrun
        simp only [Option.some.injEq, Prod.mk.injEq] at hrun
        obtain ⟨h1, h2, _⟩ := hrun
        subst h1
        exact ⟨VMstatic_refl s,
          fun h0 => absurd h0.symm (by rw [← h2]; decide), by simp⟩
      · rw [if_neg hadd] at hrun
        rcases hprep : virtio_mem_bbm_prepare_next_bb s with ⟨sP, rcP, id⟩
        rw [hprep] at hrun
        dsimp only at hrun
        obtain ⟨w1, w2, _⟩ := virtio_mem_bbm_prepare_next_bb_spec s
        rw [hprep] at w1 w2
        replace w1 : VMstatic s sP := w1
        replace w2 : sP.plugged_size = s.plugged_size := w2
        by_cases hrcP : rcP ≠ 0
        · rw [if_pos hrcP] at hrun
          simp only [Option.some.injEq, Prod.mk.injEq] at hrun
          obtain ⟨h1, h2, _⟩ := hrun
          subst h1
          exact ⟨w1, fun h0 => absurd h0 (by rw [← h2]; exact hrcP),
            by rw [w2]; simp⟩
        · rw [if_neg hrcP] at hrun
          simp only [Option.bind_eq_bind] at hrun
          rcases hpa : virtio_mem_bbm_plug_and_add_bb sP id
            with _ | ⟨sA, rcA⟩
          · rw [hpa] at hrun
            exact Option.noConfusion hrun
          · rw [hpa] at hrun
            simp only [Option.some_bind] at hrun
            obtain ⟨p1, p2, p3⟩ := virtio_mem_bbm_plug_and_add_bb_spec sP id
              (VMstatic_dvd_bb w1 hdvd) sA rcA hpa
            have hbbP : sP.bbm_bb_size = s.bbm_bb_size := VMstatic_bb_size w1
            have hdP : (s.bbm_bb_size : Int)
                ∣ sA.plugged_size - s.plugged_size := by
              have heq : sA.plugged_size - s.plugged_size
                  = sA.plugged_size - sP.plugged_size := by rw [w2]
              rw [heq, ← hbbP]
              exact p3
            by_cases hrcA : rcA ≠ 0
            · rw [if_pos hrcA] at hrun
              simp only [Option.some.injEq, Prod.mk.injEq] at hrun
              obtain ⟨h1, h2, _⟩ := hrun
              subst h1
              exact ⟨VMstatic_trans w1 p1,
                fun h0 => absurd h0 (by rw [← h2]; exact hrcA), hdP⟩
            · rw [if_neg hrcA] at hrun
              replace hrcA : rcA = 0 := by by_contra hc; exact hrcA hc
              rw [if_pos hrcA] at hrun
              obtain ⟨q1, q2, q3⟩ := ih sA (nb - 1)
                (VMstatic_dvd_bb (VMstatic_trans w1 p1) hdvd) s1 rc nb1 hrun
              have hbbA : sA.bbm_bb_size = s.bbm_bb_size := by
                rw [VMstatic_bb_size p1, hbbP]
              have hplA : sA.plugged_size
                  = s.plugged_size + (s.bbm_bb_size : Int) := by
                rw [p2 hrcA, w2, hbbP]
              refine ⟨VMstatic_trans w1 (VMstatic_trans p1 q1),
                fun h0 => ?_, ?_⟩
              · rw [q2 h0, hbbA, hplA]
                have harith : nb * s.bbm_bb_size
                    = s.bbm_bb_size + (nb - 1) * s.bbm_bb_size := by
                  have : nb * s.bbm_bb_size
                      = 1 * s.bbm_bb_size + (nb - 1) * s.bbm_bb_size := by
                    rw [← Nat.add_mul]
                    congr 1
                    omega
                  rw [this, Nat.one_mul]
                rw [harith]
                push_cast
                ring
              · have heq : s1.plugged_size - s.plugged_size
                    = (s1.plugged_size - sA.plugged_size)
                      + (sA.plugged_size - s.plugged_size) := by ring
                rw [heq]
                exact dvd_add (by rw [← hbbA]; exact q3) hdP

theorem virtio_mem_bbm_plug_request_spec (s : VM) (diff : Int)
    (hdvd : s.device_block_size ∣ s.bbm_bb_size) :
    ∀ s1 rc, virtio_mem_bbm_plug_request s diff = some (s1, rc) →
      VMstatic s s1 ∧
      ((s.bbm_bb_size : Int) ∣ s1.plugged_size - s.plugged_size) ∧
      (rc = 0 → s1.plugged_size = s.plugged_size
        + (((diff / (s.bbm_bb_size : Int)).toNat * s.bbm_bb_size : Nat)
          : Int)) := by
  intro s1 rc hrun
  unfold virtio_mem_bbm_plug_request at hrun
  simp only at hrun
  by_cases hnb : (diff / (s.bbm_bb_size : Int)).toNat = 0
  · rw [if_pos hnb] at hrun
    simp only [Option.some.injEq, Prod.mk.injEq] at hrun
    obtain ⟨h1, _⟩ := hrun
    subst h1
    exact ⟨VMstatic_refl s, by simp, fun _ => by simp [hnb]⟩
  · rw [if_neg hnb] at hrun
    simp only [Option.bind_eq_bind] at hrun
    rcases huf : virtio_mem_bbm_plug_unused_foreach s.bbm_next_bb_id
        (s.bbm_next_bb_id - s.bbm_first_bb_id) s
        (diff / (s.bbm_bb_size : Int)).toNat
      with _ | ⟨sA, rcA, nbA⟩
    · rw [huf] at hrun
      exact Option.noConfusion hrun
    · rw [huf] at hrun
      simp only [Option.some_bind] at hrun
      obtain ⟨p1, p2, p3, p4⟩ := virtio_mem_bbm_plug_unused_foreach_spec
        s.bbm_next_bb_id (s.bbm_next_bb_id - s.bbm_first_bb_id) s
        (diff / (s.bbm_bb_size : Int)).toNat (by omega) hdvd sA rcA nbA huf
      by_cases hcond : rcA ≠ 0 ∨ nbA = 0
      · rw [if_pos hcond] at hrun
        simp only [Option.some.injEq, Prod.mk.injEq] at hrun
        obtain ⟨h1, h2⟩ := hrun
        subst h1
        refine ⟨p1, p4, fun h0 => ?_⟩
        have hrcA : rcA = 0 := h2.trans h0
        have hnbA : nbA = 0 := by
          rcases hcond with hc | hc
          · exact absurd hrcA hc
          · exact hc
        rw [p3 hrcA, hnbA]
        simp
      · rw [if_neg hcond] at hrun
        push_neg at hcond
        rcases hnl : virtio_mem_bbm_plug_new_loop
            (sA.bbm_last_usable_bb_id + 1 - sA.bbm_next_bb_id) sA nbA
          with _ | ⟨sB, rcB, nbB⟩
        · rw [hnl] at hrun
          exact Option.noConfusion hrun
        · rw [hnl] at hrun
          simp only [Option.some_bind, Option.some.injEq, Prod.mk.injEq]
            at hrun
          obtain ⟨h1, h2⟩ := hrun
          subst h1
          obtain ⟨q1, q2, q3⟩ := virtio_mem_bbm_plug_new_loop_spec
            (sA.bbm_last_usable_bb_id + 1 - sA.bbm_next_bb_id) sA nbA
            (VMstatic_dvd_bb p1 hdvd) sB rcB nbB hnl
          have hbbA : sA.bbm_bb_size = s.bbm_bb_size := VMstatic_bb_size p1
          refine ⟨VMstatic_trans p1 q1, ?_, fun h0 => ?_⟩
          · have heq : sB.plugged_size - s.plugged_size
                = (sB.plugged_size - sA.plugged_size)
                  + (sA.plugged_size - s.plugged_size) := by ring
            rw [heq]
            exact dvd_add (by rw [← hbbA]; exact q3) p4
          · have hrcB : rcB = 0 := h2.trans h0
            rw [q2 hrcB, hbbA, p3 hcond.1]
            have harith : (diff / (s.bbm_bb_size : Int)).toNat
                  * s.bbm_bb_size
                = ((diff / (s.bbm_bb_size : Int)).toNat - nbA)
                    * s.bbm_bb_size
                  + nbA * s.bbm_bb_size := by
              rw [← Nat.add_mul]
              congr 1
              omega
            rw [harith]
            push_cast
            ring

theorem virtio_mem_bbm_fake_offline_sections_spec (start_pfn : Nat) :
    ∀ (n k : Nat) (s : VM),
      VMstatic s (virtio_mem_bbm_fake_offline_sections start_pfn k n s).1 ∧
      (virtio_mem_bbm_fake_offline_sections start_pfn k n s).1.plugged_size
        = s.plugged_size := by
  intro n
  induction n with
  | zero =>
    intro k s
    rw [virtio_mem_bbm_fake_offline_sections]
    exact ⟨VMstatic_refl s, rfl⟩
  | succ n ih =>
    intro k s
    rw [virtio_mem_bbm_fake_offline_sections]
    simp only
    split
    · exact ih (k + 1) s
    · rcases hfo : virtio_mem_fake_offline s (start_pfn + k * PAGES_PER_SECTION)
        PAGES_PER_SECTION with ⟨sA, rcA⟩
      obtain ⟨p1, p2, _⟩ := virtio_mem_fake_offline_spec s
        (start_pfn + k * PAGES_PER_SECTION) PAGES_PER_SECTION
      rw [hfo] at p1 p2
      replace p1 : VMstatic s sA := p1.1
      replace p2 : sA.plugged_size = s.plugged_size := p2
      dsimp only
      split
      · exact ⟨p1, p2⟩
      · obtain ⟨q1, q2⟩ := ih (k + 1) sA
        exact ⟨VMstatic_trans p1 q1, q2.trans p2⟩

theorem virtio_mem_bbm_rollback_sections_spec (s : VM) (start_pfn : Nat) :
    ∀ (k : Nat),
      VMstatic s (virtio_mem_bbm_rollback_sections s start_pfn k) ∧
      (virtio_mem_bbm_rollback_sections s start_pfn k).plugged_size
        = s.plugged_size := by
  intro k
  induction k with
  | zero =>
    rw [virtio_mem_bbm_rollback_sections]
    exact ⟨VMstatic_refl s, rfl⟩
  | succ k ih =>
    rw [virtio_mem_bbm_rollback_sections]
    split
    · obtain ⟨f1, f2⟩ := virtio_mem_fake_online_spec
        (virtio_mem_bbm_rollback_sections s start_pfn k)
        (start_pfn + k * PAGES_PER_SECTION) PAGES_PER_SECTION
      exact ⟨VMstatic_trans ih.1 f1, f2.trans ih.2⟩
    · exact ih

theorem virtio_mem_bbm_offline_remove_and_unplug_bb_spec (s : VM)
    (bb_id : Nat) :
    ∀ s1 rc,
      virtio_mem_bbm_offline_remove_and_unplug_bb s bb_id = some (s1, rc) →
      VMstatic s s1 ∧
      (rc = 0 → s1.plugged_size = s.plugged_size - (s.bbm_bb_size : Int)) ∧
      (rc ≠ 0 → s1.plugged_size = s.plugged_size) := by
  intro s1 rc hrun
  unfold virtio_mem_bbm_offline_remove_and_unplug_bb at hrun
  simp only at hrun
  by_cases hst : virtio_mem_bbm_get_bb_state s bb_id
      ≠ VIRTIO_MEM_BBM_BB_ADDED
  · rw [if_pos hst] at hrun
    simp only [Option.some.injEq, Prod.mk.injEq] at hrun
    obtain ⟨h1, h2⟩ := hrun
    subst h1
    exact ⟨VMstatic_refl s,
      fun h0 => absurd h0.symm (by rw [← h2]; decide), fun _ => rfl⟩
  · rw [if_neg hst] at hrun
    rcases hsetF : virtio_mem_bbm_set_bb_state s bb_id
        VIRTIO_MEM_BBM_BB_FAKE_OFFLINE with _ | sF
    · rw [hsetF] at hrun
      exact Option.noConfusion hrun
    · rw [hsetF] at hrun
      simp only [Option.bind_eq_bind, Option.some_bind] at hrun
      obtain ⟨wf1, wf2, _⟩ := virtio_mem_bbm_set_bb_state_spec s bb_id
        VIRTIO_MEM_BBM_BB_FAKE_OFFLINE sF hsetF
      rcases hfos : virtio_mem_bbm_fake_offline_sections
          (virtio_mem_bb_id_to_phys s bb_id / PAGE_SIZE) 0
          ((s.bbm_bb_size / PAGE_SIZE + PAGES_PER_SECTION - 1)
            / PAGES_PER_SECTION) sF with ⟨sA, rcA, kfail⟩
      rw [hfos] at hrun
      dsimp only at hrun
      obtain ⟨p1, p2⟩ := virtio_mem_bbm_fake_offline_sections_spec
        (virtio_mem_bb_id_to_phys s bb_id / PAGE_SIZE)
        ((s.bbm_bb_size / PAGE_SIZE + PAGES_PER_SECTION - 1)
          / PAGES_PER_SECTION) 0 sF
      rw [hfos] at p1 p2
      replace p1 : VMstatic sF sA := p1
      replace p2 : sA.plugged_size = sF.plugged_size := p2
      have hsA : VMstatic s sA := VMstatic_trans wf1 p1
      have hplA : sA.plugged_size = s.plugged_size := by rw [p2, wf2]
      by_cases hrcA : rcA ≠ 0
      · rw [if_pos hrcA] at hrun
        obtain ⟨r1, r2⟩ := virtio_mem_bbm_rollback_sections_spec sA
          (virtio_mem_bb_id_to_phys s bb_id / PAGE_SIZE) kfail
        rcases hsetB : virtio_mem_bbm_set_bb_state
            (virtio_mem_bbm_rollback_sections sA
              (virtio_mem_bb_id_to_phys s bb_id / PAGE_SIZE) kfail) bb_id
            VIRTIO_MEM_BBM_BB_ADDED with _ | sB
        · rw [hsetB] at hrun
          exact Option.noConfusion hrun
        · rw [hsetB] at hrun
          replace hrun : some ((sB : VM), rcA) = some (s1, rc) := hrun
          simp only [Option.some.injEq, Prod.mk.injEq] at hrun
          obtain ⟨h1, h2⟩ := hrun
          subst h1
          obtain ⟨v1, v2, _⟩ := virtio_mem_bbm_set_bb_state_spec _ bb_id
            VIRTIO_MEM_BBM_BB_ADDED sB hsetB
          exact ⟨VMstatic_trans hsA (VMstatic_trans r1 v1),
            fun h0 => absurd h0 (by rw [← h2]; exact hrcA),
            fun _ => by rw [v2, r2, hplA]⟩
      · rw [if_neg hrcA] at hrun
        rcases hor : virtio_mem_bbm_offline_and_remove_bb sA bb_id
          with ⟨sO, rcO⟩
        rw [hor] at hrun
        dsimp only at hrun
        obtain ⟨o1, o2, _⟩ := virtio_mem_bbm_offline_and_remove_bb_spec sA
          bb_id
        rw [hor] at o1 o2
        replace o1 : VMstatic sA sO := o1
        replace o2 : sO.plugged_size = sA.plugged_size := o2
        have hsO : VMstatic s sO := VMstatic_trans hsA o1
        have hplO : sO.plugged_size = s.plugged_size := by rw [o2, hplA]
        by_cases hrcO : rcO ≠ 0
        · rw [if_pos hrcO] at hrun
          obtain ⟨r1, r2⟩ := virtio_mem_bbm_rollback_sections_spec sO
            (virtio_mem_bb_id_to_phys s bb_id / PAGE_SIZE)
            ((s.bbm_bb_size / PAGE_SIZE + PAGES_PER_SECTION - 1)
              / PAGES_PER_SECTION)
          rcases hsetB : virtio_mem_bbm_set_bb_state
              (virtio_mem_bbm_rollback_sections sO
                (virtio_mem_bb_id_to_phys s bb_id / PAGE_SIZE)
                ((s.bbm_bb_size / PAGE_SIZE + PAGES_PER_SECTION - 1)
                  / PAGES_PER_SECTION)) bb_id
              VIRTIO_MEM_BBM_BB_ADDED with _ | sB
          · rw [hsetB] at hrun
            exact Option.noConfusion hrun
          · rw [hsetB] at hrun
            replace hrun : some ((sB : VM), rcO) = some (s1, rc) := hrun
            simp only [Option.some.injEq, Prod.mk.injEq] at hrun
            obtain ⟨h1, h2⟩ := hrun
            subst h1
            obtain ⟨v1, v2, _⟩ := virtio_mem_bbm_set_bb_state_spec _ bb_id
              VIRTIO_MEM_BBM_BB_ADDED sB hsetB
            exact ⟨VMstatic_trans hsO (VMstatic_trans r1 v1),
              fun h0 => absurd h0 (by rw [← h2]; exact hrcO),
              fun _ => by rw [v2, r2, hplO]⟩
        · rw [if_neg hrcO] at hrun
          rcases hunp : virtio_mem_bbm_unplug_bb sO bb_id with ⟨sU, rcU⟩
          rw [hunp] at hrun
          dsimp only at hrun
          obtain ⟨u1, _, u3, u4⟩ := virtio_mem_bbm_unplug_bb_spec sO bb_id
          rw [hunp] at u1 u3 u4
          replace u1 : VMstatic sO sU := u1
          replace u3 : rcU = 0 → sU.plugged_size
            = sO.plugged_size - (sO.bbm_bb_size : Int) := u3
          replace u4 : rcU ≠ 0 → sU.plugged_size = sO.plugged_size := u4
          have hbbO : sO.bbm_bb_size = s.bbm_bb_size := VMstatic_bb_size hsO
          by_cases hrcU : rcU ≠ 0
          · rw [if_pos hrcU] at hrun
            rcases hsetB : virtio_mem_bbm_set_bb_state sU bb_id
                VIRTIO_MEM_BBM_BB_PLUGGED with _ | sB
            · rw [hsetB] at hrun
              exact Option.noConfusion hrun
            · rw [hsetB] at hrun
              replace hrun : some ((sB : VM), rcU) = some (s1, rc) := hrun
              simp only [Option.some.injEq, Prod.mk.injEq] at hrun
              obtain ⟨h1, h2⟩ := hrun
              subst h1
              obtain ⟨v1, v2, _⟩ := virtio_mem_bbm_set_bb_state_spec sU bb_id
                VIRTIO_MEM_BBM_BB_PLUGGED sB hsetB
              exact ⟨VMstatic_trans hsO (VMstatic_trans u1 v1),
                fun h0 => absurd h0 (by rw [← h2]; exact hrcU),
                fun _ => by rw [v2, u4 hrcU, hplO]⟩
          · rw [if_neg hrcU] at hrun
            replace hrcU : rcU = 0 := by by_contra hc; exact hrcU hc
            rcases hsetB : virtio_mem_bbm_set_bb_state sU bb_id
                VIRTIO_MEM_BBM_BB_UNUSED with _ | sB
            · rw [hsetB] at hrun
              exact Option.noConfusion hrun
            · rw [hsetB] at hrun
              replace hrun : some ((sB : VM), (0 : Int)) = some (s1, rc)
                := hrun
              simp only [Option.some.injEq, Prod.mk.injEq] at hrun
              obtain ⟨h1, h2⟩ := hrun
              subst h1
              obtain ⟨v1, v2, _⟩ := virtio_mem_bbm_set_bb_state_spec sU bb_id
                VIRTIO_MEM_BBM_BB_UNUSED sB hsetB
              exact ⟨VMstatic_trans hsO (VMstatic_trans u1 v1),
                fun _ => by rw [v2, u3 hrcU, hplO, hbbO],
                fun hne => absurd h2.symm hne⟩

theorem virtio_mem_bbm_unplug_foreach_spec (i : Nat) :
    ∀ (fuel : Nat) (s : VM) (nb : Nat), 0 < nb →
      ∀ s1 rc nb1,
        virtio_mem_bbm_unplug_foreach i fuel s nb = some (s1, rc, nb1) →
        VMstatic s s1 ∧ nb1 ≤ nb ∧
        s1.plugged_size = s.plugged_size
          - (((nb - nb1) * s.bbm_bb_size : Nat) : Int) := by
  intro fuel
  induction fuel with
  | zero =>
    intro s nb hnb s1 rc nb1 hrun
    rw [virtio_mem_bbm_unplug_foreach] at hrun
    simp only [Option.some.injEq, Prod.mk.injEq] at hrun
    obtain ⟨h1, _, h3⟩ := hrun
    subst h1
    exact ⟨VMstatic_refl s, by omega, by simp [← h3]⟩
  | succ fuel ih =>
    intro s nb hnb s1 rc nb1 hrun
    rw [virtio_mem_bbm_unplug_foreach] at hrun
    simp only at hrun
    by_cases hcnt : s.bbm_bb_count VIRTIO_MEM_BBM_BB_ADDED = 0
    · rw [if_pos hcnt] at hrun
      simp only [Option.some.injEq, Prod.mk.injEq] at hrun
      obtain ⟨h1, _, h3⟩ := hrun
      subst h1
      exact ⟨VMstatic_refl s, by omega, by simp [← h3]⟩
    · rw [if_neg hcnt] at hrun
      by_cases hst : virtio_mem_bbm_get_bb_state s (s.bbm_first_bb_id + fuel)
          = VIRTIO_MEM_BBM_BB_ADDED
      · rw [if_pos hst] at hrun
        by_cases hskip : (i = 0 ∧ ¬ virtio_mem_bbm_bb_is_offline s
              (s.bbm_first_bb_id + fuel) = true) ∨
            (i = 1 ∧ ¬ virtio_mem_bbm_bb_is_movable s
              (s.bbm_first_bb_id + fuel) = true)
        · rw [if_pos hskip] at hrun
          exact ih s nb hnb s1 rc nb1 hrun
        · rw [if_neg hskip] at hrun
          simp only [Option.bind_eq_bind] at hrun
          rcases hor : virtio_mem_bbm_offline_remove_and_unplug_bb s
            (s.bbm_first_bb_id + fuel) with _ | ⟨sA, rcA⟩
          · rw [hor] at hrun
            exact Option.noConfusion hrun
          · rw [hor] at hrun
            simp only [Option.some_bind] at hrun
            obtain ⟨p1, p2, p3⟩ :=
              virtio_mem_bbm_offline_remove_and_unplug_bb_spec s
                (s.bbm_first_bb_id + fuel) sA rcA hor
            have hbbA : sA.bbm_bb_size = s.bbm_bb_size := VMstatic_bb_size p1
            by_cases hbusy : rcA = -EBUSY
            · rw [if_pos hbusy] at hrun
              obtain ⟨q1, q2, q3⟩ := ih sA nb hnb s1 rc nb1 hrun
              refine ⟨VMstatic_trans p1 q1, q2, ?_⟩
              rw [q3, p3 (by rw [hbusy]; decide), hbbA]
            · rw [if_neg hbusy] at hrun
              by_cases hrcA : rcA ≠ 0
              · have hite : (if rcA = 0 then nb - 1 else nb) = nb :=
                  if_neg hrcA
                rw [hite] at hrun
                rw [if_pos (Or.inl hrcA)] at hrun
                simp only [Option.some.injEq, Prod.mk.injEq] at hrun
                obtain ⟨h1, _, h3⟩ := hrun
                subst h1
                subst h3
                refine ⟨p1, by omega, ?_⟩
                rw [p3 hrcA]
                simp
              · replace hrcA : rcA = 0 := by by_contra hc; exact hrcA hc
                have hite : (if rcA = 0 then nb - 1 else nb) = nb - 1 :=
                  if_pos hrcA
                rw [hite] at hrun
                by_cases hz : nb - 1 = 0
                · rw [if_pos (Or.inr hz)] at hrun
                  simp only [Option.some.injEq, Prod.mk.injEq] at hrun
                  obtain ⟨h1, _, h3⟩ := hrun
                  subst h1
                  refine ⟨p1, by omega, ?_⟩
                  rw [p2 hrcA, ← h3]
                  have heq : (nb - (nb - 1)) * s.bbm_bb_size
                      = s.bbm_bb_size := by
                    have h1 : nb - (nb - 1) = 1 := by omega
                    rw [h1, Nat.one_mul]
                  rw [heq]
                · rw [if_neg (by push_neg; exact ⟨hrcA, hz⟩)] at hrun
                  obtain ⟨q1, q2, q3⟩ := ih sA (nb - 1) (by omega) s1 rc nb1
                    hrun
                  refine ⟨VMstatic_trans p1 q1, by omega, ?_⟩
                  rw [q3, hbbA, p2 hrcA]
                  have harith : (nb - nb1) * s.bbm_bb_size
                      = s.bbm_bb_size + (nb - 1 - nb1) * s.bbm_bb_size := by
                    have h1 : (nb - nb1) * s.bbm_bb_size
                        = 1 * s.bbm_bb_size
                          + (nb - 1 - nb1) * s.bbm_bb_size := by
                      rw [← Nat.add_mul]
                      congr 1
                      omega
                    rw [h1, Nat.one_mul]
                  rw [harith]
                  push_cast
                  ring
      · rw [if_neg hst] at hrun
        exact ih s nb hnb s1 rc nb1 hrun

theorem virtio_mem_bbm_unplug_request_spec (s : VM) (diff : Int) :
    ∀ s1 rc, virtio_mem_bbm_unplug_request s diff = some (s1, rc) →
      VMstatic s s1 ∧
      ((s.bbm_bb_size : Int) ∣ s1.plugged_size - s.plugged_size) ∧
      (rc = 0 → s1.plugged_size = s.plugged_size
        - (((diff / (s.bbm_bb_size : Int)).toNat * s.bbm_bb_size : Nat)
          : Int)) := by
  intro s1 rc hrun
  unfold virtio_mem_bbm_unplug_request at hrun
  simp only at hrun
  by_cases hnb : (diff / (s.bbm_bb_size : Int)).toNat = 0
  · rw [if_pos hnb] at hrun
    simp only [Option.some.injEq, Prod.mk.injEq] at hrun
    obtain ⟨h1, _⟩ := hrun
    subst h1
    exact ⟨VMstatic_refl s, by simp, fun _ => by simp [hnb]⟩
  · rw [if_neg hnb] at hrun
    simp only [Option.bind_eq_bind] at hrun
    rcases hf0 : virtio_mem_bbm_unplug_foreach 0
        (s.bbm_next_bb_id - s.bbm_first_bb_id) s
        (diff / (s.bbm_bb_size : Int)).toNat
      with _ | ⟨sA, rcA, nbA⟩
    · rw [hf0] at hrun
      exact Option.noConfusion hrun
    · rw [hf0] at hrun
      simp only [Option.some_bind] at hrun
      obtain ⟨p1, p2, p3⟩ := virtio_mem_bbm_unplug_foreach_spec 0
        (s.bbm_next_bb_id - s.bbm_first_bb_id) s
        (diff / (s.bbm_bb_size : Int)).toNat (by omega) sA rcA nbA hf0
      have hdA : (s.bbm_bb_size : Int)
          ∣ sA.plugged_size - s.plugged_size := by
        rw [p3]
        have heq : s.plugged_size
            - ((((diff / (s.bbm_bb_size : Int)).toNat - nbA)
              * s.bbm_bb_size : Nat) : Int) - s.plugged_size
            = -((((diff / (s.bbm_bb_size : Int)).toNat - nbA)
              * s.bbm_bb_size : Nat) : Int) := by ring
        rw [heq]
        exact dvd_neg.mpr (by push_cast; exact dvd_mul_left _ _)
      by_cases hcond : rcA ≠ 0 ∨ nbA = 0
      · rw [if_pos hcond] at hrun
        simp only [Option.some.injEq, Prod.mk.injEq] at hrun
        obtain ⟨h1, h2⟩ := hrun
        subst h1
        refine ⟨p1, hdA, fun h0 => ?_⟩
        have hnbA : nbA = 0 := by
          rcases hcond with hc | hc
          · exact absurd (h2.trans h0) hc
          · exact hc
        rw [p3, hnbA]
        simp
      · rw [if_neg hcond] at hrun
        push_neg at hcond
        rw [if_neg (by simp [unplug_online])] at hrun
        rcases hf1 : virtio_mem_bbm_unplug_foreach 1
            (sA.bbm_next_bb_id - sA.bbm_first_bb_id) sA nbA
          with _ | ⟨sB, rcB, nbB⟩
        · rw [hf1] at hrun
          exact Option.noConfusion hrun
        · rw [hf1] at hrun
          simp only [Option.some_bind] at hrun
          obtain ⟨q1, q2, q3⟩ := virtio_mem_bbm_unplug_foreach_spec 1
            (sA.bbm_next_bb_id - sA.bbm_first_bb_id) sA nbA
            (by omega) sB rcB nbB hf1
          have hbbA : sA.bbm_bb_size = s.bbm_bb_size := VMstatic_bb_size p1
          have hplB : sB.plugged_size = s.plugged_size
              - ((((diff / (s.bbm_bb_size : Int)).toNat - nbB)
                * s.bbm_bb_size : Nat) : Int) := by
            rw [q3, hbbA, p3]
            have harith : ((diff / (s.bbm_bb_size : Int)).toNat - nbB)
                  * s.bbm_bb_size
                = ((diff / (s.bbm_bb_size : Int)).toNat - nbA)
                    * s.bbm_bb_size
                  + (nbA - nbB) * s.bbm_bb_size := by
              rw [← Nat.add_mul]
              congr 1
              omega
            rw [harith]
            push_cast
            ring
          have hdB : (s.bbm_bb_size : Int)
              ∣ sB.plugged_size - s.plugged_size := by
            rw [hplB]
            have heq : s.plugged_size
                - ((((diff / (s.bbm_bb_size : Int)).toNat - nbB)
                  * s.bbm_bb_size : Nat) : Int) - s.plugged_size
                = -((((diff / (s.bbm_bb_size : Int)).toNat - nbB)
                  * s.bbm_bb_size : Nat) : Int) := by ring
            rw [heq]
            exact dvd_neg.mpr (by push_cast; exact dvd_mul_left _ _)
          by_cases hcond2 : rcB ≠ 0 ∨ nbB = 0
          · rw [if_pos hcond2] at hrun
            simp only [Option.some.injEq, Prod.mk.injEq] at hrun
            obtain ⟨h1, h2⟩ := hrun
            subst h1
            refine ⟨VMstatic_trans p1 q1, hdB, fun h0 => ?_⟩
            have hnbB : nbB = 0 := by
              rcases hcond2 with hc | hc
              · exact absurd (h2.trans h0) hc
              · exact hc
            rw [hplB, hnbB]
            simp
          · rw [if_neg hcond2] at hrun
            push_neg at hcond2
            rcases hf2 : virtio_mem_bbm_unplug_foreach 2
                (sB.bbm_next_bb_id - sB.bbm_first_bb_id) sB nbB
              with _ | ⟨sC, rcC, nbC⟩
            · rw [hf2] at hrun
              exact Option.noConfusion hrun
            · rw [hf2] at hrun
              simp only [Option.some_bind] at hrun
              obtain ⟨r1, r2, r3⟩ := virtio_mem_bbm_unplug_foreach_spec 2
                (sB.bbm_next_bb_id - sB.bbm_first_bb_id) sB nbB
                (by omega) sC rcC nbC hf2
              have hbbB : sB.bbm_bb_size = s.bbm_bb_size := by
                rw [VMstatic_bb_size q1, hbbA]
              have hplC : sC.plugged_size = s.plugged_size
                  - ((((diff / (s.bbm_bb_size : Int)).toNat - nbC)
                    * s.bbm_bb_size : Nat) : Int) := by
                rw [r3, hbbB, hplB]
                have harith : ((diff / (s.bbm_bb_size : Int)).toNat - nbC)
                      * s.bbm_bb_size
                    = ((diff / (s.bbm_bb_size : Int)).toNat - nbB)
                        * s.bbm_bb_size
                      + (nbB - nbC) * s.bbm_bb_size := by
                  rw [← Nat.add_mul]
                  congr 1
                  omega
                rw [harith]
                push_cast
                ring
              have hdC : (s.bbm_bb_size : Int)
                  ∣ sC.plugged_size - s.plugged_size := by
                rw [hplC]
                have heq : s.plugged_size
                    - ((((diff / (s.bbm_bb_size : Int)).toNat - nbC)
                      * s.bbm_bb_size : Nat) : Int) - s.plugged_size
                    = -((((diff / (s.bbm_bb_size : Int)).toNat - nbC)
                      * s.bbm_bb_size : Nat) : Int) := by ring
                rw [heq]
                exact dvd_neg.mpr (by push_cast; exact dvd_mul_left _ _)
              have hstC : VMstatic s sC :=
                VMstatic_trans p1 (VMstatic_trans q1 r1)
              by_cases hcond3 : rcC ≠ 0 ∨ nbC = 0
              · rw [if_pos hcond3] at hrun
                simp only [Option.some.injEq, Prod.mk.injEq] at hrun
                obtain ⟨h1, h2⟩ := hrun
                subst h1
                refine ⟨hstC, hdC, fun h0 => ?_⟩
                have hnbC : nbC = 0 := by
                  rcases hcond3 with hc | hc
                  · exact absurd (h2.trans h0) hc
                  · exact hc
                rw [hplC, hnbC]
                simp
              · rw [if_neg hcond3] at hrun
                push_neg at hcond3
                simp only [Option.some.injEq, Prod.mk.injEq] at hrun
                obtain ⟨h1, h2⟩ := hrun
                subst h1
                refine ⟨hstC, hdC, fun h0 => ?_⟩
                have hnbC : nbC = 0 := by
                  by_contra hc
                  rw [if_pos hc] at h2
                  exact absurd (h2.trans h0) (by decide)
                rw [hplC, hnbC]
                simp

theorem virtio_mem_bbm_cleanup_foreach_spec (bb_end : Nat) :
    ∀ (fuel : Nat) (s : VM),
      ∀ s1 rc,
        virtio_mem_bbm_cleanup_foreach bb_end fuel s = some (s1, rc) →
        VMstatic s s1 ∧
        ((s.bbm_bb_size : Int) ∣ s1.plugged_size - s.plugged_size) := by
  intro fuel
  induction fuel with
  | zero =>
    intro s s1 rc hrun
    rw [virtio_mem_bbm_cleanup_foreach] at hrun
    simp only [Option.some.injEq, Prod.mk.injEq] at hrun
    obtain ⟨h1, _⟩ := hrun
    subst h1
    exact ⟨VMstatic_refl s, by simp⟩
  | succ fuel ih =>
    intro s s1 rc hrun
    rw [virtio_mem_bbm_cleanup_foreach] at hrun
    simp only at hrun
    by_cases hcnt : s.bbm_bb_count VIRTIO_MEM_BBM_BB_PLUGGED = 0
    · rw [if_pos hcnt] at hrun
      simp only [Option.some.injEq, Prod.mk.injEq] at hrun
      obtain ⟨h1, _⟩ := hrun
      subst h1
      exact ⟨VMstatic_refl s, by simp⟩
    · rw [if_neg hcnt] at hrun
      by_cases hst : virtio_mem_bbm_get_bb_state s (bb_end - (fuel + 1))
          = VIRTIO_MEM_BBM_BB_PLUGGED
      · rw [if_pos hst] at hrun
        rcases hunp : virtio_mem_bbm_unplug_bb s (bb_end - (fuel + 1))
          with ⟨sA, rcA⟩
        rw [hunp] at hrun
        dsimp only at hrun
        obtain ⟨u1, _, u3, u4⟩ := virtio_mem_bbm_unplug_bb_spec s
          (bb_end - (fuel + 1))
        rw [hunp] at u1 u3 u4
        replace u1 : VMstatic s sA := u1
        replace u3 : rcA = 0 → sA.plugged_size
          = s.plugged_size - (s.bbm_bb_size : Int) := u3
        replace u4 : rcA ≠ 0 → sA.plugged_size = s.plugged_size := u4
        by_cases hrcA : rcA ≠ 0
        · rw [if_pos hrcA] at hrun
          simp only [Option.some.injEq, Prod.mk.injEq] at hrun
          obtain ⟨h1, _⟩ := hrun
          subst h1
          exact ⟨u1, by rw [u4 hrcA]; simp⟩
        · rw [if_neg hrcA] at hrun
          replace hrcA : rcA = 0 := by by_contra hc; exact hrcA hc
          rcases hset : virtio_mem_bbm_set_bb_state sA (bb_end - (fuel + 1))
              VIRTIO_MEM_BBM_BB_UNUSED with _ | sB
          · rw [hset] at hrun
            exact Option.noConfusion hrun
          · rw [hset] at hrun
            simp only [Option.bind_eq_bind, Option.some_bind] at hrun
            obtain ⟨w1, w2, _⟩ := virtio_mem_bbm_set_bb_state_spec sA
              (bb_end - (fuel + 1)) VIRTIO_MEM_BBM_BB_UNUSED sB hset
            obtain ⟨q1, q2⟩ := ih sB s1 rc hrun
            have hbbB : sB.bbm_bb_size = s.bbm_bb_size := by
              rw [VMstatic_bb_size w1, VMstatic_bb_size u1]
            refine ⟨VMstatic_trans u1 (VMstatic_trans w1 q1), ?_⟩
            have heq : s1.plugged_size - s.plugged_size
                = (s1.plugged_size - sB.plugged_size)
                  + (sB.plugged_size - s.plugged_size) := by ring
            rw [heq]
            refine dvd_add (by rw [← hbbB]; exact q2) ?_
            rw [w2, u3 hrcA]
            have heq2 : s.plugged_size - (s.bbm_bb_size : Int)
                - s.plugged_size = -(s.bbm_bb_size : Int) := by ring
            rw [heq2]
            exact dvd_neg.mpr dvd_rfl
      · rw [if_neg hst] at hrun
        exact ih s s1 rc hrun

theorem virtio_mem_sbm_cleanup_foreach_spec (mb_end : Nat) :
    ∀ (fuel : Nat) (s : VM),
      ∀ s1 rc,
        virtio_mem_sbm_cleanup_foreach mb_end fuel s = some (s1, rc) →
        VMstatic s s1 ∧
        ((s.sbm_sb_size : Int) ∣ s1.plugged_size - s.plugged_size) := by
  intro fuel
  induction fuel with
  | zero =>
    intro s s1 rc hrun
    rw [virtio_mem_sbm_cleanup_foreach] at hrun
    simp only [Option.some.injEq, Prod.mk.injEq] at hrun
    obtain ⟨h1, _⟩ := hrun
    subst h1
    exact ⟨VMstatic_refl s, by simp⟩
  | succ fuel ih =>
    intro s s1 rc hrun
    rw [virtio_mem_sbm_cleanup_foreach] at hrun
    simp only at hrun
    by_cases hcnt : s.sbm_mb_count VIRTIO_MEM_SBM_MB_PLUGGED = 0
    · rw [if_pos hcnt] at hrun
      simp only [Option.some.injEq, Prod.mk.injEq] at hrun
      obtain ⟨h1, _⟩ := hrun
      subst h1
      exact ⟨VMstatic_refl s, by simp⟩
    · rw [if_neg hcnt] at hrun
      by_cases hst : virtio_mem_sbm_get_mb_state s (mb_end - (fuel + 1))
          = VIRTIO_MEM_SBM_MB_PLUGGED
      · rw [if_pos hst] at hrun
        rcases hunp : virtio_mem_sbm_unplug_mb s (mb_end - (fuel + 1))
          with ⟨sA, rcA⟩
        rw [hunp] at hrun
        dsimp only at hrun
        obtain ⟨u1, u2⟩ := virtio_mem_sbm_unplug_mb_spec s
          (mb_end - (fuel + 1)) sA rcA hunp
        by_cases hrcA : rcA ≠ 0
        · rw [if_pos hrcA] at hrun
          simp only [Option.some.injEq, Prod.mk.injEq] at hrun
          obtain ⟨h1, _⟩ := hrun
          subst h1
          exact ⟨u1, u2⟩
        · rw [if_neg hrcA] at hrun
          rcases hset : virtio_mem_sbm_set_mb_state sA (mb_end - (fuel + 1))
              VIRTIO_MEM_SBM_MB_UNUSED with _ | sB
          · rw [hset] at hrun
            exact Option.noConfusion hrun
          · rw [hset] at hrun
            simp only [Option.bind_eq_bind, Option.some_bind] at hrun
            obtain ⟨w1, w2, _⟩ := virtio_mem_sbm_set_mb_state_spec sA
              (mb_end - (fuel + 1)) VIRTIO_MEM_SBM_MB_UNUSED sB hset
            obtain ⟨q1, q2⟩ := ih sB s1 rc hrun
            have hsbB : sB.sbm_sb_size = s.sbm_sb_size := by
              rw [VMstatic_sb_size w1, VMstatic_sb_size u1]
            refine ⟨VMstatic_trans u1 (VMstatic_trans w1 q1), ?_⟩
            have heq : s1.plugged_size - s.plugged_size
                = (s1.plugged_size - sB.plugged_size)
                  + (sB.plugged_size - s.plugged_size) := by ring
            rw [heq]
            refine dvd_add (by rw [← hsbB]; exact q2) ?_
            rw [w2]
            exact u2
      · rw [if_neg hst] at hrun
        exact ih s s1 rc hrun

theorem virtio_mem_sbm_retry_remove_foreach_spec (state mb_end : Nat) :
    ∀ (fuel : Nat) (s : VM) (acc : Bool),
      ∀ s1 a1,
        virtio_mem_sbm_retry_remove_foreach state mb_end fuel s acc
          = some (s1, a1) →
        VMstatic s s1 ∧ s1.plugged_size = s.plugged_size := by
  intro fuel
  induction fuel with
  | zero =>
    intro s acc s1 a1 hrun
    rw [virtio_mem_sbm_retry_remove_foreach] at hrun
    simp only [Option.some.injEq, Prod.mk.injEq] at hrun
    obtain ⟨h1, _⟩ := hrun
    subst h1
    exact ⟨VMstatic_refl s, rfl⟩
  | succ fuel ih =>
    intro s acc s1 a1 hrun
    rw [virtio_mem_sbm_retry_remove_foreach] at hrun
    simp only at hrun
    by_cases hcnt : s.sbm_mb_count state = 0
    · rw [if_pos hcnt] at hrun
      simp only [Option.some.injEq, Prod.mk.injEq] at hrun
      obtain ⟨h1, _⟩ := hrun
      subst h1
      exact ⟨VMstatic_refl s, rfl⟩
    · rw [if_neg hcnt] at hrun
      by_cases hst : virtio_mem_sbm_get_mb_state s (mb_end - (fuel + 1))
          = state
      · rw [if_pos hst] at hrun
        simp only [Option.bind_eq_bind] at hrun
        rcases htr : virtio_mem_sbm_try_remove_unplugged_mb s
          (mb_end - (fuel + 1)) with _ | ⟨sA, rcA⟩
        · rw [htr] at hrun
          exact Option.noConfusion hrun
        · rw [htr] at hrun
          simp only [Option.some_bind] at hrun
          obtain ⟨p1, p2⟩ := virtio_mem_sbm_try_remove_unplugged_mb_spec s
            (mb_end - (fuel + 1)) sA rcA htr
          obtain ⟨q1, q2⟩ := ih sA _ s1 a1 hrun
          exact ⟨VMstatic_trans p1 q1, by rw [q2, p2]⟩
      · rw [if_neg hst] at hrun
        exact ih s acc s1 a1 hrun

theorem virtio_mem_cleanup_pending_mb_spec (s : VM) :
    ∀ s1 rc, virtio_mem_cleanup_pending_mb s = some (s1, rc) →
      VMstatic s s1 ∧
      ((virtio_mem_unit_size s : Int)
        ∣ s1.plugged_size - s.plugged_size) := by
  intro s1 rc hrun
  unfold virtio_mem_cleanup_pending_mb at hrun
  by_cases hsbm : ¬ s.in_sbm = true
  · rw [if_pos hsbm] at hrun
    obtain ⟨p1, p2⟩ := virtio_mem_bbm_cleanup_foreach_spec s.bbm_next_bb_id
      (s.bbm_next_bb_id - s.bbm_first_bb_id) s s1 rc hrun
    refine ⟨p1, ?_⟩
    unfold virtio_mem_unit_size
    rw [if_neg (by simpa using hsbm)]
    exact p2
  · rw [if_neg hsbm] at hrun
    replace hsbm : s.in_sbm = true := by by_contra hc; exact hsbm hc
    have hunit : virtio_mem_unit_size s = s.sbm_sb_size := by
      unfold virtio_mem_unit_size
      rw [if_pos hsbm]
    simp only [Option.bind_eq_bind] at hrun
    rcases hcf : virtio_mem_sbm_cleanup_foreach s.sbm_next_mb_id
        (s.sbm_next_mb_id - s.sbm_first_mb_id) s with _ | ⟨sA, rcA⟩
    · rw [hcf] at hrun
      exact Option.noConfusion hrun
    · rw [hcf] at hrun
      simp only [Option.some_bind] at hrun
      obtain ⟨p1, p2⟩ := virtio_mem_sbm_cleanup_foreach_spec s.sbm_next_mb_id
        (s.sbm_next_mb_id - s.sbm_first_mb_id) s sA rcA hcf
      rw [hunit]
      by_cases hrcA : rcA ≠ 0
      · rw [if_pos hrcA] at hrun
        simp only [Option.some.injEq, Prod.mk.injEq] at hrun
        obtain ⟨h1, _⟩ := hrun
        subst h1
        exact ⟨p1, p2⟩
      · rw [if_neg hrcA] at hrun
        by_cases hhu : ¬ sA.have_unplugged_mb = true
        · rw [if_pos hhu] at hrun
          simp only [Option.some.injEq, Prod.mk.injEq] at hrun
          obtain ⟨h1, _⟩ := hrun
          subst h1
          exact ⟨p1, p2⟩
        · rw [if_neg hhu] at hrun
          rcases hr1 : virtio_mem_sbm_retry_remove_foreach
              VIRTIO_MEM_SBM_MB_MOVABLE_PARTIAL
              ({ sA with have_unplugged_mb := false }).sbm_next_mb_id
              (({ sA with have_unplugged_mb := false }).sbm_next_mb_id
                - ({ sA with have_unplugged_mb := false }).sbm_first_mb_id)
              { sA with have_unplugged_mb := false } false
            with _ | ⟨sB, a1⟩
          · rw [hr1] at hrun
            exact Option.noConfusion hrun
          · rw [hr1] at hrun
            simp only [Option.some_bind] at hrun
            obtain ⟨q1, q2⟩ := virtio_mem_sbm_retry_remove_foreach_spec
              VIRTIO_MEM_SBM_MB_MOVABLE_PARTIAL _ _ _ false sB a1 hr1
            rcases hr2 : virtio_mem_sbm_retry_remove_foreach
                VIRTIO_MEM_SBM_MB_KERNEL_PARTIAL sB.sbm_next_mb_id
                (sB.sbm_next_mb_id - sB.sbm_first_mb_id) sB a1
              with _ | ⟨sC, a2⟩
            · rw [hr2] at hrun
              exact Option.noConfusion hrun
            · rw [hr2] at hrun
              simp only [Option.some_bind] at hrun
              obtain ⟨r1, r2⟩ := virtio_mem_sbm_retry_remove_foreach_spec
                VIRTIO_MEM_SBM_MB_KERNEL_PARTIAL _ _ _ a1 sC a2 hr2
              rcases hr3 : virtio_mem_sbm_retry_remove_foreach
                  VIRTIO_MEM_SBM_MB_OFFLINE_PARTIAL sC.sbm_next_mb_id
                  (sC.sbm_next_mb_id - sC.sbm_first_mb_id) sC a2
                with _ | ⟨sD, a3⟩
              · rw [hr3] at hrun
                exact Option.noConfusion hrun
              · rw [hr3] at hrun
                simp only [Option.some_bind, Option.some.injEq,
                  Prod.mk.injEq] at hrun
                obtain ⟨h1, _⟩ := hrun
                obtain ⟨t1, t2⟩ := virtio_mem_sbm_retry_remove_foreach_spec
                  VIRTIO_MEM_SBM_MB_OFFLINE_PARTIAL _ _ _ a2 sD a3 hr3
                have hstA : VMstatic s sD := by
                  refine VMstatic_trans p1 ?_
                  refine VMstatic_trans (show VMstatic sA
                    { sA with have_unplugged_mb := false } by
                      simp [VMstatic]) ?_
                  exact VMstatic_trans q1 (VMstatic_trans r1 t1)
                have hplD : sD.plugged_size = sA.plugged_size := by
                  rw [t2, r2, q2]
                have hs1 : VMstatic s s1 ∧ s1.plugged_size
                    = sD.plugged_size := by
                  rw [← h1]
                  split
                  · exact ⟨VMstatic_trans hstA (by simp [VMstatic]), rfl⟩
                  · exact ⟨hstA, rfl⟩
                refine ⟨hs1.1, ?_⟩
                rw [hs1.2, hplD]
                exact p2

theorem VMwf_static {a b : VM} (h : VMstatic a b) (hwf : VMwf a) : VMwf b := by
  obtain ⟨w1, w2, w3, w4, w5⟩ := hwf
  refine ⟨?_, ?_, ?_, ?_, ?_⟩
  · rw [VMstatic_dbs h]; exact w1
  · rw [VMstatic_sb_size h]; exact w2
  · rw [VMstatic_bb_size h]; exact w3
  · rw [VMstatic_dbs h, VMstatic_sb_size h]; exact w4
  · rw [VMstatic_dbs h, VMstatic_bb_size h]; exact w5

theorem virtio_mem_unit_size_static {a b : VM} (h : VMstatic a b) :
    virtio_mem_unit_size b = virtio_mem_unit_size a := by
  unfold virtio_mem_unit_size
  rw [VMstatic_in_sbm h, VMstatic_sb_size h, VMstatic_bb_size h]

theorem virtio_mem_unit_exact (u : Nat) (d : Int) (hu : 0 < u)
    (hdvd : (u : Int) ∣ d) (hpos : 0 ≤ d) :
    (((d / (u : Int)).toNat * u : Nat) : Int) = d := by
  obtain ⟨k, hk⟩ := hdvd
  have hk0 : 0 ≤ k := by
    by_contra hneg
    push_neg at hneg
    have : d < 0 := by
      rw [hk]
      have hupos : (0 : Int) < (u : Int) := by exact_mod_cast hu
      exact mul_neg_of_pos_of_neg hupos hneg
    omega
  have hdiv : d / (u : Int) = k := by
    rw [hk]
    exact Int.mul_ediv_cancel_left k (by exact_mod_cast hu.ne')
  rw [hdiv]
  push_cast [Int.toNat_of_nonneg hk0]
  rw [hk]
  ring

theorem virtio_mem_refresh_config_spec (s : VM) :
    VMstatic s (virtio_mem_refresh_config s) ∧
    (virtio_mem_refresh_config s).plugged_size = s.plugged_size := by
  unfold virtio_mem_refresh_config
  dsimp only
  split
  · exact ⟨by simp [VMstatic], rfl⟩
  · exact ⟨by simp [VMstatic], rfl⟩

theorem virtio_mem_plug_request_spec (s : VM) (diff : Int)
    (hsb : s.device_block_size ∣ s.sbm_sb_size)
    (hbb : s.device_block_size ∣ s.bbm_bb_size) :
    ∀ s1 rc, virtio_mem_plug_request s diff = some (s1, rc) →
      VMstatic s s1 ∧
      ((virtio_mem_unit_size s : Int) ∣ s1.plugged_size - s.plugged_size) ∧
      (rc = 0 → s1.plugged_size = s.plugged_size
        + (((diff / (virtio_mem_unit_size s : Int)).toNat
          * virtio_mem_unit_size s : Nat) : Int)) := by
  intro s1 rc hrun
  unfold virtio_mem_plug_request at hrun
  unfold virtio_mem_unit_size
  by_cases hsbm : s.in_sbm = true
  · rw [if_pos hsbm] at hrun
    rw [if_pos hsbm]
    exact virtio_mem_sbm_plug_request_spec s diff hsb s1 rc hrun
  · rw [if_neg hsbm] at hrun
    rw [if_neg hsbm]
    exact virtio_mem_bbm_plug_request_spec s diff hbb s1 rc hrun

theorem virtio_mem_unplug_request_spec (s : VM) (diff : Int) :
    ∀ s1 rc, virtio_mem_unplug_request s diff = some (s1, rc) →
      VMstatic s s1 ∧
      ((virtio_mem_unit_size s : Int) ∣ s1.plugged_size - s.plugged_size) ∧
      (rc = 0 → s1.plugged_size = s.plugged_size
        - (((diff / (virtio_mem_unit_size s : Int)).toNat
          * virtio_mem_unit_size s : Nat) : Int)) := by
  intro s1 rc hrun
  unfold virtio_mem_unplug_request at hrun
  unfold virtio_mem_unit_size
  by_cases hsbm : s.in_sbm = true
  · rw [if_pos hsbm] at hrun
    rw [if_pos hsbm]
    exact virtio_mem_sbm_unplug_request_spec s diff s1 rc hrun
  · rw [if_neg hsbm] at hrun
    rw [if_neg hsbm]
    exact virtio_mem_bbm_unplug_request_spec s diff s1 rc hrun

theorem virtio_mem_run_wq_prelude_spec (s : VM) :
    VMstatic s (virtio_mem_run_wq_prelude s).1 ∧
    (virtio_mem_run_wq_prelude s).1.plugged_size = s.plugged_size := by
  unfold virtio_mem_run_wq_prelude
  simp only
  have hsame : ∀ t : VM, VMstatic s t →
      VMstatic s
        (if t.env.config_changed_read t.cfg_cnt = true then
          virtio_mem_refresh_config { t with cfg_cnt := t.cfg_cnt + 1 }
        else { t with cfg_cnt := t.cfg_cnt + 1 }) ∧
      (if t.env.config_changed_read t.cfg_cnt = true then
          virtio_mem_refresh_config { t with cfg_cnt := t.cfg_cnt + 1 }
        else { t with cfg_cnt := t.cfg_cnt + 1 }).plugged_size
        = t.plugged_size := by
    intro t hst
    split
    · constructor
      · refine VMstatic_trans hst (VMstatic_trans (show VMstatic t
          { t with cfg_cnt := t.cfg_cnt + 1 } by simp [VMstatic]) ?_)
        exact (virtio_mem_refresh_config_spec _).1
      · exact (virtio_mem_refresh_config_spec _).2
    · exact ⟨VMstatic_trans hst (by simp [VMstatic]), rfl⟩
  split
  · have h := hsame s (VMstatic_refl s)
    simpa [virtio_mem_send_unplug_all_request] using
      hsame s (VMstatic_refl s)
  · exact hsame s (VMstatic_refl s)

theorem virtio_mem_run_wq_prelude_requested (s : VM) :
    (virtio_mem_run_wq_prelude s).1.requested_size = s.requested_size :=
  VMstatic_requested (virtio_mem_run_wq_prelude_spec s).1

theorem virtio_mem_run_wq_dispatch_spec (s : VM) (rcin : Int) (hwf : VMwf s)
    (hdp : (virtio_mem_unit_size s : Int) ∣ s.plugged_size)
    (hdr : (virtio_mem_unit_size s : Int) ∣ s.requested_size) :
    ∀ s1 rc, virtio_mem_run_wq_dispatch s rcin = some (s1, rc) →
      VMstatic s s1 ∧
      ((virtio_mem_unit_size s : Int) ∣ s1.plugged_size) ∧
      (rc = 0 → s1.plugged_size = s1.requested_size ∨
        (rcin = 0 ∧ s.requested_size = s.plugged_size ∧ s1 = s)) := by
  intro s1 rc hrun
  unfold virtio_mem_run_wq_dispatch at hrun
  have hunit_pos : 0 < virtio_mem_unit_size s := by
    unfold virtio_mem_unit_size
    split
    · exact hwf.2.1
    · exact hwf.2.2.1
  by_cases hcond : rcin = 0 ∧ s.requested_size ≠ s.plugged_size
  · rw [if_pos hcond] at hrun
    by_cases hlt : s.plugged_size < s.requested_size
    · rw [if_pos hlt] at hrun
      obtain ⟨d1, d2, d3⟩ := virtio_mem_plug_request_spec s
        (s.requested_size - s.plugged_size) hwf.2.2.2.1 hwf.2.2.2.2
        s1 rc hrun
      refine ⟨d1, ?_, fun h0 => ?_⟩
      · have heq : s1.plugged_size
            = (s1.plugged_size - s.plugged_size) + s.plugged_size := by ring
        rw [heq]
        exact dvd_add d2 hdp
      · left
        have hdC : (virtio_mem_unit_size s : Int)
            ∣ s.requested_size - s.plugged_size := dvd_sub hdr hdp
        have hexact := virtio_mem_unit_exact (virtio_mem_unit_size s)
          (s.requested_size - s.plugged_size) hunit_pos hdC (by omega)
        rw [d3 h0, hexact, VMstatic_requested d1]
        ring
    · rw [if_neg hlt] at hrun
      obtain ⟨d1, d2, d3⟩ := virtio_mem_unplug_request_spec s
        (s.plugged_size - s.requested_size) s1 rc hrun
      refine ⟨d1, ?_, fun h0 => ?_⟩
      · have heq : s1.plugged_size
            = (s1.plugged_size - s.plugged_size) + s.plugged_size := by ring
        rw [heq]
        exact dvd_add d2 hdp
      · left
        have hdC : (virtio_mem_unit_size s : Int)
            ∣ s.plugged_size - s.requested_size := dvd_sub hdp hdr
        have hexact := virtio_mem_unit_exact (virtio_mem_unit_size s)
          (s.plugged_size - s.requested_size) hunit_pos hdC
          (by have := hcond.2; omega)
        rw [d3 h0, hexact, VMstatic_requested d1]
        ring
  · rw [if_neg hcond] at hrun
    simp only [Option.some.injEq, Prod.mk.injEq] at hrun
    obtain ⟨h1, h2⟩ := hrun
    subst h1
    refine ⟨VMstatic_refl s, hdp, fun h0 => ?_⟩
    push_neg at hcond
    have hrcin : rcin = 0 := h2.trans h0
    exact Or.inr ⟨hrcin, hcond hrcin, rfl⟩

theorem virtio_mem_run_wq_pass_spec (s : VM) (hwf : VMwf s)
    (hdp : (virtio_mem_unit_size s : Int) ∣ s.plugged_size)
    (hdr : (virtio_mem_unit_size s : Int) ∣ s.requested_size) :
    ∀ s1 rc, virtio_mem_run_wq_pass s = some (s1, rc) →
      VMstatic s s1 ∧
      ((virtio_mem_unit_size s : Int) ∣ s1.plugged_size) ∧
      (rc = 0 → s1.plugged_size = s1.requested_size) := by
  intro s1 rc hrun
  unfold virtio_mem_run_wq_pass at hrun
  rcases hpre : virtio_mem_run_wq_prelude s with ⟨s0, rc0⟩
  rw [hpre] at hrun
  dsimp only at hrun
  obtain ⟨pr1, pr2⟩ := virtio_mem_run_wq_prelude_spec s
  rw [hpre] at pr1 pr2
  replace pr1 : VMstatic s s0 := pr1
  replace pr2 : s0.plugged_size = s.plugged_size := pr2
  have hcont : ∀ (s3 : VM) (rc3 : Int), VMstatic s s3 →
      ((virtio_mem_unit_size s : Int) ∣ s3.plugged_size) →
      ((virtio_mem_run_wq_dispatch s3 rc3).bind fun d =>
        some (d.1,
          if d.2 = 0 ∧ d.1.in_sbm = true ∧ d.1.have_unplugged_mb = true
            then -EBUSY else d.2)) = some (s1, rc) →
      VMstatic s s1 ∧
      ((virtio_mem_unit_size s : Int) ∣ s1.plugged_size) ∧
      (rc = 0 → s1.plugged_size = s1.requested_size) := by
    intro s3 rc3 hst3 hd3 hcr
    rcases hdis : virtio_mem_run_wq_dispatch s3 rc3 with _ | ⟨s4, rc4⟩
    · rw [hdis] at hcr
      exact Option.noConfusion hcr
    · rw [hdis] at hcr
      replace hcr : some ((s4 : VM),
          (if rc4 = 0 ∧ s4.in_sbm = true ∧ s4.have_unplugged_mb = true
            then -EBUSY else rc4)) = some (s1, rc) := hcr
      simp only [Option.some.injEq, Prod.mk.injEq] at hcr
      obtain ⟨h1, h2⟩ := hcr
      subst h1
      obtain ⟨d1, d2, d3⟩ := virtio_mem_run_wq_dispatch_spec s3 rc3
        (VMwf_static hst3 hwf)
        (by rw [virtio_mem_unit_size_static hst3]; exact hd3)
        (by rw [virtio_mem_unit_size_static hst3,
              VMstatic_requested hst3]; exact hdr)
        s4 rc4 hdis
      have hst4 : VMstatic s s4 := VMstatic_trans hst3 d1
      refine ⟨hst4, by rw [← virtio_mem_unit_size_static hst3]; exact d2,
        fun h0 => ?_⟩
      have hrc4 : rc4 = 0 := by
        by_contra hc
        rw [if_neg (fun hco => hc hco.1)] at h2
        exact hc (h2.trans h0)
      rcases d3 hrc4 with hgoal | ⟨_, heq3, hs43⟩
      · exact hgoal
      · rw [hs43]
        exact heq3.symm
  by_cases hrc0 : rc0 = 0
  · rw [if_pos hrc0] at hrun
    rcases hcl : virtio_mem_cleanup_pending_mb s0 with _ | ⟨s3, rc3⟩
    · rw [hcl] at hrun
      exact Option.noConfusion hrun
    · rw [hcl] at hrun
      obtain ⟨c1, c2⟩ := virtio_mem_cleanup_pending_mb_spec s0 s3 rc3 hcl
      refine hcont s3 rc3 (VMstatic_trans pr1 c1) ?_ hrun
      have heq : s3.plugged_size
          = (s3.plugged_size - s0.plugged_size) + s.plugged_size := by
        rw [pr2]
        ring
      rw [heq]
      exact dvd_add
        (by rw [← virtio_mem_unit_size_static pr1]; exact c2) hdp
  · rw [if_neg hrc0] at hrun
    exact hcont s0 rc0 pr1 (by rw [pr2]; exact hdp) hrun

theorem virtio_mem_run_wq_go_spec :
    ∀ (fuel : Nat) (s : VM), VMwf s →
      (virtio_mem_unit_size s : Int) ∣ s.plugged_size →
      (virtio_mem_unit_size s : Int) ∣ s.requested_size →
      ∀ s1 rc, virtio_mem_run_wq_go fuel s = some (s1, rc) →
        (rc = 0 → s1.plugged_size = s1.requested_size) ∧
        (rc ≠ 0 → rc ≠ -ENOSPC →
          ¬ (rc = -ETXTBSY ∨ rc = -EBUSY ∨ rc = -ENOMEM) →
          s1.broken = true) := by
  intro fuel
  induction fuel with
  | zero =>
    intro s _ _ _ s1 rc hrun
    rw [virtio_mem_run_wq_go] at hrun
    exact Option.noConfusion hrun
  | succ fuel ih =>
    intro s hwf hdp hdr s1 rc hrun
    rw [virtio_mem_run_wq_go] at hrun
    simp only [Option.bind_eq_bind] at hrun
    rcases hpass : virtio_mem_run_wq_pass s with _ | ⟨sP, rcp⟩
    · rw [hpass] at hrun
      exact Option.noConfusion hrun
    · rw [hpass] at hrun
      simp only [Option.some_bind] at hrun
      obtain ⟨p1, p2, p3⟩ := virtio_mem_run_wq_pass_spec s hwf hdp hdr
        sP rcp hpass
      by_cases hagain : rcp = -EAGAIN
      · rw [if_pos hagain] at hrun
        exact ih sP (VMwf_static p1 hwf)
          (by rw [virtio_mem_unit_size_static p1]; exact p2)
          (by rw [virtio_mem_unit_size_static p1,
                VMstatic_requested p1]; exact hdr)
          s1 rc hrun
      · rw [if_neg hagain] at hrun
        simp only [Option.some.injEq, Prod.mk.injEq] at hrun
        obtain ⟨h1, h2⟩ := hrun
        subst h2
        constructor
        · intro h0
          subst h0
          rw [← h1]
          unfold virtio_mem_run_wq_classify
          rw [if_pos rfl]
          exact p3 rfl
        · intro hne hnospc hntrans
          rw [← h1]
          unfold virtio_mem_run_wq_classify
          rw [if_neg hne, if_neg hnospc, if_neg hntrans, if_neg hagain]

/-- C1: for any run of the retry worker whose starting plugged and
requested sizes are multiples of the active unit size (the subblock
size in SBM, the big block size in BBM), if virtio_mem_run_wq returns
with a quiescent result (one that neither schedules the retry timer nor
reruns immediately), then either plugged_size equals requested_size, or
the run ended with -ENOSPC, or the device is marked broken. -/
theorem claim_C1 (fuel : Nat) (s s1 : VM) (rc : Int)
    (hwf : VMwf s)
    (hdp : (virtio_mem_unit_size s : Int) ∣ s.plugged_size)
    (hdr : (virtio_mem_unit_size s : Int) ∣ s.requested_size)
    (hrun : virtio_mem_run_wq fuel s = some (s1, rc))
    (hq : virtio_mem_wq_quiescent rc) :
    s1.plugged_size = s1.requested_size ∨ rc = -ENOSPC ∨ s1.broken = true := by
  unfold virtio_mem_run_wq at hrun
  simp only at hrun
  by_cases hbk : ({ s with timer_pending := false } : VM).broken = true
  · rw [if_pos hbk] at hrun
    simp only [Option.some.injEq, Prod.mk.injEq] at hrun
    obtain ⟨h1, _⟩ := hrun
    rw [← h1]
    exact Or.inr (Or.inr hbk)
  · rw [if_neg hbk] at hrun
    obtain ⟨g1, g2⟩ := virtio_mem_run_wq_go_spec fuel
      { s with timer_pending := false } hwf hdp hdr s1 rc hrun
    by_cases h0 : rc = 0
    · exact Or.inl (g1 h0)
    · by_cases hns : rc = -ENOSPC
      · exact Or.inr (Or.inl hns)
      · refine Or.inr (Or.inr (g2 h0 hns ?_))
        intro htr
        exact hq (by rcases htr with h | h | h
                     · exact Or.inl h
                     · exact Or.inr (Or.inl h)
                     · exact Or.inr (Or.inr (Or.inl h)))

/-- Closed instance of C1: the base fixture with both sizes zero runs
to quiescence with result 0 and equal sizes. -/
theorem claim_C1_witness :
    VMwf vmBase ∧
    ((virtio_mem_unit_size vmBase : Int) ∣ vmBase.plugged_size) ∧
    ((virtio_mem_unit_size vmBase : Int) ∣ vmBase.requested_size) ∧
    virtio_mem_wq_quiescent 0 ∧
    (((virtio_mem_run_wq 2 vmBase).getD (vmBase, 0)).1.plugged_size
        = ((virtio_mem_run_wq 2 vmBase).getD (vmBase, 0)).1.requested_size ∨
      (0 : Int) = -ENOSPC ∨
      ((virtio_mem_run_wq 2 vmBase).getD (vmBase, 0)).1.broken = true) :=
  ⟨by unfold VMwf; decide, ⟨0, by decide⟩, ⟨0, by decide⟩,
    by unfold virtio_mem_wq_quiescent; decide,
    claim_C1 2 vmBase ((virtio_mem_run_wq 2 vmBase).getD (vmBase, 0)).1 0
      (by unfold VMwf; decide) ⟨0, by decide⟩ ⟨0, by decide⟩ (by rfl)
      (by unfold virtio_mem_wq_quiescent; decide)⟩

/-- C10: when virtio_mem_send_plug_request fails on a non-memmap
request whose size is a multiple of the device block size, the
compensating unplug of the already-plugged prefix restores plugged_size
exactly: the value after the call equals the value before. -/
theorem claim_C10 (s : VM) (a size : Nat)
    (hdvd : s.device_block_size ∣ size)
    (hrc : (virtio_mem_send_plug_request s a size false).2 ≠ 0) :
    (virtio_mem_send_plug_request s a size false).1.plugged_size
      = s.plugged_size :=
  (virtio_mem_send_plug_request_spec s a size false).2.2.2.1 hrc

/-- Closed instance of C10: a two-block plug against a host that
rejects every allocation fails and leaves plugged_size at zero. -/
theorem claim_C10_witness :
    vmHostErr.device_block_size ∣ 2 ∧
    (virtio_mem_send_plug_request vmHostErr 8 2 false).2 ≠ 0 ∧
    (virtio_mem_send_plug_request vmHostErr 8 2 false).1.plugged_size
      = vmHostErr.plugged_size :=
  ⟨by decide, by decide,
    claim_C10 vmHostErr 8 2 (by decide) (by decide)⟩

/-- C2 (amended): an engine error that is none of -ENOSPC, -ETXTBSY,
-EBUSY or -EAGAIN is normalized by virtio_mem_convert_error_code to
-ENOMEM before it reaches the retry loop, and the run_wq switch treats
-ENOMEM as a transient error: it starts the retry timer and leaves the
broken flag unchanged, rather than marking the device broken. -/
theorem claim_C2 :
    (∀ rc : Int, rc ≠ -ENOSPC → rc ≠ -ETXTBSY → rc ≠ -EBUSY →
      rc ≠ -EAGAIN → virtio_mem_convert_error_code rc = -ENOMEM) ∧
    (∀ s : VM,
      virtio_mem_run_wq_classify s (-ENOMEM)
        = { s with timer_pending := true } ∧
      (virtio_mem_run_wq_classify s (-ENOMEM)).broken = s.broken) := by
  constructor
  · intro rc h1 h2 h3 h4
    unfold virtio_mem_convert_error_code
    rw [if_neg]
    rintro (h | h | h | h)
    · exact h1 h
    · exact h2 h
    · exact h3 h
    · exact h4 h
  · intro s
    constructor
    · unfold virtio_mem_run_wq_classify
      rw [if_neg (by decide), if_neg (by decide), if_pos (by decide)]
    · unfold virtio_mem_run_wq_classify
      rw [if_neg (by decide), if_neg (by decide), if_pos (by decide)]

/-- Counterexample to C2 as stated: with every membuf allocation
failing with -EIO — an error none of the recognized kinds — the worker
run ends in -ENOMEM, schedules the backoff retry timer and leaves the
device unbroken, instead of marking it broken and halting. -/
theorem claim_C2_counterexample :
    virtio_mem_convert_error_code (-EIO_code) = -ENOMEM ∧
    virtio_mem_run_wq 2 vmHostErr
      = some (((virtio_mem_run_wq 2 vmHostErr).getD (vmBase, 0)).1,
          -ENOMEM) ∧
    ((virtio_mem_run_wq 2 vmHostErr).getD (vmBase, 0)).1.broken = false ∧
    ((virtio_mem_run_wq 2 vmHostErr).getD (vmBase, 0)).1.timer_pending
      = true :=
  ⟨by decide, by rfl, by rfl, by rfl⟩

theorem VMstatic_first_bb {a b : VM} (h : VMstatic a b) :
    b.bbm_first_bb_id = a.bbm_first_bb_id :=
  h.2.2.2.2.2.2.2.2.2.2.2.2.2.2.1

/-- C3: in Big Block Mode, when the host plug of a big block succeeded
and adding it to Linux fails, virtio_mem_bbm_plug_and_add_bb returns
the add failure code, and the block ends UNUSED when the compensating
host unplug succeeded and PLUGGED when it failed too. -/
theorem claim_C3 (s : VM) (bb_id : Nat) (s1 : VM) (rc : Int)
    (hrun : virtio_mem_bbm_plug_and_add_bb s bb_id = some (s1, rc))
    (hst : virtio_mem_bbm_get_bb_state s bb_id = VIRTIO_MEM_BBM_BB_UNUSED)
    (hplug : (virtio_mem_bbm_plug_bb s bb_id).2 = 0)
    (haddFail : ∀ sB, virtio_mem_bbm_set_bb_state
        (virtio_mem_bbm_plug_bb s bb_id).1 bb_id VIRTIO_MEM_BBM_BB_ADDED
        = some sB → (virtio_mem_bbm_add_bb sB bb_id).2 ≠ 0) :
    ∃ sB, virtio_mem_bbm_set_bb_state (virtio_mem_bbm_plug_bb s bb_id).1
        bb_id VIRTIO_MEM_BBM_BB_ADDED = some sB ∧
      rc = (virtio_mem_bbm_add_bb sB bb_id).2 ∧
      virtio_mem_bbm_get_bb_state s1 bb_id
        = (if (virtio_mem_bbm_unplug_bb (virtio_mem_bbm_add_bb sB bb_id).1
              bb_id).2 = 0
          then VIRTIO_MEM_BBM_BB_UNUSED else VIRTIO_MEM_BBM_BB_PLUGGED) := by
  unfold virtio_mem_bbm_plug_and_add_bb at hrun
  rw [if_neg (fun hne => hne hst)] at hrun
  rcases hpl : virtio_mem_bbm_plug_bb s bb_id with ⟨sA, rcA⟩
  rw [hpl] at hrun haddFail hplug
  dsimp only at hrun haddFail hplug ⊢
  replace hplug : rcA = 0 := hplug
  rw [if_neg (fun hne => hne hplug)] at hrun
  rcases hset : virtio_mem_bbm_set_bb_state sA bb_id VIRTIO_MEM_BBM_BB_ADDED
    with _ | sB
  · rw [hset] at hrun
    exact Option.noConfusion hrun
  · rw [hset] at hrun
    simp only [Option.bind_eq_bind, Option.some_bind] at hrun
    refine ⟨sB, rfl, ?_⟩
    have haf := haddFail sB hset
    rcases hadd : virtio_mem_bbm_add_bb sB bb_id with ⟨sC, rcC⟩
    rw [hadd] at hrun
    dsimp only at hrun
    rw [hadd] at haf
    replace haf : rcC ≠ 0 := haf
    rw [if_neg haf] at hrun
    rcases hunp : virtio_mem_bbm_unplug_bb sC bb_id with ⟨sD, rcD⟩
    rw [hunp] at hrun
    dsimp only at hrun
    rcases hset2 : virtio_mem_bbm_set_bb_state sD bb_id
        (if rcD = 0 then VIRTIO_MEM_BBM_BB_UNUSED
          else VIRTIO_MEM_BBM_BB_PLUGGED) with _ | sE
    · rw [hset2] at hrun
      exact Option.noConfusion hrun
    · rw [hset2] at hrun
      replace hrun : some ((sE : VM), rcC) = some (s1, rc) := hrun
      simp only [Option.some.injEq, Prod.mk.injEq] at hrun
      obtain ⟨h1, h2⟩ := hrun
      subst h1
      obtain ⟨v1, _, _, _, _, _, _, vlast⟩ :=
        virtio_mem_bbm_set_bb_state_spec sD bb_id
          (if rcD = 0 then VIRTIO_MEM_BBM_BB_UNUSED
            else VIRTIO_MEM_BBM_BB_PLUGGED) sE hset2
      refine ⟨h2.symm, ?_⟩
      unfold virtio_mem_bbm_get_bb_state
      rw [VMstatic_first_bb v1]
      exact vlast

/-- Closed instance of C3: on the BBM rollback fixture the add fails
with -ENOMEM, the compensating unplug succeeds and big block 1 ends
UNUSED. -/
theorem claim_C3_witness :
    ∃ sB, virtio_mem_bbm_set_bb_state
        (virtio_mem_bbm_plug_bb vmBbmRollback 1).1 1
        VIRTIO_MEM_BBM_BB_ADDED = some sB ∧
      (-ENOMEM : Int) = (virtio_mem_bbm_add_bb sB 1).2 ∧
      virtio_mem_bbm_get_bb_state
          ((virtio_mem_bbm_plug_and_add_bb vmBbmRollback 1).getD
            (vmBase, 0)).1 1
        = (if (virtio_mem_bbm_unplug_bb (virtio_mem_bbm_add_bb sB 1).1 1).2
              = 0
          then VIRTIO_MEM_BBM_BB_UNUSED else VIRTIO_MEM_BBM_BB_PLUGGED) := by
  refine claim_C3 vmBbmRollback 1
    ((virtio_mem_bbm_plug_and_add_bb vmBbmRollback 1).getD (vmBase, 0)).1
    (-ENOMEM) (by rfl) (by rfl) (by rfl) ?_
  intro sB hs
  have hv : virtio_mem_bbm_set_bb_state
      (virtio_mem_bbm_plug_bb vmBbmRollback 1).1 1 VIRTIO_MEM_BBM_BB_ADDED
      = some ((virtio_mem_bbm_set_bb_state
          (virtio_mem_bbm_plug_bb vmBbmRollback 1).1 1
          VIRTIO_MEM_BBM_BB_ADDED).getD vmBase) := by rfl
  rw [hv] at hs
  injection hs with hs
  rw [← hs]
  decide

/-- C4: setting a block state when the current state's reference
counter is zero aborts (BUG_ON, modelled as none), in both modes; with
a positive counter the call succeeds and, for a proper state change,
decrements the old state's counter and increments the new one's. -/
theorem claim_C4 (s : VM) (mb_id state bb_id bstate : Nat) :
    (s.sbm_mb_count (virtio_mem_sbm_get_mb_state s mb_id) = 0 →
      virtio_mem_sbm_set_mb_state s mb_id state = none) ∧
    (0 < s.sbm_mb_count (virtio_mem_sbm_get_mb_state s mb_id) →
      ∃ s2, virtio_mem_sbm_set_mb_state s mb_id state = some s2 ∧
        (state ≠ virtio_mem_sbm_get_mb_state s mb_id →
          s2.sbm_mb_count (virtio_mem_sbm_get_mb_state s mb_id)
            = s.sbm_mb_count (virtio_mem_sbm_get_mb_state s mb_id) - 1 ∧
          s2.sbm_mb_count state = s.sbm_mb_count state + 1)) ∧
    (s.bbm_bb_count (virtio_mem_bbm_get_bb_state s bb_id) = 0 →
      virtio_mem_bbm_set_bb_state s bb_id bstate = none) ∧
    (0 < s.bbm_bb_count (virtio_mem_bbm_get_bb_state s bb_id) →
      ∃ s2, virtio_mem_bbm_set_bb_state s bb_id bstate = some s2 ∧
        (bstate ≠ virtio_mem_bbm_get_bb_state s bb_id →
          s2.bbm_bb_count (virtio_mem_bbm_get_bb_state s bb_id)
            = s.bbm_bb_count (virtio_mem_bbm_get_bb_state s bb_id) - 1 ∧
          s2.bbm_bb_count bstate = s.bbm_bb_count bstate + 1)) := by
  refine ⟨fun h => ?_, fun h => ?_, fun h => ?_, fun h => ?_⟩
  · unfold virtio_mem_sbm_set_mb_state
    simp only
    unfold virtio_mem_sbm_get_mb_state at h
    rw [if_pos h]
  · unfold virtio_mem_sbm_set_mb_state
    simp only
    rw [if_neg (by unfold virtio_mem_sbm_get_mb_state at h; omega)]
    refine ⟨_, rfl, fun hne => ?_⟩
    unfold virtio_mem_sbm_get_mb_state at hne ⊢
    constructor
    · dsimp only
      rw [if_pos rfl, if_neg (fun hc => hne hc.symm)]
    · dsimp only
      rw [if_neg hne, if_pos rfl]
  · unfold virtio_mem_bbm_set_bb_state
    simp only
    unfold virtio_mem_bbm_get_bb_state at h
    rw [if_pos h]
  · unfold virtio_mem_bbm_set_bb_state
    simp only
    rw [if_neg (by unfold virtio_mem_bbm_get_bb_state at h; omega)]
    refine ⟨_, rfl, fun hne => ?_⟩
    unfold virtio_mem_bbm_get_bb_state at hne ⊢
    constructor
    · dsimp only
      rw [if_pos rfl, if_neg (fun hc => hne hc.symm)]
    · dsimp only
      rw [if_neg hne, if_pos rfl]

/-- C5: a MEM_GOING_ONLINE notification for an SBM block that is not
OFFLINE or OFFLINE_PARTIAL is vetoed with NOTIFY_BAD, a block in one of
those states is acknowledged with NOTIFY_OK, and the notifier handler
never touches the block-state table, the per-state counters or the
subblock bitmap. -/
theorem claim_C5 (s : VM) (mb_id : Nat) :
    ((virtio_mem_sbm_get_mb_state s mb_id ≠ VIRTIO_MEM_SBM_MB_OFFLINE ∧
      virtio_mem_sbm_get_mb_state s mb_id
        ≠ VIRTIO_MEM_SBM_MB_OFFLINE_PARTIAL) →
      virtio_mem_sbm_notify_going_online s mb_id = NOTIFY_BAD) ∧
    ((virtio_mem_sbm_get_mb_state s mb_id = VIRTIO_MEM_SBM_MB_OFFLINE ∨
      virtio_mem_sbm_get_mb_state s mb_id
        = VIRTIO_MEM_SBM_MB_OFFLINE_PARTIAL) →
      virtio_mem_sbm_notify_going_online s mb_id = NOTIFY_OK) ∧
    (∀ start_pfn nr_pages : Nat,
      (virtio_mem_memory_notifier_going_online s start_pfn
        nr_pages).1.sbm_mb_states = s.sbm_mb_states ∧
      (virtio_mem_memory_notifier_going_online s start_pfn
        nr_pages).1.sbm_mb_count = s.sbm_mb_count ∧
      (virtio_mem_memory_notifier_going_online s start_pfn
        nr_pages).1.sbm_sb_states = s.sbm_sb_states) := by
  refine ⟨fun h => ?_, fun h => ?_, fun start_pfn nr_pages => ?_⟩
  · unfold virtio_mem_sbm_notify_going_online
    simp only
    rw [if_neg]
    rintro (hc | hc)
    · exact h.2 hc
    · exact h.1 hc
  · unfold virtio_mem_sbm_notify_going_online
    simp only
    rw [if_pos]
    rcases h with hc | hc
    · exact Or.inr hc
    · exact Or.inl hc
  · unfold virtio_mem_memory_notifier_going_online
    simp only
    repeat' split
    all_goals exact ⟨rfl, rfl, rfl⟩

/-- C6 (amended): virtio_mem_sbm_unplug_request scans candidate blocks
state by state in the order OFFLINE_PARTIAL, OFFLINE, MOVABLE_PARTIAL,
KERNEL_PARTIAL, MOVABLE, KERNEL — partially plugged online blocks of
both zones before fully plugged ones, rather than all movable-zone
blocks before all kernel-zone blocks — and each per-state scan visits
block ids in descending order. -/
theorem claim_C6 (s : VM) (h1 : 1 ≤ s.sbm_first_mb_id) :
    virtio_mem_sbm_unplug_visit_order s
      = virtio_mem_sbm_state_ids_rev s VIRTIO_MEM_SBM_MB_OFFLINE_PARTIAL
        ++ (virtio_mem_sbm_state_ids_rev s VIRTIO_MEM_SBM_MB_OFFLINE
        ++ (virtio_mem_sbm_state_ids_rev s VIRTIO_MEM_SBM_MB_MOVABLE_PARTIAL
        ++ (virtio_mem_sbm_state_ids_rev s VIRTIO_MEM_SBM_MB_KERNEL_PARTIAL
        ++ (virtio_mem_sbm_state_ids_rev s VIRTIO_MEM_SBM_MB_MOVABLE
        ++ virtio_mem_sbm_state_ids_rev s VIRTIO_MEM_SBM_MB_KERNEL)))) ∧
    ∀ st, List.Sorted (· > ·) (virtio_mem_sbm_state_ids_rev s st) := by
  constructor
  · unfold virtio_mem_sbm_unplug_visit_order virtio_mem_sbm_unplug_states
    simp [List.flatMap_cons, List.flatMap_nil]
  · intro st
    unfold virtio_mem_sbm_state_ids_rev
    split
    · exact List.sorted_nil
    · refine List.Pairwise.filter _ ?_
      rw [List.pairwise_map]
      refine List.Pairwise.imp_of_mem ?_
        (List.pairwise_lt_range (s.sbm_next_mb_id - s.sbm_first_mb_id))
      intro a b ha hb hab
      rw [List.mem_range] at ha hb
      omega

/-- Closed instance of C6 (amended) on the two-block fixture. -/
theorem claim_C6_witness :
    1 ≤ vmUnplugOrder.sbm_first_mb_id ∧
    (virtio_mem_sbm_unplug_visit_order vmUnplugOrder
      = virtio_mem_sbm_state_ids_rev vmUnplugOrder
          VIRTIO_MEM_SBM_MB_OFFLINE_PARTIAL
        ++ (virtio_mem_sbm_state_ids_rev vmUnplugOrder
            VIRTIO_MEM_SBM_MB_OFFLINE
        ++ (virtio_mem_sbm_state_ids_rev vmUnplugOrder
            VIRTIO_MEM_SBM_MB_MOVABLE_PARTIAL
        ++ (virtio_mem_sbm_state_ids_rev vmUnplugOrder
            VIRTIO_MEM_SBM_MB_KERNEL_PARTIAL
        ++ (virtio_mem_sbm_state_ids_rev vmUnplugOrder
            VIRTIO_MEM_SBM_MB_MOVABLE
        ++ virtio_mem_sbm_state_ids_rev vmUnplugOrder
            VIRTIO_MEM_SBM_MB_KERNEL)))) ∧
      ∀ st, List.Sorted (· > ·)
        (virtio_mem_sbm_state_ids_rev vmUnplugOrder st)) :=
  ⟨by decide, claim_C6 vmUnplugOrder (by decide)⟩

/-- Counterexample to C6 as stated: on the two-block fixture the
source's visit order is [1, 2] (KERNEL_PARTIAL before MOVABLE) while
the claimed zone-major order is [2, 1]. -/
theorem claim_C6_counterexample :
    virtio_mem_sbm_unplug_visit_order vmUnplugOrder = [1, 2] ∧
    claimed_sbm_unplug_visit_order vmUnplugOrder = [2, 1] ∧
    virtio_mem_sbm_unplug_visit_order vmUnplugOrder
      ≠ claimed_sbm_unplug_visit_order vmUnplugOrder :=
  ⟨by decide, by decide, by decide⟩

theorem virtio_mem_fake_offline_loop_all_fail (pfn nr_pages : Nat) :
    ∀ (fuel : Nat) (s : VM) (mv : Bool),
      (∀ k, s.env.config_changed_read (s.cfg_cnt + k) = false) →
      (∀ k, s.env.alloc_contig_result (s.contig_cnt + k) ≠ 0 ∧
        s.env.alloc_contig_result (s.contig_cnt + k) ≠ -ENOMEM) →
      (virtio_mem_fake_offline_loop pfn nr_pages fuel s mv).2 = -EBUSY := by
  intro fuel
  induction fuel with
  | zero =>
    intro s mv _ _
    rw [virtio_mem_fake_offline_loop]
  | succ fuel ih =>
    intro s mv hcfg halloc
    rw [virtio_mem_fake_offline_loop]
    simp only
    rw [if_neg (by
      have := hcfg 0
      rw [Nat.add_zero] at this
      simp [this])]
    rw [if_neg (by
      have := (halloc 0).2
      rw [Nat.add_zero] at this
      exact this)]
    by_cases hmv : mv = true
    · rw [if_neg (by
        have := (halloc 0).1
        rw [Nat.add_zero] at this
        simp [hmv, this])]
      subst hmv
      rw [if_pos (by
        have := (halloc 0).1
        rw [Nat.add_zero] at this
        exact this)]
      refine ih _ true (fun k => ?_) (fun k => ?_)
      · have := hcfg (k + 1)
        simpa [Nat.add_assoc, Nat.add_comm 1 k] using this
      · have := halloc (k + 1)
        simpa [Nat.add_assoc, Nat.add_comm 1 k] using this
    · rw [if_pos (by
        have := (halloc 0).1
        rw [Nat.add_zero] at this
        exact ⟨this, by simpa using hmv⟩)]

/-- C7: virtio_mem_fake_offline makes at most 5 contiguous-allocation
attempts; a configuration change observed at the head of an attempt
returns -EAGAIN at once without consuming an attempt; an -ENOMEM
allocation result is returned at once; when every attempt fails with a
transient error the function returns -EBUSY; and on any failure no page
is left marked fake-offline. -/
theorem claim_C7 (s : VM) (pfn nr_pages : Nat) :
    (virtio_mem_fake_offline s pfn nr_pages).1.contig_cnt
      ≤ s.contig_cnt + 5 ∧
    (s.env.config_changed_read s.cfg_cnt = true →
      (virtio_mem_fake_offline s pfn nr_pages).2 = -EAGAIN ∧
      (virtio_mem_fake_offline s pfn nr_pages).1.contig_cnt
        = s.contig_cnt) ∧
    (s.env.config_changed_read s.cfg_cnt = false →
      s.env.alloc_contig_result s.contig_cnt = -ENOMEM →
      (virtio_mem_fake_offline s pfn nr_pages).2 = -ENOMEM) ∧
    ((∀ k, s.env.config_changed_read (s.cfg_cnt + k) = false) →
      (∀ k, s.env.alloc_contig_result (s.contig_cnt + k) ≠ 0 ∧
        s.env.alloc_contig_result (s.contig_cnt + k) ≠ -ENOMEM) →
      (virtio_mem_fake_offline s pfn nr_pages).2 = -EBUSY) ∧
    ((virtio_mem_fake_offline s pfn nr_pages).2 ≠ 0 →
      (virtio_mem_fake_offline s pfn nr_pages).1.marked_pages
        = s.marked_pages) := by
  refine ⟨?_, fun hch => ?_, fun hch hnm => ?_, fun hcfg halloc => ?_,
    fun hne => ?_⟩
  · exact (virtio_mem_fake_offline_loop_spec pfn nr_pages 5 s
      (s.env.is_zone_movable pfn)).2.2.2.1
  · unfold virtio_mem_fake_offline
    rw [virtio_mem_fake_offline_loop]
    simp only
    rw [if_pos (by simp [hch])]
    exact ⟨rfl, rfl⟩
  · unfold virtio_mem_fake_offline
    rw [virtio_mem_fake_offline_loop]
    simp only
    rw [if_neg (by simp [hch]), if_pos hnm]
    exact hnm
  · exact virtio_mem_fake_offline_loop_all_fail pfn nr_pages 5 s
      (s.env.is_zone_movable pfn) hcfg halloc
  · exact (virtio_mem_fake_offline_spec s pfn nr_pages).2.2 hne

/-- C8: a successful run resets the backoff delay to the minimum; a
transient error (-ETXTBSY, -EBUSY, -ENOMEM) starts the retry timer with
the delay unchanged; each timer expiry doubles the delay, capping at
the maximum; and an -EAGAIN pass reruns the loop immediately with no
classification effect. -/
theorem claim_C8 (s s2 sP : VM) (rc : Int) (fuel : Nat) :
    virtio_mem_run_wq_classify s 0
      = { s with retry_timer_ms := VIRTIO_MEM_RETRY_TIMER_MIN_MS } ∧
    ((rc = -ETXTBSY ∨ rc = -EBUSY ∨ rc = -ENOMEM) →
      virtio_mem_run_wq_classify s rc = { s with timer_pending := true }) ∧
    virtio_mem_timer_expired s
      = { s with
          timer_pending := false,
          retry_timer_ms :=
            min (s.retry_timer_ms * 2) VIRTIO_MEM_RETRY_TIMER_MAX_MS } ∧
    virtio_mem_run_wq_classify s (-EAGAIN) = s ∧
    (virtio_mem_run_wq_pass s2 = some (sP, -EAGAIN) →
      virtio_mem_run_wq_go (fuel + 1) s2 = virtio_mem_run_wq_go fuel sP) := by
  refine ⟨?_, fun htr => ?_, rfl, ?_, fun hpass => ?_⟩
  · unfold virtio_mem_run_wq_classify
    rw [if_pos rfl]
  · unfold virtio_mem_run_wq_classify
    rcases htr with h | h | h <;> subst h <;>
      rw [if_neg (by decide), if_neg (by decide), if_pos (by decide)]
  · unfold virtio_mem_run_wq_classify
    rw [if_neg (by decide), if_neg (by decide), if_neg (by decide),
      if_pos rfl]
  · rw [virtio_mem_run_wq_go]
    simp only [Option.bind_eq_bind]
    rw [hpass]
    simp

theorem virtio_mem_count_sum_shift (cnt : Nat → Nat) (old new N : Nat)
    (hold : old < N) (hnew : new < N) (hpos : 0 < cnt old) :
    ∑ st ∈ Finset.range N,
      (if st = new then
        (if st = old then cnt st - 1 else cnt st) + 1
      else (if st = old then cnt st - 1 else cnt st))
    = ∑ st ∈ Finset.range N, cnt st := by
  have h1 : ∀ st ∈ Finset.range N,
      (if st = new then
        (if st = old then cnt st - 1 else cnt st) + 1
      else (if st = old then cnt st - 1 else cnt st))
      = (if st = old then cnt st - 1 else cnt st)
        + (if st = new then 1 else 0) := by
    intro st _
    by_cases h : st = new <;> simp [h]
  have h2 : ∀ st ∈ Finset.range N,
      (if st = old then cnt st - 1 else cnt st)
        + (if st = old then 1 else 0) = cnt st := by
    intro st _
    by_cases h : st = old
    · subst h
      simp
      omega
    · simp [h]
  rw [Finset.sum_congr rfl h1, Finset.sum_add_distrib]
  have h3 : (∑ st ∈ Finset.range N, if st = new then 1 else 0) = 1 := by
    rw [Finset.sum_ite_eq' (Finset.range N) new (fun _ => 1)]
    rw [if_pos (Finset.mem_range.mpr hnew)]
  have h4 : (∑ st ∈ Finset.range N, if st = old then 1 else 0) = 1 := by
    rw [Finset.sum_ite_eq' (Finset.range N) old (fun _ => 1)]
    rw [if_pos (Finset.mem_range.mpr hold)]
  have h5 : (∑ st ∈ Finset.range N,
        (if st = old then cnt st - 1 else cnt st)) + 1
      = ∑ st ∈ Finset.range N, cnt st := by
    have h6 := Finset.sum_congr rfl h2
    rw [Finset.sum_add_distrib, h4] at h6
    exact h6
  rw [h3]
  omega

theorem virtio_mem_count_sum_bump (cnt : Nat → Nat) (u N : Nat)
    (hu : u < N) :
    ∑ st ∈ Finset.range N, (if st = u then cnt st + 1 else cnt st)
      = (∑ st ∈ Finset.range N, cnt st) + 1 := by
  have h1 : ∀ st ∈ Finset.range N,
      (if st = u then cnt st + 1 else cnt st)
        = cnt st + (if st = u then 1 else 0) := by
    intro st _
    by_cases h : st = u <;> simp [h]
  rw [Finset.sum_congr rfl h1, Finset.sum_add_distrib]
  rw [Finset.sum_ite_eq' (Finset.range N) u (fun _ => 1)]
  rw [if_pos (Finset.mem_range.mpr hu)]

/-- C9: the per-state reference counters always sum to the number of
tracked block ids. A state change with in-range states moves one unit
between two counters, leaving the sum and the id window untouched, and
preparing a new block increments the UNUSED counter exactly when
next_id advances, so both virtio_mem_sbm_prepare_next_mb and
virtio_mem_bbm_prepare_next_bb preserve sum = next_id - first_id. -/
theorem claim_C9 (s : VM) (mb_id state bb_id bstate : Nat) :
    (∀ s2, state < VIRTIO_MEM_SBM_MB_COUNT →
      virtio_mem_sbm_get_mb_state s mb_id < VIRTIO_MEM_SBM_MB_COUNT →
      virtio_mem_sbm_set_mb_state s mb_id state = some s2 →
      virtio_mem_sbm_count_sum s2 = virtio_mem_sbm_count_sum s ∧
      s2.sbm_next_mb_id = s.sbm_next_mb_id ∧
      s2.sbm_first_mb_id = s.sbm_first_mb_id) ∧
    (s.sbm_first_mb_id ≤ s.sbm_next_mb_id →
      virtio_mem_sbm_count_sum s = s.sbm_next_mb_id - s.sbm_first_mb_id →
      virtio_mem_sbm_count_sum (virtio_mem_sbm_prepare_next_mb s).1
        = (virtio_mem_sbm_prepare_next_mb s).1.sbm_next_mb_id
          - (virtio_mem_sbm_prepare_next_mb s).1.sbm_first_mb_id) ∧
    (∀ s2, bstate < VIRTIO_MEM_BBM_BB_COUNT →
      virtio_mem_bbm_get_bb_state s bb_id < VIRTIO_MEM_BBM_BB_COUNT →
      virtio_mem_bbm_set_bb_state s bb_id bstate = some s2 →
      virtio_mem_bbm_count_sum s2 = virtio_mem_bbm_count_sum s ∧
      s2.bbm_next_bb_id = s.bbm_next_bb_id ∧
      s2.bbm_first_bb_id = s.bbm_first_bb_id) ∧
    (s.bbm_first_bb_id ≤ s.bbm_next_bb_id →
      virtio_mem_bbm_count_sum s = s.bbm_next_bb_id - s.bbm_first_bb_id →
      virtio_mem_bbm_count_sum (virtio_mem_bbm_prepare_next_bb s).1
        = (virtio_mem_bbm_prepare_next_bb s).1.bbm_next_bb_id
          - (virtio_mem_bbm_prepare_next_bb s).1.bbm_first_bb_id) := by
  refine ⟨fun s2 hnew hold heq => ?_, fun hle hinv => ?_,
    fun s2 hnew hold heq => ?_, fun hle hinv => ?_⟩
  · unfold virtio_mem_sbm_set_mb_state at heq
    simp only at heq
    unfold virtio_mem_sbm_get_mb_state at hold
    split at heq
    · exact Option.noConfusion heq
    · next hc =>
      simp only [Option.some.injEq] at heq
      subst heq
      refine ⟨?_, rfl, rfl⟩
      unfold virtio_mem_sbm_count_sum
      exact virtio_mem_count_sum_shift s.sbm_mb_count
        (s.sbm_mb_states (mb_id - s.sbm_first_mb_id)) state
        VIRTIO_MEM_SBM_MB_COUNT hold hnew (by omega)
  · unfold virtio_mem_sbm_prepare_next_mb
    simp only
    split
    · exact hinv
    · rcases h1 : virtio_mem_sbm_mb_states_prepare_next_mb s with ⟨sA, rcA⟩
      have hkeepA : sA.sbm_mb_count = s.sbm_mb_count ∧
          sA.sbm_next_mb_id = s.sbm_next_mb_id ∧
          sA.sbm_first_mb_id = s.sbm_first_mb_id := by
        unfold virtio_mem_sbm_mb_states_prepare_next_mb at h1
        simp only at h1
        split at h1
        · simp only [Prod.mk.injEq] at h1
          rw [← h1.1]
          exact ⟨rfl, rfl, rfl⟩
        · split at h1 <;>
            (simp only [Prod.mk.injEq] at h1
             rw [← h1.1]
             exact ⟨rfl, rfl, rfl⟩)
      dsimp only
      split
      · rw [show virtio_mem_sbm_count_sum sA
            = virtio_mem_sbm_count_sum s from by
              unfold virtio_mem_sbm_count_sum
              rw [hkeepA.1],
          hkeepA.2.1, hkeepA.2.2]
        exact hinv
      · rcases h2 : virtio_mem_sbm_sb_states_prepare_next_mb sA
          with ⟨sB, rcB⟩
        have hkeepB : sB.sbm_mb_count = sA.sbm_mb_count ∧
            sB.sbm_next_mb_id = sA.sbm_next_mb_id ∧
            sB.sbm_first_mb_id = sA.sbm_first_mb_id := by
          unfold virtio_mem_sbm_sb_states_prepare_next_mb at h2
          simp only at h2
          split at h2
          · simp only [Prod.mk.injEq] at h2
            rw [← h2.1]
            exact ⟨rfl, rfl, rfl⟩
          · split at h2 <;>
              (simp only [Prod.mk.injEq] at h2
               rw [← h2.1]
               exact ⟨rfl, rfl, rfl⟩)
        have hcntB : virtio_mem_sbm_count_sum sB
            = virtio_mem_sbm_count_sum s := by
          unfold virtio_mem_sbm_count_sum
          rw [hkeepB.1, hkeepA.1]
        have hnB : sB.sbm_next_mb_id = s.sbm_next_mb_id := by
          rw [hkeepB.2.1, hkeepA.2.1]
        have hfB : sB.sbm_first_mb_id = s.sbm_first_mb_id := by
          rw [hkeepB.2.2, hkeepA.2.2]
        dsimp only
        split
        · rw [hcntB, hnB, hfB]
          exact hinv
        · dsimp only
          unfold virtio_mem_sbm_count_sum
          dsimp only
          rw [virtio_mem_count_sum_bump sB.sbm_mb_count
            VIRTIO_MEM_SBM_MB_UNUSED VIRTIO_MEM_SBM_MB_COUNT (by decide)]
          have : (∑ st ∈ Finset.range VIRTIO_MEM_SBM_MB_COUNT,
              sB.sbm_mb_count st) = virtio_mem_sbm_count_sum s := hcntB
          rw [this, hinv, hnB, hfB]
          omega
  · unfold virtio_mem_bbm_set_bb_state at heq
    simp only at heq
    unfold virtio_mem_bbm_get_bb_state at hold
    split at heq
    · exact Option.noConfusion heq
    · next hc =>
      simp only [Option.some.injEq] at heq
      subst heq
      refine ⟨?_, rfl, rfl⟩
      unfold virtio_mem_bbm_count_sum
      exact virtio_mem_count_sum_shift s.bbm_bb_count
        (s.bbm_bb_states (bb_id - s.bbm_first_bb_id)) bstate
        VIRTIO_MEM_BBM_BB_COUNT hold hnew (by omega)
  · unfold virtio_mem_bbm_prepare_next_bb
    simp only
    split
    · exact hinv
    · rcases h1 : virtio_mem_bbm_bb_states_prepare_next_bb s with ⟨sA, rcA⟩
      have hkeepA : sA.bbm_bb_count = s.bbm_bb_count ∧
          sA.bbm_next_bb_id = s.bbm_next_bb_id ∧
          sA.bbm_first_bb_id = s.bbm_first_bb_id := by
        unfold virtio_mem_bbm_bb_states_prepare_next_bb at h1
        simp only at h1
        split at h1
        · simp only [Prod.mk.injEq] at h1
          rw [← h1.1]
          exact ⟨rfl, rfl, rfl⟩
        · split at h1 <;>
            (simp only [Prod.mk.injEq] at h1
             rw [← h1.1]
             exact ⟨rfl, rfl, rfl⟩)
      have hcntA : virtio_mem_bbm_count_sum sA
          = virtio_mem_bbm_count_sum s := by
        unfold virtio_mem_bbm_count_sum
        rw [hkeepA.1]
      dsimp only
      split
      · rw [hcntA, hkeepA.2.1, hkeepA.2.2]
        exact hinv
      · dsimp only
        unfold virtio_mem_bbm_count_sum
        dsimp only
        rw [virtio_mem_count_sum_bump sA.bbm_bb_count
          VIRTIO_MEM_BBM_BB_UNUSED VIRTIO_MEM_BBM_BB_COUNT (by decide)]
        have : (∑ st ∈ Finset.range VIRTIO_MEM_BBM_BB_COUNT,
            sA.bbm_bb_count st) = virtio_mem_bbm_count_sum s := hcntA
        rw [this, hinv, hkeepA.2.1, hkeepA.2.2]
        omega
